import Mathlib

/-!
# Verification of the StockFlow stock ledger and movement engine

This file is a shallow embedding, in Lean 4, of the stock ledger core of the
`stockflow-backend-api` repository: the database schema rows relevant to the
ledger (`src/db/schema/schema.ts`), `createSale` / `listSales`
(sales service), `createReturn` / `listReturns` / `getReturnById`
(`returns.service.ts`), and `createStockTransfer` / `listStockTransfers` /
`getStockTransferById` / `updateStockTransferStatus` (stock transfers
service).

Modelling conventions:
* Database tables are Lean lists of row structures, in insertion order; an
  `INSERT` appends at the end of the list. Row ids come from a single
  `nextId` counter on the state (the embedding of Postgres `serial` keys:
  fresh and strictly increasing).
* A Drizzle `select ... limit 1` is `List.find?`; an `update ... where id = x`
  maps over the list replacing rows whose id matches.
* Monetary `numeric` columns are embedded as `Int`; the `toFixed(2)` decimal
  formatting performed by the services is not modelled (no claim concerns
  decimal rendering). Quantities are `Int` (JS numbers used integrally;
  `Math.floor` is the identity on integers).
* Timestamp columns (`createdAt`, `updatedAt`, `soldAt`) are not modelled;
  no claim depends on wall-clock values.
* A `db.transaction(...)` body is a state-passing function; a thrown error
  becomes `Except.error`, and the surrounding operation then yields the
  *original* state (the embedding of ROLLBACK). `createSale`'s transaction
  body additionally takes a storage-failure oracle `fail : Nat → Bool`
  deciding whether the n-th row write inside the transaction throws, so that
  mid-transaction storage failures (and the resulting rollback) are
  expressible.
* The `note` text column of stock movements is embedded as a structured
  value `Note` whose `Note.render` produces exactly the strings the services
  write; this keeps the information content of the column while letting
  proofs case on which kind of note was written.
-/

/-- `stock_movement_type` enum from `schema.ts`
(`purchase | sale | adjustment | return | opening_balance`);
`ret` embeds the SQL enum value `return` (a Lean keyword). -/
inductive MovementType
  | purchase
  | sale
  | adjustment
  | ret
  | opening_balance
deriving DecidableEq, Repr

/-- `sale_status` enum from `schema.ts`. -/
inductive SaleStatus
  | pending
  | completed
  | cancelled
deriving DecidableEq, Repr

/-- `payment_method` enum from `schema.ts`. -/
inductive PaymentMethod
  | cash
  | mpesa
  | bank_transfer
  | card
  | other
deriving DecidableEq, Repr

/-- Status strings written to `stock_transfers.status` by the transfers
service (`"pending" | "in-transit" | "received"`). -/
inductive TransferStatus
  | pending
  | inTransit
  | received
deriving DecidableEq, Repr

/-- Structured embedding of the `note` strings the engines write to
`stock_movements.note`; `Note.render` reproduces the exact source strings. -/
inductive Note
  | posSale
  | saleReturn (saleId : Nat) (reason : Option String)
  | transferOut (toBranchId transferId : Nat)
  | transferIn (fromBranchId transferId : Nat)
deriving DecidableEq, Repr

/-- The exact note strings built by the services
(`"POS sale"`, `` `Return for sale ${saleId}: ${reason}` ``,
`` `Stock transfer out to branch ${toBranchId} (transfer ${id})` ``,
`` `Stock transfer in from branch ${fromBranchId} (transfer ${id})` ``);
a JS-falsy (absent or empty) reason selects the short return note. -/
def Note.render : Note → String
  | .posSale => "POS sale"
  | .saleReturn saleId reason =>
      match reason with
      | some r =>
          if r = "" then "Return for sale " ++ toString saleId
          else "Return for sale " ++ toString saleId ++ ": " ++ r
      | none => "Return for sale " ++ toString saleId
  | .transferOut toBranchId transferId =>
      "Stock transfer out to branch " ++ toString toBranchId ++
        " (transfer " ++ toString transferId ++ ")"
  | .transferIn fromBranchId transferId =>
      "Stock transfer in from branch " ++ toString fromBranchId ++
        " (transfer " ++ toString transferId ++ ")"

/-- `branches` table row (fields used by the transfer engine). -/
structure BranchRow where
  id : Nat
  businessId : Nat
  name : String
deriving DecidableEq, Repr

/-- `products` table row (fields used by the transfer engine). -/
structure ProductRow where
  id : Nat
  businessId : Nat
  name : String
deriving DecidableEq, Repr

/-- `stock_levels` table row. -/
structure StockLevelRow where
  id : Nat
  businessId : Nat
  branchId : Nat
  productId : Nat
  quantity : Int
deriving DecidableEq, Repr

/-- `stock_movements` table row. -/
structure MovementRow where
  id : Nat
  businessId : Nat
  branchId : Nat
  productId : Nat
  userId : Nat
  type : MovementType
  quantity : Int
  note : Note
deriving DecidableEq, Repr

/-- `sales` table row.  Note: the schema declares **no** uniqueness
constraint on `(businessId, offlineId)` — `offline_id` is a plain nullable
varchar column. -/
structure SaleRow where
  id : Nat
  businessId : Nat
  branchId : Nat
  userId : Nat
  totalAmount : Int
  status : SaleStatus
  offlineId : Option String
deriving DecidableEq, Repr

/-- `sale_items` table row. -/
structure SaleItemRow where
  id : Nat
  saleId : Nat
  productId : Nat
  quantity : Int
  unitPrice : Int
  lineTotal : Int
deriving DecidableEq, Repr

/-- `cash_register_entries` table row. -/
structure CashRegisterEntryRow where
  id : Nat
  businessId : Nat
  branchId : Nat
  saleId : Nat
  paymentMethod : PaymentMethod
  referenceCode : Option String
  amount : Int
  recordedByUserId : Nat
deriving DecidableEq, Repr

/-- `returns` table row. -/
structure ReturnRow where
  id : Nat
  businessId : Nat
  branchId : Nat
  saleId : Nat
  userId : Nat
  totalAmount : Int
  reason : Option String
  refundMethod : Option PaymentMethod
  referenceCode : Option String
deriving DecidableEq, Repr

/-- `return_items` table row. -/
structure ReturnItemRow where
  id : Nat
  returnId : Nat
  productId : Nat
  quantity : Int
  unitPrice : Int
  lineTotal : Int
deriving DecidableEq, Repr

/-- `stock_transfers` table row. -/
structure StockTransferRow where
  id : Nat
  businessId : Nat
  fromBranchId : Nat
  toBranchId : Nat
  createdByUserId : Nat
  status : TransferStatus
deriving DecidableEq, Repr

/-- `stock_transfer_items` table row. -/
structure StockTransferItemRow where
  id : Nat
  transferId : Nat
  productId : Nat
  quantity : Int
deriving DecidableEq, Repr

/-- The database state: one list per table, plus the fresh-id counter. -/
structure DB where
  branches : List BranchRow
  products : List ProductRow
  stockLevels : List StockLevelRow
  stockMovements : List MovementRow
  sales : List SaleRow
  saleItems : List SaleItemRow
  cashRegisterEntries : List CashRegisterEntryRow
  returns : List ReturnRow
  returnItems : List ReturnItemRow
  stockTransfers : List StockTransferRow
  stockTransferItems : List StockTransferItemRow
  nextId : Nat
deriving DecidableEq, Repr

/-- An error thrown by a service: the attached HTTP-ish `status` number and
message, as in `err.status = 400; throw err`. -/
structure Err where
  status : Nat
  msg : String
deriving DecidableEq, Repr

/-- Selection predicate for a stock level by its
`(businessId, branchId, productId)` key, as in the services'
`where(and(eq(...businessId), eq(...branchId), eq(...productId)))`. -/
def levelKey (b br p : Nat) (l : StockLevelRow) : Bool :=
  l.businessId == b && l.branchId == br && l.productId == p

/-- `select().from(stockLevels).where(key).limit(1)`. -/
def findLevel (b br p : Nat) (levels : List StockLevelRow) : Option StockLevelRow :=
  levels.find? (levelKey b br p)

/-- `update(stockLevels).set({quantity}).where(eq(stockLevels.id, lid))`. -/
def setLevelQty (lid : Nat) (q : Int) (levels : List StockLevelRow) : List StockLevelRow :=
  levels.map (fun l => if l.id = lid then { l with quantity := q } else l)

/-- Total recorded quantity for a `(business, branch, product)` key: the sum
of the `quantity` fields of the matching `stock_levels` rows (the table
holds at most one row per key in every reachable state, and no row reads as
quantity 0). -/
def qtySum (b br p : Nat) (levels : List StockLevelRow) : Int :=
  ((levels.filter (levelKey b br p)).map (fun l => l.quantity)).sum

/-- `StockLevel` quantity for a key in a database state. -/
def stockQty (db : DB) (b br p : Nat) : Int :=
  qtySum b br p db.stockLevels

/-- Selection predicate for stock movements of one key. -/
def movKey (b br p : Nat) (m : MovementRow) : Bool :=
  m.businessId == b && m.branchId == br && m.productId == p

/-- The signed delta a recorded movement row contributes to its key's stock
level: `sale` rows were written by stock decrements, `return` rows by
increments, and transfer rows (type `adjustment`) decrement at the source
and increment at the destination — the direction being recorded only in the
note, since both carry type `adjustment` and the positive transferred
quantity.  (`purchase`/`opening_balance` rows are never written by the three
engines; they are signed positively here.) -/
def rowDelta (m : MovementRow) : Int :=
  match m.type with
  | .sale => -m.quantity
  | .ret => m.quantity
  | .purchase => m.quantity
  | .opening_balance => m.quantity
  | .adjustment =>
      match m.note with
      | .transferOut _ _ => -m.quantity
      | _ => m.quantity

/-- Signed sum of all movement-log entries for one key. -/
def movSum (b br p : Nat) (movs : List MovementRow) : Int :=
  ((movs.filter (movKey b br p)).map rowDelta).sum

/-- Signed movement sum for a key in a database state. -/
def movementSum (db : DB) (b br p : Nat) : Int :=
  movSum b br p db.stockMovements

/-- Insert a fresh `stock_levels` row (lazy creation on first movement). -/
def insLevel (b br p : Nat) (q : Int) (db : DB) : DB :=
  { db with
    stockLevels := db.stockLevels ++ [⟨db.nextId, b, br, p, q⟩]
    nextId := db.nextId + 1 }

/-- The read-then-write stock adjustment pattern shared by the sale, return
and transfer(-destination) paths: read the level by key; if present set
`quantity := quantity + δ`, else insert a fresh row with `quantity := δ`. -/
def applyDelta (b br p : Nat) (δ : Int) (db : DB) : DB :=
  match findLevel b br p db.stockLevels with
  | some l => { db with stockLevels := setLevelQty l.id (l.quantity + δ) db.stockLevels }
  | none => insLevel b br p δ db

/-- Append one `stock_movements` row. -/
def insMovement (b br p uid : Nat) (t : MovementType) (q : Int) (n : Note) (db : DB) : DB :=
  { db with
    stockMovements := db.stockMovements ++ [⟨db.nextId, b, br, p, uid, t, q, n⟩]
    nextId := db.nextId + 1 }

/-- `CreateSaleItemInput` from the sales service. -/
structure CreateSaleItemInput where
  productId : Nat
  quantity : Int
  unitPrice : Int
deriving DecidableEq, Repr

/-- `CreateSaleParams` from the sales service. -/
structure CreateSaleParams where
  businessId : Nat
  branchId : Nat
  userId : Nat
  items : List CreateSaleItemInput
  totalAmount : Int
  paymentMethod : PaymentMethod
  referenceCode : Option String
  offlineId : Option String
deriving Repr

/-- Transaction-in-progress state: the partially written database and the
count of row writes performed so far (consulted by the failure oracle). -/
structure TxSt where
  db : DB
  w : Nat

/-- One row write inside a transaction: fails (throws) iff the oracle says
the current write fails; otherwise applies the write and counts it. -/
def txWrite (fail : Nat → Bool) (f : DB → DB) (s : TxSt) : Except Err TxSt :=
  if fail s.w then .error ⟨500, "storage failure"⟩
  else .ok ⟨f s.db, s.w + 1⟩

/-- The storage oracle under which no write fails. -/
def noFail : Nat → Bool := fun _ => false

/-- `tx.insert(saleItems).values({...})` for one sale line item. -/
def insSaleItem (saleId : Nat) (item : CreateSaleItemInput) (db : DB) : DB :=
  { db with
    saleItems := db.saleItems ++
      [⟨db.nextId, saleId, item.productId, item.quantity, item.unitPrice,
        item.quantity * item.unitPrice⟩]
    nextId := db.nextId + 1 }

/-- The per-item body of `createSale`'s transaction loop: insert the
`sale_items` row; read the stock level and decrement it (or create it at
`-quantity`); append a `sale`-type movement with note "POS sale". -/
def saleStep (p : CreateSaleParams) (fail : Nat → Bool) (saleId : Nat)
    (item : CreateSaleItemInput) (s : TxSt) : Except Err TxSt := do
  let s ← txWrite fail (insSaleItem saleId item) s
  let s ← txWrite fail (applyDelta p.businessId p.branchId item.productId (-item.quantity)) s
  txWrite fail
    (insMovement p.businessId p.branchId item.productId p.userId
      .sale item.quantity .posSale) s

/-- `for (const item of items) { ... }` inside `createSale`'s transaction. -/
def saleLoop (p : CreateSaleParams) (fail : Nat → Bool) (saleId : Nat) :
    List CreateSaleItemInput → TxSt → Except Err TxSt
  | [], s => .ok s
  | item :: rest, s => do
      let s ← saleStep p fail saleId item s
      saleLoop p fail saleId rest s

/-- `tx.insert(sales).values({..., status: "completed", offlineId: offlineId ?? null})`.
No duplicate-`offlineId` check is performed (and the schema has no
uniqueness constraint on it). -/
def insSale (p : CreateSaleParams) (db : DB) : DB :=
  { db with
    sales := db.sales ++
      [⟨db.nextId, p.businessId, p.branchId, p.userId, p.totalAmount,
        .completed, p.offlineId⟩]
    nextId := db.nextId + 1 }

/-- `tx.insert(cashRegisterEntries).values({...})`. -/
def insCash (p : CreateSaleParams) (saleId : Nat) (db : DB) : DB :=
  { db with
    cashRegisterEntries := db.cashRegisterEntries ++
      [⟨db.nextId, p.businessId, p.branchId, saleId, p.paymentMethod,
        p.referenceCode, p.totalAmount, p.userId⟩]
    nextId := db.nextId + 1 }

/-- `createSale` from the sales service: reject an empty item list with 400,
then in one transaction insert the sale row, loop over the items (line item,
stock decrement, movement), and insert the cash register entry.  On success
the result carries the new sale id and the committed state; a thrown error
inside the transaction rolls back, so an `Except.error` result leaves the
caller with the original state. -/
def createSale (p : CreateSaleParams) (fail : Nat → Bool) (db : DB) :
    Except Err (Nat × DB) :=
  if p.items.isEmpty then
    .error ⟨400, "Sale must have at least one item"⟩
  else
    match (do
        let s ← txWrite fail (insSale p) ⟨db, 0⟩
        let s ← saleLoop p fail db.nextId p.items s
        txWrite fail (insCash p db.nextId) s : Except Err TxSt) with
    | .error e => .error e
    | .ok s => .ok (db.nextId, s.db)

/-- The state after running `createSale` (rollback keeps the input state). -/
def runCreateSale (p : CreateSaleParams) (fail : Nat → Bool) (db : DB) : DB :=
  match createSale p fail db with
  | .error _ => db
  | .ok (_, db1) => db1

/-- The empty database used as initial state in concrete runs. -/
def emptyDB : DB :=
  ⟨[], [], [], [], [], [], [], [], [], [], [], 1⟩

/-- `CreateReturnItemInput` from `returns.service.ts`. -/
structure CreateReturnItemInput where
  productId : Nat
  quantity : Int
deriving DecidableEq, Repr

/-- `CreateReturnParams` from `returns.service.ts`. -/
structure CreateReturnParams where
  businessId : Nat
  branchId : Option Nat
  userId : Nat
  saleId : Nat
  items : List CreateReturnItemInput
  reason : Option String
  refundMethod : Option PaymentMethod
  referenceCode : Option String
deriving Repr

/-- The `saleItemByProductId` map of `createReturn`: built by iterating the
sale's line-item rows and overwriting on duplicate `productId`, so a lookup
yields the **last** matching row's `(quantity, unitPrice)`. -/
def saleItemFor (rows : List SaleItemRow) (pid : Nat) : Option (Int × Int) :=
  rows.foldl
    (fun acc r => if r.productId = pid then some (r.quantity, r.unitPrice) else acc)
    none

/-- The join condition of `createReturn`'s prior-returns query: a
`return_items` row joined to a `returns` row with the given sale and
business. -/
def returnJoined (returnRows : List ReturnRow) (saleId businessId : Nat)
    (ri : ReturnItemRow) : Bool :=
  returnRows.any
    (fun r => r.id == ri.returnId && r.saleId == saleId && r.businessId == businessId)

/-- `alreadyReturnedByProductId`: total quantity already returned for a
product across all returns referencing the sale (in the same business). -/
def alreadyReturnedFor (db : DB) (saleId businessId pid : Nat) : Int :=
  ((db.returnItems.filter
      (fun ri => ri.productId == pid && returnJoined db.returns saleId businessId ri)).map
    (fun ri => ri.quantity)).sum

/-- One entry of `createReturn`'s `validatedItems` accumulator. -/
structure ValidatedReturnItem where
  productId : Nat
  quantity : Int
  unitPrice : Int
  lineTotal : Int
deriving DecidableEq, Repr

/-- The validation loop of `createReturn`, in request order: the product
must appear in the sale's items (lookup in the last-wins map); the requested
quantity must be positive; `maxAvailable = originalQuantity -
alreadyReturned` must be positive and at least the requested quantity.  The
`already` function is computed **once** before the loop and is *not* updated
between items, exactly as in the source (the map is read, never written,
inside the loop). -/
def returnValidate (saleRows : List SaleItemRow) (already : Nat → Int) :
    List CreateReturnItemInput → Except Err (List ValidatedReturnItem)
  | [] => .ok []
  | item :: rest =>
    match saleItemFor saleRows item.productId with
    | none =>
        .error ⟨400, "Product " ++ toString item.productId ++
          " is not part of the original sale"⟩
    | some base =>
        if item.quantity ≤ 0 then
          .error ⟨400, "Invalid quantity for product " ++ toString item.productId⟩
        else
          let maxAvailable := base.1 - already item.productId
          if maxAvailable ≤ 0 then
            .error ⟨400, "All units of product " ++ toString item.productId ++
              " have already been returned"⟩
          else if maxAvailable < item.quantity then
            .error ⟨400, "Cannot return " ++ toString item.quantity ++
              " units of product " ++ toString item.productId ++ "; only " ++
              toString maxAvailable ++ " remaining from the original sale"⟩
          else
            match returnValidate saleRows already rest with
            | .error e => .error e
            | .ok vs =>
                .ok (⟨item.productId, item.quantity, base.2,
                  base.2 * item.quantity⟩ :: vs)

/-- JS `s?.trim() || null`: trim, and a resulting empty string becomes null. -/
def jsTrimOrNull (s : Option String) : Option String :=
  match s with
  | some str => if str.trim = "" then none else some str.trim
  | none => none

/-- `tx.insert(returns).values({...})`. -/
def insReturn (businessId branchId saleId userId : Nat) (totalAmount : Int)
    (reason : Option String) (refundMethod : Option PaymentMethod)
    (referenceCode : Option String) (db : DB) : DB :=
  { db with
    returns := db.returns ++
      [⟨db.nextId, businessId, branchId, saleId, userId, totalAmount,
        jsTrimOrNull reason, refundMethod, jsTrimOrNull referenceCode⟩]
    nextId := db.nextId + 1 }

/-- `tx.insert(returnItems).values({...})`. -/
def insReturnItem (returnId : Nat) (v : ValidatedReturnItem) (db : DB) : DB :=
  { db with
    returnItems := db.returnItems ++
      [⟨db.nextId, returnId, v.productId, v.quantity, v.unitPrice, v.lineTotal⟩]
    nextId := db.nextId + 1 }

/-- The transaction loop of `createReturn`: for each validated item insert
the `return_items` row, increment the stock level at the sale's branch (or
create it at the returned quantity), and append a `return`-type movement
whose note carries the sale id and the raw request reason. -/
def returnTxLoop (businessId branchId userId saleId : Nat) (reason : Option String)
    (rid : Nat) : List ValidatedReturnItem → DB → DB
  | [], db => db
  | v :: rest, db =>
      let db1 := insReturnItem rid v db
      let db2 := applyDelta businessId branchId v.productId v.quantity db1
      let db3 := insMovement businessId branchId v.productId userId .ret v.quantity
        (.saleReturn saleId reason) db2
      returnTxLoop businessId branchId userId saleId reason rid rest db3

/-- `createReturn` from `returns.service.ts`.  All validation (sale lookup
by `(id, businessId)`, branch match, line-item map, prior-return sums,
per-item checks) happens **before** the transaction; the transaction then
inserts the `returns` row (branch forced to the sale's branch) and runs the
item loop.  The transaction body of the source cannot throw except on
storage failure, so the embedded transaction is a pure state function. -/
def createReturn (p : CreateReturnParams) (db : DB) : Except Err (Nat × DB) :=
  if p.items.isEmpty then
    .error ⟨400, "Return must have at least one item"⟩
  else
    match db.sales.find? (fun s => s.id == p.saleId && s.businessId == p.businessId) with
    | none => .error ⟨404, "Sale not found for this business"⟩
    | some saleRow =>
      if p.branchId.elim false (fun b => saleRow.branchId != b) then
        .error ⟨400, "Sale does not belong to the current branch"⟩
      else
        let saleRows := db.saleItems.filter (fun si => si.saleId == p.saleId)
        if saleRows.isEmpty then
          .error ⟨400, "Sale has no line items"⟩
        else
          match returnValidate saleRows
              (fun pid => alreadyReturnedFor db p.saleId p.businessId pid) p.items with
          | .error e => .error e
          | .ok validated =>
              let totalAmount := (validated.map (fun v => v.lineTotal)).sum
              let rid := db.nextId
              let db1 := insReturn p.businessId saleRow.branchId p.saleId p.userId
                totalAmount p.reason p.refundMethod p.referenceCode db
              let db2 := returnTxLoop p.businessId saleRow.branchId p.userId p.saleId
                p.reason rid validated db1
              .ok (rid, db2)

/-- The state after running `createReturn` (rollback keeps the input). -/
def runCreateReturn (p : CreateReturnParams) (db : DB) : DB :=
  match createReturn p db with
  | .error _ => db
  | .ok (_, db1) => db1

/-- `CreateStockTransferItemInput` from the transfers service. -/
structure CreateStockTransferItemInput where
  productId : Nat
  quantity : Int
deriving DecidableEq, Repr

/-- `CreateStockTransferParams` from the transfers service. -/
structure CreateStockTransferParams where
  businessId : Nat
  userId : Nat
  fromBranchId : Nat
  toBranchId : Nat
  items : List CreateStockTransferItemInput
deriving Repr

/-- The `productById` map of `createStockTransfer` (last row wins, as for
the sale-item map; product ids are unique in practice). -/
def productFor (db : DB) (pid : Nat) : Option ProductRow :=
  db.products.foldl (fun acc pr => if pr.id = pid then some pr else acc) none

/-- `select().from(branches).where(and(eq(id), eq(businessId))).limit(1)`. -/
def findBranch (db : DB) (bid businessId : Nat) : Option BranchRow :=
  db.branches.find? (fun b => b.id == bid && b.businessId == businessId)

/-- The pre-transaction per-item validation loop of `createStockTransfer`:
each product must exist and belong to the business, and each quantity must
be positive.  Returns the first error, if any. -/
def transferValidate (db : DB) (businessId : Nat) :
    List CreateStockTransferItemInput → Option Err
  | [] => none
  | item :: rest =>
    match productFor db item.productId with
    | none =>
        some ⟨400, "Product " ++ toString item.productId ++
          " not found for this business"⟩
    | some pr =>
        if pr.businessId ≠ businessId then
          some ⟨400, "Product " ++ toString item.productId ++
            " not found for this business"⟩
        else if item.quantity ≤ 0 then
          some ⟨400, "Invalid quantity for product " ++ toString item.productId⟩
        else transferValidate db businessId rest

/-- `tx.insert(stockTransfers).values({..., status: "pending"})`. -/
def insTransfer (p : CreateStockTransferParams) (db : DB) : DB :=
  { db with
    stockTransfers := db.stockTransfers ++
      [⟨db.nextId, p.businessId, p.fromBranchId, p.toBranchId, p.userId, .pending⟩]
    nextId := db.nextId + 1 }

/-- `tx.insert(stockTransferItems).values({...})`. -/
def insTransferItem (tid pid : Nat) (qty : Int) (db : DB) : DB :=
  { db with
    stockTransferItems := db.stockTransferItems ++ [⟨db.nextId, tid, pid, qty⟩]
    nextId := db.nextId + 1 }

/-- The per-item body of `createStockTransfer`'s transaction: read the
`from` level (current quantity 0 when absent) and fail `InsufficientStock`
(status 400) if it is below the requested quantity; otherwise decrement the
`from` level, increment or create the `to` level, insert the
`stock_transfer_items` row, and append the two `adjustment`-type movements
(out at the source, in at the destination). -/
def transferStep (b fromBr toBr uid tid : Nat) (item : CreateStockTransferItemInput)
    (db : DB) : Except Err DB :=
  let fl := findLevel b fromBr item.productId db.stockLevels
  let fromQty := (fl.map (fun l => l.quantity)).getD 0
  if fromQty < item.quantity then
    .error ⟨400, "Insufficient stock for product " ++ toString item.productId ++
      " in branch " ++ toString fromBr⟩
  else
    let db1 := match fl with
      | some l =>
          { db with stockLevels := setLevelQty l.id (l.quantity - item.quantity) db.stockLevels }
      | none => db
    let db2 := applyDelta b toBr item.productId item.quantity db1
    let db3 := insTransferItem tid item.productId item.quantity db2
    let db4 := insMovement b fromBr item.productId uid .adjustment item.quantity
      (.transferOut toBr tid) db3
    let db5 := insMovement b toBr item.productId uid .adjustment item.quantity
      (.transferIn fromBr tid) db4
    .ok db5

/-- `for (const item of items) { ... }` inside the transfer transaction;
later items see the stock updates of earlier ones (same transaction). -/
def transferLoop (b fromBr toBr uid tid : Nat) :
    List CreateStockTransferItemInput → DB → Except Err DB
  | [], db => .ok db
  | item :: rest, db =>
      match transferStep b fromBr toBr uid tid item db with
      | .error e => .error e
      | .ok db1 => transferLoop b fromBr toBr uid tid rest db1

/-- `createStockTransfer` from the transfers service: reject an empty item
list, equal branches, a missing branch, an unknown/foreign product or a
non-positive quantity — all before the transaction; then insert the
`stock_transfers` row and run the item loop, any failure of which rolls the
whole transfer back. -/
def createStockTransfer (p : CreateStockTransferParams) (db : DB) :
    Except Err (Nat × DB) :=
  if p.items.isEmpty then
    .error ⟨400, "Transfer must have at least one item"⟩
  else if p.fromBranchId == p.toBranchId then
    .error ⟨400, "From and to branches must be different"⟩
  else
    match findBranch db p.fromBranchId p.businessId,
        findBranch db p.toBranchId p.businessId with
    | some _, some _ =>
        match transferValidate db p.businessId p.items with
        | some e => .error e
        | none =>
            match transferLoop p.businessId p.fromBranchId p.toBranchId p.userId
                db.nextId p.items (insTransfer p db) with
            | .error e => .error e
            | .ok db2 => .ok (db.nextId, db2)
    | _, _ => .error ⟨400, "Branches not found for this business"⟩

/-- The state after running `createStockTransfer` (rollback keeps the input). -/
def runCreateStockTransfer (p : CreateStockTransferParams) (db : DB) : DB :=
  match createStockTransfer p db with
  | .error _ => db
  | .ok (_, db1) => db1

/-- `updateStockTransferStatus` from the transfers service: one `UPDATE ...
SET status WHERE id = ? AND business_id = ?`; an empty `returning()` (no row
matched) yields 404 with no change.  The reload the source performs through
`listStockTransfers` to build its response cannot fail once the update
matched; the embedding returns the updated row directly. -/
def updateStockTransferStatus (id businessId : Nat) (status : TransferStatus)
    (db : DB) : Except Err (StockTransferRow × DB) :=
  match db.stockTransfers.find? (fun t => t.id == id && t.businessId == businessId) with
  | none => .error ⟨404, "Stock transfer not found"⟩
  | some t =>
      let db1 := { db with
        stockTransfers := db.stockTransfers.map
          (fun r => if r.id == id && r.businessId == businessId
            then { r with status := status } else r) }
      .ok ({ t with status := status }, db1)

/-- The state after running `updateStockTransferStatus`. -/
def runUpdateStockTransferStatus (id businessId : Nat) (status : TransferStatus)
    (db : DB) : DB :=
  match updateStockTransferStatus id businessId status db with
  | .error _ => db
  | .ok (_, db1) => db1

/-- `getStockTransferById`: the transfer by `(id, businessId)` with its
items, or `null`. -/
def getStockTransferById (id businessId : Nat) (db : DB) :
    Option (StockTransferRow × List StockTransferItemRow) :=
  (db.stockTransfers.find? (fun t => t.id == id && t.businessId == businessId)).map
    (fun t => (t, db.stockTransferItems.filter (fun it => it.transferId == t.id)))

/-- `getReturnById`: the return by `(id, businessId)` with its items, or
`null`. -/
def getReturnById (id businessId : Nat) (db : DB) :
    Option (ReturnRow × List ReturnItemRow) :=
  (db.returns.find? (fun r => r.id == id && r.businessId == businessId)).map
    (fun r => (r, db.returnItems.filter (fun it => it.returnId == r.id)))

/-- Requested sale quantity total for one product across a sale's item list
(one summand per occurrence; a single summand when product ids are
distinct). -/
def itemQtySum (items : List CreateSaleItemInput) (pid : Nat) : Int :=
  ((items.filter (fun i => i.productId == pid)).map (fun i => i.quantity)).sum

/-- Validated return quantity total for one product. -/
def vQtySum (vs : List ValidatedReturnItem) (pid : Nat) : Int :=
  ((vs.filter (fun v => v.productId == pid)).map (fun v => v.quantity)).sum

/-- Requested transfer quantity total for one product. -/
def tQtySum (items : List CreateStockTransferItemInput) (pid : Nat) : Int :=
  ((items.filter (fun i => i.productId == pid)).map (fun i => i.quantity)).sum

/-- A movement row minus its generated id (for stating which rows a
transaction appended without fixing id values). -/
def movCore (m : MovementRow) : Nat × Nat × Nat × Nat × MovementType × Int × Note :=
  (m.businessId, m.branchId, m.productId, m.userId, m.type, m.quantity, m.note)

/-- A sale-item row minus its generated id. -/
def siCore (r : SaleItemRow) : Nat × Nat × Int × Int × Int :=
  (r.saleId, r.productId, r.quantity, r.unitPrice, r.lineTotal)

/-- A return-item row minus its generated id. -/
def riCore (r : ReturnItemRow) : Nat × Nat × Int × Int × Int :=
  (r.returnId, r.productId, r.quantity, r.unitPrice, r.lineTotal)

/-- A transfer-item row minus its generated id. -/
def tiCore (r : StockTransferItemRow) : Nat × Nat × Int :=
  (r.transferId, r.productId, r.quantity)

/-- A stock-transfer row minus its `status` field (for stating that a status
update changes nothing else of the row). -/
def tCore (t : StockTransferRow) : Nat × Nat × Nat × Nat × Nat :=
  (t.id, t.businessId, t.fromBranchId, t.toBranchId, t.createdByUserId)

/-- The `sale_items` row fields `createSale` writes for one input item. -/
def saleItemSpec (sid : Nat) (i : CreateSaleItemInput) : Nat × Nat × Int × Int × Int :=
  (sid, i.productId, i.quantity, i.unitPrice, i.quantity * i.unitPrice)

/-- The movement row fields `createSale` writes for one input item. -/
def saleMovSpec (p : CreateSaleParams) (i : CreateSaleItemInput) :
    Nat × Nat × Nat × Nat × MovementType × Int × Note :=
  (p.businessId, p.branchId, i.productId, p.userId, MovementType.sale, i.quantity,
    Note.posSale)

/-- The `return_items` row fields the return transaction writes. -/
def returnItemSpec (rid : Nat) (v : ValidatedReturnItem) : Nat × Nat × Int × Int × Int :=
  (rid, v.productId, v.quantity, v.unitPrice, v.lineTotal)

/-- The movement row fields the return transaction writes. -/
def returnMovSpec (businessId branchId userId saleId : Nat) (reason : Option String)
    (v : ValidatedReturnItem) : Nat × Nat × Nat × Nat × MovementType × Int × Note :=
  (businessId, branchId, v.productId, userId, MovementType.ret, v.quantity,
    Note.saleReturn saleId reason)

/-- Well-formedness of a database state, maintained by every operation:
all generated ids (and the parent ids foreign keys reference) are below the
`nextId` counter, generated ids are pairwise distinct, and `stock_levels`
holds at most one row per `(business, branch, product)` key. -/
def WF (db : DB) : Prop :=
  (∀ l ∈ db.stockLevels, l.id < db.nextId) ∧
  (db.stockLevels.map (fun l => l.id)).Nodup ∧
  (db.stockLevels.map (fun l => (l.businessId, l.branchId, l.productId))).Nodup ∧
  (∀ r ∈ db.returns, r.id < db.nextId) ∧
  (db.returns.map (fun r => r.id)).Nodup ∧
  (∀ ri ∈ db.returnItems, ri.returnId < db.nextId) ∧
  (∀ s ∈ db.sales, s.id < db.nextId) ∧
  (db.sales.map (fun s => s.id)).Nodup ∧
  (∀ si ∈ db.saleItems, si.saleId < db.nextId) ∧
  (∀ t ∈ db.stockTransfers, t.id < db.nextId) ∧
  (db.stockTransfers.map (fun t => t.id)).Nodup

/-- All rows of the business-scoped tables belonging to one business: the
projection that must be invariant under another business's operations. -/
def bizView (bX : Nat) (db : DB) :
    List SaleRow × List ReturnRow × List StockTransferRow × List StockLevelRow ×
      List MovementRow × List CashRegisterEntryRow :=
  (db.sales.filter (fun r => r.businessId == bX),
   db.returns.filter (fun r => r.businessId == bX),
   db.stockTransfers.filter (fun r => r.businessId == bX),
   db.stockLevels.filter (fun r => r.businessId == bX),
   db.stockMovements.filter (fun r => r.businessId == bX),
   db.cashRegisterEntries.filter (fun r => r.businessId == bX))

/-- One write operation against the ledger core (with, for sales, its
storage-failure oracle). -/
inductive Cmd
  | sale (p : CreateSaleParams) (fail : Nat → Bool)
  | ret (p : CreateReturnParams)
  | transfer (p : CreateStockTransferParams)

/-- Execute one command; a failed (rolled-back) operation leaves the state. -/
def execCmd (db : DB) : Cmd → DB
  | .sale p fail => runCreateSale p fail db
  | .ret p => runCreateReturn p db
  | .transfer p => runCreateStockTransfer p db

/-- Execute a sequence of commands. -/
def execSeq (db : DB) : List Cmd → DB
  | [] => db
  | c :: cs => execSeq (execCmd db c) cs

/-- The ledger conservation invariant: every key's stock level equals the
signed sum of its movement-log entries. -/
def Conservation (db : DB) : Prop :=
  ∀ b br p, stockQty db b br p = movementSum db b br p

/-- The movement sum as the claim under examination computes it: each row's
sign determined by a function of its recorded `type` and `quantity` fields
alone. -/
def claimSignedSum (delta : MovementType → Int → Int) (db : DB) (b br p : Nat) : Int :=
  ((db.stockMovements.filter (movKey b br p)).map (fun m => delta m.type m.quantity)).sum

/-- The claim under examination, at one state: some type-and-quantity-only
signing — counting `sale` rows negatively and `return` rows positively as
the claim prescribes — makes every key's stock level equal its signed
movement sum. -/
def TypeQtySignedConservation (db : DB) : Prop :=
  ∃ delta : MovementType → Int → Int,
    (∀ q, delta .sale q = -q) ∧ (∀ q, delta .ret q = q) ∧
    ∀ b br p, stockQty db b br p = claimSignedSum delta db b br p

/-- Point update of an availability map (spec wording for C6: the remaining
quantity at the source branch after one processed item). -/
def specRemaining (avail : Nat → Int) (pid : Nat) (q : Int) : Nat → Int :=
  fun x => if x = pid then avail x - q else avail x

/-- Modelled from the spec: "fail InsufficientStock exactly when, for some
requested item, the current quantity at the from branch (taken as 0 when no
StockLevel row exists) is less than the requested quantity at the point that
item is processed" — items processed in order, each successful item reducing
the source availability of its product by its quantity. -/
def specInsufficient (avail : Nat → Int) : List CreateStockTransferItemInput → Bool
  | [] => false
  | i :: rest =>
      decide (avail i.productId < i.quantity) ||
        specInsufficient (specRemaining avail i.productId i.quantity) rest

/-! ### Concrete fixtures for witnesses and counterexamples -/

/-- A sale of 5 units of product 42 (unit price 10) at business 1, branch 1. -/
def exSaleParams : CreateSaleParams :=
  ⟨1, 1, 7, [⟨42, 5, 10⟩], 50, .cash, none, none⟩

/-- State after `exSaleParams` against the empty database (sale id 1). -/
def exDB1 : DB := runCreateSale exSaleParams noFail emptyDB

/-- A return request against sale 1 listing product 42 twice, 3 units each
(6 total, exceeding the 5 sold). -/
def exDupReturnParams : CreateReturnParams :=
  ⟨1, none, 7, 1, [⟨42, 3⟩, ⟨42, 3⟩], none, none, none⟩

/-- State after the duplicate-product return against `exDB1`. -/
def exDB2 : DB := runCreateReturn exDupReturnParams exDB1

/-- A valid single-product return request of 2 units against sale 1. -/
def exSingleReturnParams : CreateReturnParams :=
  ⟨1, none, 7, 1, [⟨42, 2⟩], none, none, none⟩

/-- A sale carrying the client idempotency key `offlineId = "abc"`. -/
def exOfflineSaleParams : CreateSaleParams :=
  ⟨1, 1, 7, [⟨42, 1, 10⟩], 10, .cash, none, some "abc"⟩

/-- State after submitting `exOfflineSaleParams` once. -/
def exDBOffline1 : DB := runCreateSale exOfflineSaleParams noFail emptyDB

/-- State after submitting the identical payload a second time. -/
def exDBOffline2 : DB := runCreateSale exOfflineSaleParams noFail exDBOffline1

/-- Initial state for the conservation counterexample: two branches and one
product of business 1, empty ledger. -/
def exC3Init : DB :=
  { emptyDB with
    branches := [⟨1, 1, "A"⟩, ⟨2, 1, "B"⟩]
    products := [⟨42, 1, "P"⟩]
    nextId := 100 }

/-- A (successful) sale of −5 units: `createSale` performs no quantity
validation, and a negative quantity increases recorded stock. -/
def exNegSaleParams : CreateSaleParams :=
  ⟨1, 1, 7, [⟨42, -5, 10⟩], 0, .cash, none, none⟩

/-- Transfer 3 units of product 42 from branch 1 to branch 2. -/
def exTransferParams : CreateStockTransferParams :=
  ⟨1, 7, 1, 2, [⟨42, 3⟩]⟩

/-- The reachable state refuting type-and-quantity-only signing: a negative
sale then a transfer. -/
def exC3DB : DB :=
  execSeq exC3Init [.sale exNegSaleParams noFail, .transfer exTransferParams]

/-- A stocked database: 10 units of product 42 at branch 1 of business 1,
with a matching movement history (one `purchase` row), plus a second
business 2 with its own branch 9 and stock. -/
def exStockDB : DB :=
  { emptyDB with
    branches := [⟨1, 1, "A"⟩, ⟨2, 1, "B"⟩, ⟨9, 2, "Z"⟩]
    products := [⟨42, 1, "P"⟩, ⟨43, 2, "Q"⟩]
    stockLevels := [⟨3, 1, 1, 42, 10⟩, ⟨4, 2, 9, 43, 8⟩]
    stockMovements := [⟨5, 1, 1, 42, 7, .purchase, 10, .posSale⟩,
                       ⟨6, 2, 9, 43, 7, .purchase, 8, .posSale⟩]
    nextId := 20 }

/-- A transfer requesting more (12) than branch 1 holds (10). -/
def exBigTransferParams : CreateStockTransferParams :=
  ⟨1, 7, 1, 2, [⟨42, 12⟩]⟩

/-- A pending transfer of business 1 sitting in a database, for the
status-update fixtures. -/
def exTransferRow : StockTransferRow := ⟨15, 1, 1, 2, 7, .pending⟩

/-- Database holding `exTransferRow` and one of its items. -/
def exTransferDB : DB :=
  { exStockDB with
    stockTransfers := [exTransferRow]
    stockTransferItems := [⟨16, 15, 42, 3⟩] }

/-- A return row of business 2 (id 17), for the cross-business read fixture. -/
def exReturnDB : DB :=
  { exStockDB with
    sales := [⟨10, 2, 9, 7, 30, .completed, none⟩]
    returns := [⟨17, 2, 9, 10, 7, 10, none, none, none⟩]
    returnItems := [⟨18, 17, 43, 1, 10, 10⟩] }

/-- Total quantity of one product on a sale's line items (a single row's
quantity when the sale lists each product once). -/
def soldQtySum (db : DB) (saleId pid : Nat) : Int :=
  ((db.saleItems.filter (fun si => si.saleId == saleId && si.productId == pid)).map
    (fun si => si.quantity)).sum

/-- The return bound of the spec, for one sale: no product's returned total
may exceed its sold total. -/
def ReturnBound (db : DB) (saleId businessId : Nat) : Prop :=
  ∀ pid, alreadyReturnedFor db saleId businessId pid ≤ soldQtySum db saleId pid

/-- A storage oracle failing the third write of a transaction (used to
exercise mid-transaction rollback). -/
def failAt2 : Nat → Bool := fun n => n == 2

/-- A cash register entry row minus its generated id. -/
def ccCore (c : CashRegisterEntryRow) :
    Nat × Nat × Nat × PaymentMethod × Option String × Int × Nat :=
  (c.businessId, c.branchId, c.saleId, c.paymentMethod, c.referenceCode, c.amount,
    c.recordedByUserId)

/-! ## Primitive lemmas about the ledger store -/

theorem levelKey_iff {b br p : Nat} {l : StockLevelRow} :
    levelKey b br p l = true ↔ l.businessId = b ∧ l.branchId = br ∧ l.productId = p := by
  simp [levelKey, and_assoc]

theorem levelKey_quantity_update (b br p : Nat) (l : StockLevelRow) (q : Int) :
    levelKey b br p { l with quantity := q } = levelKey b br p l := rfl

theorem qtySum_cons (b br p : Nat) (x : StockLevelRow) (xs : List StockLevelRow) :
    qtySum b br p (x :: xs) =
      (if levelKey b br p x then x.quantity else 0) + qtySum b br p xs := by
  simp only [qtySum, List.filter_cons]
  split <;> simp

theorem qtySum_append (b br p : Nat) (l1 l2 : List StockLevelRow) :
    qtySum b br p (l1 ++ l2) = qtySum b br p l1 + qtySum b br p l2 := by
  simp [qtySum, List.filter_append]

theorem qtySum_eq_zero_of_none {b br p : Nat} {levels : List StockLevelRow}
    (h : findLevel b br p levels = none) : qtySum b br p levels = 0 := by
  unfold findLevel at h
  rw [List.find?_eq_none] at h
  have hnil : levels.filter (levelKey b br p) = [] := List.filter_eq_nil_iff.mpr h
  simp [qtySum, hnil]

theorem movSum_cons (b br p : Nat) (x : MovementRow) (xs : List MovementRow) :
    movSum b br p (x :: xs) =
      (if movKey b br p x then rowDelta x else 0) + movSum b br p xs := by
  simp only [movSum, List.filter_cons]
  split <;> simp

theorem movSum_append (b br p : Nat) (l1 l2 : List MovementRow) :
    movSum b br p (l1 ++ l2) = movSum b br p l1 + movSum b br p l2 := by
  simp [movSum, List.filter_append]

theorem setLevelQty_eq_of_forall_ne {lid : Nat} {q : Int} {xs : List StockLevelRow}
    (h : ∀ y ∈ xs, y.id ≠ lid) : setLevelQty lid q xs = xs := by
  induction xs with
  | nil => rfl
  | cons x xs ih =>
      unfold setLevelQty
      simp only [List.map_cons]
      rw [if_neg (h x (by simp))]
      have htail : setLevelQty lid q xs = xs := ih (fun y hy => h y (by simp [hy]))
      unfold setLevelQty at htail
      rw [htail]

theorem setLevelQty_map_id (lid : Nat) (q : Int) (xs : List StockLevelRow) :
    (setLevelQty lid q xs).map (fun l => l.id) = xs.map (fun l => l.id) := by
  induction xs with
  | nil => rfl
  | cons x xs ih =>
      unfold setLevelQty at ih ⊢
      simp only [List.map_cons, ih]
      by_cases hx : x.id = lid <;> simp [hx]

theorem setLevelQty_map_key (lid : Nat) (q : Int) (xs : List StockLevelRow) :
    (setLevelQty lid q xs).map (fun l => (l.businessId, l.branchId, l.productId)) =
      xs.map (fun l => (l.businessId, l.branchId, l.productId)) := by
  induction xs with
  | nil => rfl
  | cons x xs ih =>
      unfold setLevelQty at ih ⊢
      simp only [List.map_cons, ih]
      by_cases hx : x.id = lid <;> simp [hx]

theorem qtySum_setLevelQty {b br p : Nat} {levels : List StockLevelRow} {l : StockLevelRow}
    (hnd : (levels.map (fun r => r.id)).Nodup)
    (hfind : findLevel b br p levels = some l) (q : Int) (b' br' p' : Nat) :
    qtySum b' br' p' (setLevelQty l.id q levels) =
      qtySum b' br' p' levels + (if levelKey b' br' p' l then q - l.quantity else 0) := by
  induction levels with
  | nil => simp [findLevel] at hfind
  | cons x xs ih =>
      simp only [List.map_cons, List.nodup_cons] at hnd
      obtain ⟨hx, hxs⟩ := hnd
      by_cases hkey : levelKey b br p x = true
      · have hlx : l = x := by
          unfold findLevel at hfind
          rw [List.find?_cons_of_pos _ hkey] at hfind
          exact (Option.some.inj hfind).symm
        subst hlx
        have htail : setLevelQty l.id q xs = xs := by
          apply setLevelQty_eq_of_forall_ne
          intro y hy hcontra
          exact hx (List.mem_map.mpr ⟨y, hy, hcontra⟩)
        have hhead : setLevelQty l.id q (l :: xs) = { l with quantity := q } :: xs := by
          unfold setLevelQty
          rw [List.map_cons, if_pos rfl]
          unfold setLevelQty at htail
          rw [htail]
        rw [hhead, qtySum_cons, qtySum_cons]
        have hk2 : levelKey b' br' p' ({ l with quantity := q } : StockLevelRow) =
            levelKey b' br' p' l := rfl
        rw [hk2]
        split <;> ring
      · have hfind' : findLevel b br p xs = some l := by
          unfold findLevel at hfind ⊢
          rwa [List.find?_cons_of_neg _ hkey] at hfind
        have hlmem : l ∈ xs := List.mem_of_find?_eq_some hfind'
        have hxl : ¬(x.id = l.id) := fun hcontra =>
          hx (hcontra ▸ List.mem_map.mpr ⟨l, hlmem, rfl⟩)
        unfold setLevelQty
        simp only [List.map_cons, if_neg hxl]
        rw [qtySum_cons]
        have hstep := ih hxs hfind'
        unfold setLevelQty at hstep
        rw [hstep, qtySum_cons]
        ring

theorem stockQty_applyDelta {db : DB} (hnd : (db.stockLevels.map (fun r => r.id)).Nodup)
    (b br p : Nat) (δ : Int) (b' br' p' : Nat) :
    stockQty (applyDelta b br p δ db) b' br' p' =
      stockQty db b' br' p' + (if b' = b ∧ br' = br ∧ p' = p then δ else 0) := by
  unfold applyDelta
  cases hfind : findLevel b br p db.stockLevels with
  | some l =>
      have hl : l.businessId = b ∧ l.branchId = br ∧ l.productId = p := by
        have hp := List.find?_some hfind
        exact levelKey_iff.mp hp
      simp only [stockQty]
      rw [qtySum_setLevelQty hnd hfind]
      have hpayload : l.quantity + δ - l.quantity = δ := by ring
      rw [hpayload]
      split_ifs with h1 h2 h2
      · rfl
      · obtain ⟨e1, e2, e3⟩ := levelKey_iff.mp h1
        exact absurd ⟨by rw [← e1, hl.1], by rw [← e2, hl.2.1], by rw [← e3, hl.2.2]⟩ h2
      · obtain ⟨e1, e2, e3⟩ := h2
        exact absurd (levelKey_iff.mpr ⟨by rw [hl.1, e1], by rw [hl.2.1, e2],
          by rw [hl.2.2, e3]⟩) h1
      · rfl
  | none =>
      have hsing : qtySum b' br' p' [(⟨db.nextId, b, br, p, δ⟩ : StockLevelRow)] =
          if b' = b ∧ br' = br ∧ p' = p then δ else 0 := by
        rw [qtySum_cons]
        simp only [qtySum, List.filter_nil, List.map_nil, List.sum_nil, add_zero]
        by_cases h : b' = b ∧ br' = br ∧ p' = p
        · rw [if_pos h]
          obtain ⟨e1, e2, e3⟩ := h
          rw [if_pos (levelKey_iff.mpr ⟨e1.symm, e2.symm, e3.symm⟩)]
        · rw [if_neg h, if_neg]
          intro hk
          obtain ⟨e1, e2, e3⟩ := levelKey_iff.mp hk
          exact h ⟨e1.symm, e2.symm, e3.symm⟩
      simp only [stockQty, insLevel]
      rw [qtySum_append, hsing]

theorem applyDelta_shape (b br p : Nat) (δ : Int) (db : DB) :
    ∃ levels n, applyDelta b br p δ db = { db with stockLevels := levels, nextId := n } := by
  unfold applyDelta insLevel
  split
  · exact ⟨_, db.nextId, rfl⟩
  · exact ⟨_, _, rfl⟩

theorem applyDelta_nextId_le (b br p : Nat) (δ : Int) (db : DB) :
    db.nextId ≤ (applyDelta b br p δ db).nextId := by
  unfold applyDelta insLevel
  split
  · exact Nat.le_refl _
  · exact Nat.le_succ _

theorem movKey_iff {b br p : Nat} {m : MovementRow} :
    movKey b br p m = true ↔ m.businessId = b ∧ m.branchId = br ∧ m.productId = p := by
  simp [movKey, and_assoc]

theorem movSum_singleton (b' br' p' : Nat) (m : MovementRow) :
    movSum b' br' p' [m] = if movKey b' br' p' m then rowDelta m else 0 := by
  rw [movSum_cons]
  simp [movSum]

theorem movementSum_insMovement (db : DB) (b br p uid : Nat) (t : MovementType)
    (q : Int) (n : Note) (b' br' p' : Nat) :
    movementSum (insMovement b br p uid t q n db) b' br' p' =
      movementSum db b' br' p' +
        (if b' = b ∧ br' = br ∧ p' = p
          then rowDelta ⟨db.nextId, b, br, p, uid, t, q, n⟩ else 0) := by
  simp only [movementSum, insMovement]
  rw [movSum_append, movSum_singleton]
  congr 1
  by_cases h : b' = b ∧ br' = br ∧ p' = p
  · obtain ⟨e1, e2, e3⟩ := h
    rw [if_pos (movKey_iff.mpr ⟨e1.symm, e2.symm, e3.symm⟩), if_pos ⟨e1, e2, e3⟩]
  · rw [if_neg h, if_neg]
    intro hk
    obtain ⟨e1, e2, e3⟩ := movKey_iff.mp hk
    exact h ⟨e1.symm, e2.symm, e3.symm⟩

theorem nodup_append_fresh {l : List Nat} {n : Nat} (hlt : ∀ x ∈ l, x < n)
    (hl : l.Nodup) : (l ++ [n]).Nodup := by
  rw [List.nodup_append]
  refine ⟨hl, List.nodup_singleton n, ?_⟩
  intro x hx hx1
  simp only [List.mem_singleton] at hx1
  exact absurd (hx1 ▸ hlt x hx) (lt_irrefl n)

theorem forall_map_lt {α : Type} (f : α → Nat) {l : List α} {n : Nat}
    (h : ∀ x ∈ l, f x < n) : ∀ x ∈ l.map f, x < n := by
  intro x hx
  simp only [List.mem_map] at hx
  obtain ⟨y, hy, rfl⟩ := hx
  exact h y hy

/-! WF preservation under each primitive write -/

theorem WF_insMovement {db : DB} (h : WF db) (b br p uid : Nat) (t : MovementType)
    (q : Int) (n : Note) : WF (insMovement b br p uid t q n db) := by
  obtain ⟨h1, h2, h3, h4, h5, h6, h7, h8, h9, h10, h11⟩ := h
  exact ⟨fun l hl => Nat.lt_succ_of_lt (h1 l hl), h2, h3,
    fun r hr => Nat.lt_succ_of_lt (h4 r hr), h5,
    fun ri hri => Nat.lt_succ_of_lt (h6 ri hri),
    fun s hs => Nat.lt_succ_of_lt (h7 s hs), h8,
    fun si hsi => Nat.lt_succ_of_lt (h9 si hsi),
    fun t2 ht => Nat.lt_succ_of_lt (h10 t2 ht), h11⟩

theorem WF_insCash {db : DB} (h : WF db) (p : CreateSaleParams) (sid : Nat) :
    WF (insCash p sid db) := by
  obtain ⟨h1, h2, h3, h4, h5, h6, h7, h8, h9, h10, h11⟩ := h
  exact ⟨fun l hl => Nat.lt_succ_of_lt (h1 l hl), h2, h3,
    fun r hr => Nat.lt_succ_of_lt (h4 r hr), h5,
    fun ri hri => Nat.lt_succ_of_lt (h6 ri hri),
    fun s hs => Nat.lt_succ_of_lt (h7 s hs), h8,
    fun si hsi => Nat.lt_succ_of_lt (h9 si hsi),
    fun t2 ht => Nat.lt_succ_of_lt (h10 t2 ht), h11⟩

theorem WF_insTransferItem {db : DB} (h : WF db) (tid pid : Nat) (qty : Int) :
    WF (insTransferItem tid pid qty db) := by
  obtain ⟨h1, h2, h3, h4, h5, h6, h7, h8, h9, h10, h11⟩ := h
  exact ⟨fun l hl => Nat.lt_succ_of_lt (h1 l hl), h2, h3,
    fun r hr => Nat.lt_succ_of_lt (h4 r hr), h5,
    fun ri hri => Nat.lt_succ_of_lt (h6 ri hri),
    fun s hs => Nat.lt_succ_of_lt (h7 s hs), h8,
    fun si hsi => Nat.lt_succ_of_lt (h9 si hsi),
    fun t2 ht => Nat.lt_succ_of_lt (h10 t2 ht), h11⟩

theorem WF_insSaleItem {db : DB} (h : WF db) {sid : Nat} (hsid : sid < db.nextId)
    (item : CreateSaleItemInput) : WF (insSaleItem sid item db) := by
  obtain ⟨h1, h2, h3, h4, h5, h6, h7, h8, h9, h10, h11⟩ := h
  refine ⟨fun l hl => Nat.lt_succ_of_lt (h1 l hl), h2, h3,
    fun r hr => Nat.lt_succ_of_lt (h4 r hr), h5,
    fun ri hri => Nat.lt_succ_of_lt (h6 ri hri),
    fun s hs => Nat.lt_succ_of_lt (h7 s hs), h8, ?_,
    fun t2 ht => Nat.lt_succ_of_lt (h10 t2 ht), h11⟩
  intro si hsi
  simp only [insSaleItem, List.mem_append, List.mem_singleton] at hsi
  rcases hsi with hsi | hsi
  · exact Nat.lt_succ_of_lt (h9 si hsi)
  · subst hsi
    exact Nat.lt_succ_of_lt hsid

theorem WF_insReturnItem {db : DB} (h : WF db) {rid : Nat} (hrid : rid < db.nextId)
    (v : ValidatedReturnItem) : WF (insReturnItem rid v db) := by
  obtain ⟨h1, h2, h3, h4, h5, h6, h7, h8, h9, h10, h11⟩ := h
  refine ⟨fun l hl => Nat.lt_succ_of_lt (h1 l hl), h2, h3,
    fun r hr => Nat.lt_succ_of_lt (h4 r hr), h5, ?_,
    fun s hs => Nat.lt_succ_of_lt (h7 s hs), h8,
    fun si hsi => Nat.lt_succ_of_lt (h9 si hsi),
    fun t2 ht => Nat.lt_succ_of_lt (h10 t2 ht), h11⟩
  intro ri hri
  simp only [insReturnItem, List.mem_append, List.mem_singleton] at hri
  rcases hri with hri | hri
  · exact Nat.lt_succ_of_lt (h6 ri hri)
  · subst hri
    exact Nat.lt_succ_of_lt hrid

theorem WF_insSale {db : DB} (h : WF db) (p : CreateSaleParams) : WF (insSale p db) := by
  obtain ⟨h1, h2, h3, h4, h5, h6, h7, h8, h9, h10, h11⟩ := h
  refine ⟨fun l hl => Nat.lt_succ_of_lt (h1 l hl), h2, h3,
    fun r hr => Nat.lt_succ_of_lt (h4 r hr), h5,
    fun ri hri => Nat.lt_succ_of_lt (h6 ri hri), ?_, ?_,
    fun si hsi => Nat.lt_succ_of_lt (h9 si hsi),
    fun t2 ht => Nat.lt_succ_of_lt (h10 t2 ht), h11⟩
  · intro s hs
    simp only [insSale, List.mem_append, List.mem_singleton] at hs
    rcases hs with hs | hs
    · exact Nat.lt_succ_of_lt (h7 s hs)
    · subst hs
      exact Nat.lt_succ_self _
  · simp only [insSale, List.map_append, List.map_cons, List.map_nil]
    exact nodup_append_fresh (forall_map_lt _ h7) h8

theorem WF_insReturn {db : DB} (h : WF db) (businessId branchId saleId userId : Nat)
    (totalAmount : Int) (reason : Option String) (refundMethod : Option PaymentMethod)
    (referenceCode : Option String) :
    WF (insReturn businessId branchId saleId userId totalAmount reason refundMethod
      referenceCode db) := by
  obtain ⟨h1, h2, h3, h4, h5, h6, h7, h8, h9, h10, h11⟩ := h
  refine ⟨fun l hl => Nat.lt_succ_of_lt (h1 l hl), h2, h3, ?_, ?_,
    fun ri hri => Nat.lt_succ_of_lt (h6 ri hri),
    fun s hs => Nat.lt_succ_of_lt (h7 s hs), h8,
    fun si hsi => Nat.lt_succ_of_lt (h9 si hsi),
    fun t2 ht => Nat.lt_succ_of_lt (h10 t2 ht), h11⟩
  · intro r hr
    simp only [insReturn, List.mem_append, List.mem_singleton] at hr
    rcases hr with hr | hr
    · exact Nat.lt_succ_of_lt (h4 r hr)
    · subst hr
      exact Nat.lt_succ_self _
  · simp only [insReturn, List.map_append, List.map_cons, List.map_nil]
    exact nodup_append_fresh (forall_map_lt _ h4) h5

theorem WF_insTransfer {db : DB} (h : WF db) (p : CreateStockTransferParams) :
    WF (insTransfer p db) := by
  obtain ⟨h1, h2, h3, h4, h5, h6, h7, h8, h9, h10, h11⟩ := h
  refine ⟨fun l hl => Nat.lt_succ_of_lt (h1 l hl), h2, h3,
    fun r hr => Nat.lt_succ_of_lt (h4 r hr), h5,
    fun ri hri => Nat.lt_succ_of_lt (h6 ri hri),
    fun s hs => Nat.lt_succ_of_lt (h7 s hs), h8,
    fun si hsi => Nat.lt_succ_of_lt (h9 si hsi), ?_, ?_⟩
  · intro t2 ht
    simp only [insTransfer, List.mem_append, List.mem_singleton] at ht
    rcases ht with ht | ht
    · exact Nat.lt_succ_of_lt (h10 t2 ht)
    · subst ht
      exact Nat.lt_succ_self _
  · simp only [insTransfer, List.map_append, List.map_cons, List.map_nil]
    exact nodup_append_fresh (forall_map_lt _ h10) h11

theorem WF_setLevels {db : DB} (h : WF db) (lid : Nat) (q : Int) :
    WF { db with stockLevels := setLevelQty lid q db.stockLevels } := by
  obtain ⟨h1, h2, h3, h4, h5, h6, h7, h8, h9, h10, h11⟩ := h
  refine ⟨?_, ?_, ?_, h4, h5, h6, h7, h8, h9, h10, h11⟩
  · intro l hl
    simp only [setLevelQty, List.mem_map] at hl
    obtain ⟨y, hy, rfl⟩ := hl
    have hid : (if y.id = lid then { y with quantity := q } else y).id = y.id := by
      by_cases hxy : y.id = lid <;> simp [hxy]
    rw [hid]
    exact h1 y hy
  · rw [setLevelQty_map_id]
    exact h2
  · rw [setLevelQty_map_key]
    exact h3

theorem WF_applyDelta {db : DB} (h : WF db) (b br p : Nat) (δ : Int) :
    WF (applyDelta b br p δ db) := by
  unfold applyDelta
  cases hfind : findLevel b br p db.stockLevels with
  | some l => exact WF_setLevels h l.id (l.quantity + δ)
  | none =>
      obtain ⟨h1, h2, h3, h4, h5, h6, h7, h8, h9, h10, h11⟩ := h
      refine ⟨?_, ?_, ?_,
        fun r hr => Nat.lt_succ_of_lt (h4 r hr), h5,
        fun ri hri => Nat.lt_succ_of_lt (h6 ri hri),
        fun s hs => Nat.lt_succ_of_lt (h7 s hs), h8,
        fun si hsi => Nat.lt_succ_of_lt (h9 si hsi),
        fun t2 ht => Nat.lt_succ_of_lt (h10 t2 ht), h11⟩
      · intro l hl
        simp only [insLevel, List.mem_append, List.mem_singleton] at hl
        rcases hl with hl | hl
        · exact Nat.lt_succ_of_lt (h1 l hl)
        · subst hl
          exact Nat.lt_succ_self _
      · simp only [insLevel, List.map_append, List.map_cons, List.map_nil]
        exact nodup_append_fresh (forall_map_lt _ h1) h2
      · simp only [insLevel, List.map_append, List.map_cons, List.map_nil]
        rw [List.nodup_append]
        refine ⟨h3, List.nodup_singleton _, ?_⟩
        intro k hk hk1
        simp only [List.mem_singleton] at hk1
        subst hk1
        unfold findLevel at hfind
        rw [List.find?_eq_none] at hfind
        simp only [List.mem_map] at hk
        obtain ⟨y, hy, hyk⟩ := hk
        apply hfind y hy
        apply levelKey_iff.mpr
        simp only [Prod.mk.injEq] at hyk
        exact ⟨hyk.1, hyk.2.1, hyk.2.2⟩

/-! Projections of `applyDelta` (it touches only `stockLevels` and `nextId`) -/

theorem applyDelta_stockMovements (b br p : Nat) (δ : Int) (db : DB) :
    (applyDelta b br p δ db).stockMovements = db.stockMovements := by
  obtain ⟨lv, n, hEq⟩ := applyDelta_shape b br p δ db
  rw [hEq]

theorem applyDelta_sales (b br p : Nat) (δ : Int) (db : DB) :
    (applyDelta b br p δ db).sales = db.sales := by
  obtain ⟨lv, n, hEq⟩ := applyDelta_shape b br p δ db
  rw [hEq]

theorem applyDelta_saleItems (b br p : Nat) (δ : Int) (db : DB) :
    (applyDelta b br p δ db).saleItems = db.saleItems := by
  obtain ⟨lv, n, hEq⟩ := applyDelta_shape b br p δ db
  rw [hEq]

theorem applyDelta_cash (b br p : Nat) (δ : Int) (db : DB) :
    (applyDelta b br p δ db).cashRegisterEntries = db.cashRegisterEntries := by
  obtain ⟨lv, n, hEq⟩ := applyDelta_shape b br p δ db
  rw [hEq]

theorem applyDelta_returns (b br p : Nat) (δ : Int) (db : DB) :
    (applyDelta b br p δ db).returns = db.returns := by
  obtain ⟨lv, n, hEq⟩ := applyDelta_shape b br p δ db
  rw [hEq]

theorem applyDelta_returnItems (b br p : Nat) (δ : Int) (db : DB) :
    (applyDelta b br p δ db).returnItems = db.returnItems := by
  obtain ⟨lv, n, hEq⟩ := applyDelta_shape b br p δ db
  rw [hEq]

theorem applyDelta_transfers (b br p : Nat) (δ : Int) (db : DB) :
    (applyDelta b br p δ db).stockTransfers = db.stockTransfers := by
  obtain ⟨lv, n, hEq⟩ := applyDelta_shape b br p δ db
  rw [hEq]

theorem applyDelta_transferItems (b br p : Nat) (δ : Int) (db : DB) :
    (applyDelta b br p δ db).stockTransferItems = db.stockTransferItems := by
  obtain ⟨lv, n, hEq⟩ := applyDelta_shape b br p δ db
  rw [hEq]

theorem applyDelta_branches (b br p : Nat) (δ : Int) (db : DB) :
    (applyDelta b br p δ db).branches = db.branches := by
  obtain ⟨lv, n, hEq⟩ := applyDelta_shape b br p δ db
  rw [hEq]

theorem applyDelta_products (b br p : Nat) (δ : Int) (db : DB) :
    (applyDelta b br p δ db).products = db.products := by
  obtain ⟨lv, n, hEq⟩ := applyDelta_shape b br p δ db
  rw [hEq]

/-! The per-item sale step -/

theorem saleStep_ok {p : CreateSaleParams} {fail : Nat → Bool} {sid : Nat}
    {item : CreateSaleItemInput} {s s' : TxSt}
    (h : saleStep p fail sid item s = .ok s') :
    s'.db = insMovement p.businessId p.branchId item.productId p.userId .sale
        item.quantity .posSale
      (applyDelta p.businessId p.branchId item.productId (-item.quantity)
        (insSaleItem sid item s.db)) ∧ s'.w = s.w + 3 := by
  by_cases h0 : fail s.w
  · simp [saleStep, txWrite, bind, Except.bind, h0] at h
  · by_cases h1 : fail (s.w + 1)
    · simp [saleStep, txWrite, bind, Except.bind, h0, h1] at h
    · by_cases h2 : fail (s.w + 1 + 1)
      · simp [saleStep, txWrite, bind, Except.bind, h0, h1, h2] at h
      · simp [saleStep, txWrite, bind, Except.bind, h0, h1, h2] at h
        subst h
        exact ⟨rfl, rfl⟩

theorem saleStep_mono {p : CreateSaleParams} {fail : Nat → Bool} {sid : Nat}
    {item : CreateSaleItemInput} {s s' : TxSt}
    (h : saleStep p fail sid item s = .ok s') : s.db.nextId ≤ s'.db.nextId := by
  obtain ⟨hdb, -⟩ := saleStep_ok h
  have h2 := applyDelta_nextId_le p.businessId p.branchId item.productId
    (-item.quantity) (insSaleItem sid item s.db)
  have h1 : (insSaleItem sid item s.db).nextId = s.db.nextId + 1 := rfl
  rw [hdb]
  simp only [insMovement]
  omega

theorem saleStep_WF {p : CreateSaleParams} {fail : Nat → Bool} {sid : Nat}
    {item : CreateSaleItemInput} {s s' : TxSt} (hWF : WF s.db) (hsid : sid < s.db.nextId)
    (h : saleStep p fail sid item s = .ok s') : WF s'.db := by
  obtain ⟨hdb, -⟩ := saleStep_ok h
  rw [hdb]
  exact WF_insMovement (WF_applyDelta (WF_insSaleItem hWF hsid item) _ _ _ _) _ _ _ _ _ _ _

theorem saleStep_stockQty {p : CreateSaleParams} {fail : Nat → Bool} {sid : Nat}
    {item : CreateSaleItemInput} {s s' : TxSt}
    (hnd : (s.db.stockLevels.map (fun r => r.id)).Nodup)
    (h : saleStep p fail sid item s = .ok s') (b' br' p' : Nat) :
    stockQty s'.db b' br' p' = stockQty s.db b' br' p' +
      (if b' = p.businessId ∧ br' = p.branchId ∧ p' = item.productId
        then -item.quantity else 0) := by
  obtain ⟨hdb, -⟩ := saleStep_ok h
  rw [hdb]
  have hrw : stockQty (insMovement p.businessId p.branchId item.productId p.userId .sale
      item.quantity .posSale
        (applyDelta p.businessId p.branchId item.productId (-item.quantity)
          (insSaleItem sid item s.db))) b' br' p' =
      stockQty (applyDelta p.businessId p.branchId item.productId (-item.quantity)
        (insSaleItem sid item s.db)) b' br' p' := rfl
  have hnd2 : ((insSaleItem sid item s.db).stockLevels.map (fun r => r.id)).Nodup := hnd
  rw [hrw, stockQty_applyDelta hnd2]
  rfl

theorem saleStep_movementSum {p : CreateSaleParams} {fail : Nat → Bool} {sid : Nat}
    {item : CreateSaleItemInput} {s s' : TxSt}
    (h : saleStep p fail sid item s = .ok s') (b' br' p' : Nat) :
    movementSum s'.db b' br' p' = movementSum s.db b' br' p' +
      (if b' = p.businessId ∧ br' = p.branchId ∧ p' = item.productId
        then -item.quantity else 0) := by
  obtain ⟨hdb, -⟩ := saleStep_ok h
  rw [hdb, movementSum_insMovement]
  have hmv : movementSum (applyDelta p.businessId p.branchId item.productId
      (-item.quantity) (insSaleItem sid item s.db)) b' br' p' =
      movementSum s.db b' br' p' := by
    simp only [movementSum, applyDelta_stockMovements]
    rfl
  rw [hmv]
  rfl

theorem saleStep_movCores {p : CreateSaleParams} {fail : Nat → Bool} {sid : Nat}
    {item : CreateSaleItemInput} {s s' : TxSt}
    (h : saleStep p fail sid item s = .ok s') :
    s'.db.stockMovements.map movCore = s.db.stockMovements.map movCore ++
      [saleMovSpec p item] := by
  obtain ⟨hdb, -⟩ := saleStep_ok h
  rw [hdb]
  simp only [insMovement, applyDelta_stockMovements, List.map_append]
  rfl

theorem saleStep_siCores {p : CreateSaleParams} {fail : Nat → Bool} {sid : Nat}
    {item : CreateSaleItemInput} {s s' : TxSt}
    (h : saleStep p fail sid item s = .ok s') :
    s'.db.saleItems.map siCore = s.db.saleItems.map siCore ++ [saleItemSpec sid item] := by
  obtain ⟨hdb, -⟩ := saleStep_ok h
  rw [hdb]
  have hins : (insMovement p.businessId p.branchId item.productId p.userId .sale
      item.quantity .posSale
        (applyDelta p.businessId p.branchId item.productId (-item.quantity)
          (insSaleItem sid item s.db))).saleItems =
      (applyDelta p.businessId p.branchId item.productId (-item.quantity)
        (insSaleItem sid item s.db)).saleItems := rfl
  rw [hins, applyDelta_saleItems]
  simp only [insSaleItem, List.map_append]
  rfl

theorem saleStep_frames {p : CreateSaleParams} {fail : Nat → Bool} {sid : Nat}
    {item : CreateSaleItemInput} {s s' : TxSt}
    (h : saleStep p fail sid item s = .ok s') :
    s'.db.sales = s.db.sales ∧
    s'.db.cashRegisterEntries = s.db.cashRegisterEntries ∧
    s'.db.returns = s.db.returns ∧
    s'.db.returnItems = s.db.returnItems ∧
    s'.db.stockTransfers = s.db.stockTransfers ∧
    s'.db.stockTransferItems = s.db.stockTransferItems ∧
    s'.db.branches = s.db.branches ∧
    s'.db.products = s.db.products := by
  obtain ⟨hdb, -⟩ := saleStep_ok h
  rw [hdb]
  refine ⟨?_, ?_, ?_, ?_, ?_, ?_, ?_, ?_⟩ <;>
    simp [insMovement, insSaleItem, applyDelta_sales, applyDelta_cash, applyDelta_returns,
      applyDelta_returnItems, applyDelta_transfers, applyDelta_transferItems,
      applyDelta_branches, applyDelta_products]

theorem itemQtySum_cons (i : CreateSaleItemInput) (rest : List CreateSaleItemInput)
    (p' : Nat) :
    itemQtySum (i :: rest) p' =
      (if p' = i.productId then i.quantity else 0) + itemQtySum rest p' := by
  simp only [itemQtySum, List.filter_cons]
  by_cases h : p' = i.productId
  · have hb : (i.productId == p') = true := by simp [h]
    simp [hb, h]
  · have hb : (i.productId == p') = false := by
      simp only [beq_eq_false_iff_ne, ne_eq]
      exact fun e => h e.symm
    simp [hb, h]

theorem saleLoop_cons_ok {p : CreateSaleParams} {fail : Nat → Bool} {sid : Nat}
    {i : CreateSaleItemInput} {rest : List CreateSaleItemInput} {s s' : TxSt}
    (h : saleLoop p fail sid (i :: rest) s = .ok s') :
    ∃ s1, saleStep p fail sid i s = .ok s1 ∧ saleLoop p fail sid rest s1 = .ok s' := by
  cases hstep : saleStep p fail sid i s with
  | error e => simp [saleLoop, hstep, bind, Except.bind] at h
  | ok s1 =>
      refine ⟨s1, rfl, ?_⟩
      simpa [saleLoop, hstep, bind, Except.bind] using h

theorem saleLoop_WF {p : CreateSaleParams} {fail : Nat → Bool} {sid : Nat}
    {items : List CreateSaleItemInput} :
    ∀ {s s' : TxSt}, WF s.db → sid < s.db.nextId →
      saleLoop p fail sid items s = .ok s' →
      WF s'.db ∧ sid < s'.db.nextId ∧ s.db.nextId ≤ s'.db.nextId := by
  induction items with
  | nil =>
      intro s s' hWF hsid h
      simp only [saleLoop, Except.ok.injEq] at h
      subst h
      exact ⟨hWF, hsid, Nat.le_refl _⟩
  | cons i rest ih =>
      intro s s' hWF hsid h
      obtain ⟨s1, hstep, hrest⟩ := saleLoop_cons_ok h
      have hWF1 := saleStep_WF hWF hsid hstep
      have hmono := saleStep_mono hstep
      have hsid1 : sid < s1.db.nextId := lt_of_lt_of_le hsid hmono
      obtain ⟨a, b2, c⟩ := ih hWF1 hsid1 hrest
      exact ⟨a, b2, le_trans hmono c⟩

theorem saleLoop_stockQty {p : CreateSaleParams} {fail : Nat → Bool} {sid : Nat}
    {items : List CreateSaleItemInput} :
    ∀ {s s' : TxSt}, WF s.db → sid < s.db.nextId →
      saleLoop p fail sid items s = .ok s' →
      ∀ b' br' p', stockQty s'.db b' br' p' = stockQty s.db b' br' p' +
        (if b' = p.businessId ∧ br' = p.branchId then -(itemQtySum items p') else 0) := by
  induction items with
  | nil =>
      intro s s' hWF hsid h b' br' p'
      simp only [saleLoop, Except.ok.injEq] at h
      subst h
      simp [itemQtySum]
  | cons i rest ih =>
      intro s s' hWF hsid h b' br' p'
      obtain ⟨s1, hstep, hrest⟩ := saleLoop_cons_ok h
      have hnd : (s.db.stockLevels.map (fun r => r.id)).Nodup := hWF.2.1
      have hq1 := saleStep_stockQty hnd hstep b' br' p'
      have hWF1 := saleStep_WF hWF hsid hstep
      have hsid1 := lt_of_lt_of_le hsid (saleStep_mono hstep)
      have hq2 := ih hWF1 hsid1 hrest b' br' p'
      rw [hq2, hq1, itemQtySum_cons]
      by_cases hb : b' = p.businessId ∧ br' = p.branchId
      · by_cases hp : p' = i.productId
        · rw [if_pos ⟨hb.1, hb.2, hp⟩, if_pos hb, if_pos hb, if_pos hp]
          ring
        · rw [if_neg (fun hc => hp hc.2.2), if_pos hb, if_pos hb, if_neg hp]
          ring
      · rw [if_neg (fun hc => hb ⟨hc.1, hc.2.1⟩), if_neg hb, if_neg hb]
        ring

theorem saleLoop_conserve {p : CreateSaleParams} {fail : Nat → Bool} {sid : Nat}
    {items : List CreateSaleItemInput} :
    ∀ {s s' : TxSt}, WF s.db → sid < s.db.nextId →
      saleLoop p fail sid items s = .ok s' →
      ∀ b' br' p', stockQty s'.db b' br' p' - movementSum s'.db b' br' p' =
        stockQty s.db b' br' p' - movementSum s.db b' br' p' := by
  induction items with
  | nil =>
      intro s s' hWF hsid h b' br' p'
      simp only [saleLoop, Except.ok.injEq] at h
      subst h
      rfl
  | cons i rest ih =>
      intro s s' hWF hsid h b' br' p'
      obtain ⟨s1, hstep, hrest⟩ := saleLoop_cons_ok h
      have hnd : (s.db.stockLevels.map (fun r => r.id)).Nodup := hWF.2.1
      have hq1 := saleStep_stockQty hnd hstep b' br' p'
      have hm1 := saleStep_movementSum hstep b' br' p'
      have hWF1 := saleStep_WF hWF hsid hstep
      have hsid1 := lt_of_lt_of_le hsid (saleStep_mono hstep)
      have hrec := ih hWF1 hsid1 hrest b' br' p'
      rw [hrec, hq1, hm1]
      ring

theorem saleLoop_movCores {p : CreateSaleParams} {fail : Nat → Bool} {sid : Nat}
    {items : List CreateSaleItemInput} :
    ∀ {s s' : TxSt}, saleLoop p fail sid items s = .ok s' →
      s'.db.stockMovements.map movCore =
        s.db.stockMovements.map movCore ++ items.map (saleMovSpec p) := by
  induction items with
  | nil =>
      intro s s' h
      simp only [saleLoop, Except.ok.injEq] at h
      subst h
      simp
  | cons i rest ih =>
      intro s s' h
      obtain ⟨s1, hstep, hrest⟩ := saleLoop_cons_ok h
      rw [ih hrest, saleStep_movCores hstep]
      simp

theorem saleLoop_siCores {p : CreateSaleParams} {fail : Nat → Bool} {sid : Nat}
    {items : List CreateSaleItemInput} :
    ∀ {s s' : TxSt}, saleLoop p fail sid items s = .ok s' →
      s'.db.saleItems.map siCore =
        s.db.saleItems.map siCore ++ items.map (saleItemSpec sid) := by
  induction items with
  | nil =>
      intro s s' h
      simp only [saleLoop, Except.ok.injEq] at h
      subst h
      simp
  | cons i rest ih =>
      intro s s' h
      obtain ⟨s1, hstep, hrest⟩ := saleLoop_cons_ok h
      rw [ih hrest, saleStep_siCores hstep]
      simp

theorem saleLoop_frames {p : CreateSaleParams} {fail : Nat → Bool} {sid : Nat}
    {items : List CreateSaleItemInput} :
    ∀ {s s' : TxSt}, saleLoop p fail sid items s = .ok s' →
      s'.db.sales = s.db.sales ∧
      s'.db.cashRegisterEntries = s.db.cashRegisterEntries ∧
      s'.db.returns = s.db.returns ∧
      s'.db.returnItems = s.db.returnItems ∧
      s'.db.stockTransfers = s.db.stockTransfers ∧
      s'.db.stockTransferItems = s.db.stockTransferItems ∧
      s'.db.branches = s.db.branches ∧
      s'.db.products = s.db.products := by
  induction items with
  | nil =>
      intro s s' h
      simp only [saleLoop, Except.ok.injEq] at h
      subst h
      exact ⟨rfl, rfl, rfl, rfl, rfl, rfl, rfl, rfl⟩
  | cons i rest ih =>
      intro s s' h
      obtain ⟨s1, hstep, hrest⟩ := saleLoop_cons_ok h
      obtain ⟨a1, a2, a3, a4, a5, a6, a7, a8⟩ := saleStep_frames hstep
      obtain ⟨b1, b2, b3, b4, b5, b6, b7, b8⟩ := ih hrest
      exact ⟨b1.trans a1, b2.trans a2, b3.trans a3, b4.trans a4, b5.trans a5,
        b6.trans a6, b7.trans a7, b8.trans a8⟩

theorem saleLoop_noFail {p : CreateSaleParams} {sid : Nat}
    {items : List CreateSaleItemInput} :
    ∀ s : TxSt, ∃ s', saleLoop p noFail sid items s = .ok s' := by
  induction items with
  | nil => intro s; exact ⟨s, rfl⟩
  | cons i rest ih =>
      intro s
      have hstep : saleStep p noFail sid i s = .ok
          ⟨insMovement p.businessId p.branchId i.productId p.userId .sale i.quantity
            .posSale (applyDelta p.businessId p.branchId i.productId (-i.quantity)
              (insSaleItem sid i s.db)), s.w + 3⟩ := by
        simp [saleStep, txWrite, noFail, bind, Except.bind]
      obtain ⟨s', hs'⟩ := ih ⟨insMovement p.businessId p.branchId i.productId p.userId
        .sale i.quantity .posSale (applyDelta p.businessId p.branchId i.productId
          (-i.quantity) (insSaleItem sid i s.db)), s.w + 3⟩
      exact ⟨s', by simp [saleLoop, hstep, bind, Except.bind, hs']⟩

theorem txWrite_ok {fail : Nat → Bool} {f : DB → DB} {s s' : TxSt}
    (h : txWrite fail f s = .ok s') : s' = ⟨f s.db, s.w + 1⟩ ∧ fail s.w = false := by
  unfold txWrite at h
  by_cases h0 : fail s.w
  · rw [if_pos h0] at h
    cases h
  · rw [if_neg h0] at h
    cases h
    exact ⟨rfl, by simp [h0]⟩

theorem bind_ok_inv {α β : Type} {x : Except Err α} {f : α → Except Err β} {r : β}
    (h : (x >>= f) = .ok r) : ∃ a, x = .ok a ∧ f a = .ok r := by
  cases x with
  | error e => simp [bind, Except.bind] at h
  | ok a => exact ⟨a, rfl, by simpa [bind, Except.bind] using h⟩

theorem createSale_ok_decompose {p : CreateSaleParams} {fail : Nat → Bool} {db : DB}
    {sid : Nat} {db' : DB} (h : createSale p fail db = .ok (sid, db')) :
    sid = db.nextId ∧ p.items.isEmpty = false ∧
    ∃ s2 : TxSt, saleLoop p fail db.nextId p.items ⟨insSale p db, 1⟩ = .ok s2 ∧
      db' = insCash p db.nextId s2.db := by
  unfold createSale at h
  by_cases hempty : p.items.isEmpty
  · rw [if_pos hempty] at h
    cases h
  · rw [if_neg hempty] at h
    cases hc : (do
        let s ← txWrite fail (insSale p) ⟨db, 0⟩
        let s ← saleLoop p fail db.nextId p.items s
        txWrite fail (insCash p db.nextId) s : Except Err TxSt) with
    | error e =>
        rw [hc] at h
        cases h
    | ok s3 =>
        rw [hc] at h
        simp only [Except.ok.injEq, Prod.mk.injEq] at h
        obtain ⟨hsid, hdb⟩ := h
        subst hsid
        subst hdb
        obtain ⟨s1, hA, hc1⟩ := bind_ok_inv hc
        obtain ⟨s2, hB, hc2⟩ := bind_ok_inv hc1
        obtain ⟨hs1, -⟩ := txWrite_ok hA
        subst hs1
        obtain ⟨hs3, -⟩ := txWrite_ok hc2
        refine ⟨rfl, by simp [hempty], s2, ?_, ?_⟩
        · simpa using hB
        · rw [hs3]

/-! Operation-level facts about `createSale` -/

theorem createSale_stockQty {p : CreateSaleParams} {fail : Nat → Bool} {db : DB}
    {sid : Nat} {db' : DB} (hWF : WF db) (h : createSale p fail db = .ok (sid, db'))
    (b' br' p' : Nat) :
    stockQty db' b' br' p' = stockQty db b' br' p' +
      (if b' = p.businessId ∧ br' = p.branchId then -(itemQtySum p.items p') else 0) := by
  obtain ⟨hsid, hne, s2, hloop, hdb'⟩ := createSale_ok_decompose h
  have hWF1 : WF (insSale p db) := WF_insSale hWF p
  have hlt : db.nextId < (insSale p db).nextId := Nat.lt_succ_self _
  have hq := @saleLoop_stockQty p fail db.nextId p.items ⟨insSale p db, 1⟩ s2 hWF1 hlt hloop b' br' p'
  rw [hdb']
  calc stockQty (insCash p db.nextId s2.db) b' br' p'
      = stockQty s2.db b' br' p' := rfl
    _ = _ := by rw [hq]; rfl

theorem createSale_WF {p : CreateSaleParams} {fail : Nat → Bool} {db : DB}
    {sid : Nat} {db' : DB} (hWF : WF db) (h : createSale p fail db = .ok (sid, db')) :
    WF db' := by
  obtain ⟨hsid, hne, s2, hloop, hdb'⟩ := createSale_ok_decompose h
  have hWF1 : WF (insSale p db) := WF_insSale hWF p
  have hlt : db.nextId < (insSale p db).nextId := Nat.lt_succ_self _
  obtain ⟨hWF2, -, -⟩ := @saleLoop_WF p fail db.nextId p.items ⟨insSale p db, 1⟩ s2 hWF1 hlt hloop
  rw [hdb']
  exact WF_insCash hWF2 p db.nextId

theorem createSale_conserve {p : CreateSaleParams} {fail : Nat → Bool} {db : DB}
    {sid : Nat} {db' : DB} (hWF : WF db) (h : createSale p fail db = .ok (sid, db'))
    (b' br' p' : Nat) :
    stockQty db' b' br' p' - movementSum db' b' br' p' =
      stockQty db b' br' p' - movementSum db b' br' p' := by
  obtain ⟨hsid, hne, s2, hloop, hdb'⟩ := createSale_ok_decompose h
  have hWF1 : WF (insSale p db) := WF_insSale hWF p
  have hlt : db.nextId < (insSale p db).nextId := Nat.lt_succ_self _
  have hc := @saleLoop_conserve p fail db.nextId p.items ⟨insSale p db, 1⟩ s2 hWF1 hlt hloop b' br' p'
  rw [hdb']
  calc stockQty (insCash p db.nextId s2.db) b' br' p' -
        movementSum (insCash p db.nextId s2.db) b' br' p'
      = stockQty s2.db b' br' p' - movementSum s2.db b' br' p' := rfl
    _ = _ := by rw [hc]; rfl

theorem createSale_movCores {p : CreateSaleParams} {fail : Nat → Bool} {db : DB}
    {sid : Nat} {db' : DB} (h : createSale p fail db = .ok (sid, db')) :
    db'.stockMovements.map movCore =
      db.stockMovements.map movCore ++ p.items.map (saleMovSpec p) := by
  obtain ⟨hsid, hne, s2, hloop, hdb'⟩ := createSale_ok_decompose h
  have hm := saleLoop_movCores hloop
  rw [hdb']
  calc (insCash p db.nextId s2.db).stockMovements.map movCore
      = s2.db.stockMovements.map movCore := rfl
    _ = _ := by rw [hm]; rfl

theorem createSale_siCores {p : CreateSaleParams} {fail : Nat → Bool} {db : DB}
    {sid : Nat} {db' : DB} (h : createSale p fail db = .ok (sid, db')) :
    db'.saleItems.map siCore =
      db.saleItems.map siCore ++ p.items.map (saleItemSpec db.nextId) := by
  obtain ⟨hsid, hne, s2, hloop, hdb'⟩ := createSale_ok_decompose h
  have hm := saleLoop_siCores hloop
  rw [hdb']
  calc (insCash p db.nextId s2.db).saleItems.map siCore
      = s2.db.saleItems.map siCore := rfl
    _ = _ := by rw [hm]; rfl

theorem createSale_sales {p : CreateSaleParams} {fail : Nat → Bool} {db : DB}
    {sid : Nat} {db' : DB} (h : createSale p fail db = .ok (sid, db')) :
    db'.sales = db.sales ++
      [⟨db.nextId, p.businessId, p.branchId, p.userId, p.totalAmount, .completed,
        p.offlineId⟩] := by
  obtain ⟨hsid, hne, s2, hloop, hdb'⟩ := createSale_ok_decompose h
  obtain ⟨hsales, -⟩ := saleLoop_frames hloop
  rw [hdb']
  calc (insCash p db.nextId s2.db).sales = s2.db.sales := rfl
    _ = (insSale p db).sales := hsales
    _ = _ := rfl

theorem createSale_cashCores {p : CreateSaleParams} {fail : Nat → Bool} {db : DB}
    {sid : Nat} {db' : DB} (h : createSale p fail db = .ok (sid, db')) :
    db'.cashRegisterEntries.map ccCore = db.cashRegisterEntries.map ccCore ++
      [(p.businessId, p.branchId, db.nextId, p.paymentMethod, p.referenceCode,
        p.totalAmount, p.userId)] := by
  obtain ⟨hsid, hne, s2, hloop, hdb'⟩ := createSale_ok_decompose h
  obtain ⟨-, hcash, -⟩ := saleLoop_frames hloop
  rw [hdb']
  calc (insCash p db.nextId s2.db).cashRegisterEntries.map ccCore
      = s2.db.cashRegisterEntries.map ccCore ++
        [(p.businessId, p.branchId, db.nextId, p.paymentMethod, p.referenceCode,
          p.totalAmount, p.userId)] := by
        simp [insCash, ccCore]
    _ = _ := by rw [hcash]; rfl

theorem createSale_frames {p : CreateSaleParams} {fail : Nat → Bool} {db : DB}
    {sid : Nat} {db' : DB} (h : createSale p fail db = .ok (sid, db')) :
    db'.returns = db.returns ∧ db'.returnItems = db.returnItems ∧
    db'.stockTransfers = db.stockTransfers ∧
    db'.stockTransferItems = db.stockTransferItems ∧
    db'.branches = db.branches ∧ db'.products = db.products := by
  obtain ⟨hsid, hne, s2, hloop, hdb'⟩ := createSale_ok_decompose h
  obtain ⟨-, -, h3, h4, h5, h6, h7, h8⟩ := saleLoop_frames hloop
  rw [hdb']
  exact ⟨h3, h4, h5, h6, h7, h8⟩

theorem createSale_noFail {p : CreateSaleParams} {db : DB}
    (hne : p.items.isEmpty = false) :
    ∃ db', createSale p noFail db = .ok (db.nextId, db') := by
  obtain ⟨s2, hs2⟩ := @saleLoop_noFail p db.nextId p.items ⟨insSale p db, 1⟩
  have h1 : txWrite noFail (insSale p) ⟨db, 0⟩ = .ok ⟨insSale p db, 1⟩ := by
    simp [txWrite, noFail]
  have h2 : txWrite noFail (insCash p db.nextId) s2 =
      .ok ⟨insCash p db.nextId s2.db, s2.w + 1⟩ := by
    simp [txWrite, noFail]
  refine ⟨insCash p db.nextId s2.db, ?_⟩
  unfold createSale
  rw [if_neg (by simp [hne])]
  have hchain : (do
      let s ← txWrite noFail (insSale p) ⟨db, 0⟩
      let s ← saleLoop p noFail db.nextId p.items s
      txWrite noFail (insCash p db.nextId) s : Except Err TxSt) =
      .ok ⟨insCash p db.nextId s2.db, s2.w + 1⟩ := by
    rw [h1]
    show (saleLoop p noFail db.nextId p.items ⟨insSale p db, 1⟩ >>=
      fun s => txWrite noFail (insCash p db.nextId) s) = _
    rw [hs2]
    show txWrite noFail (insCash p db.nextId) s2 = _
    exact h2
  rw [hchain]

theorem WF_emptyDB : WF emptyDB := by
  unfold WF
  decide

theorem WF_exStockDB : WF exStockDB := by
  unfold WF
  decide

/-! ## Claim theorems -/

/-- C2: the claim says a second `createSale` carrying the same non-null
`(businessId, offlineId)` pair is rejected as a duplicate by a uniqueness
constraint.  The code has no such constraint (`offline_id` is a plain
nullable column and `createSale` performs no duplicate check): resubmitting
the identical payload succeeds, leaves two Sale rows with the same
`(businessId, offlineId)`, and decrements stock twice. -/
theorem C2_duplicate_offlineId_not_rejected :
    (createSale exOfflineSaleParams noFail exDBOffline1).isOk = true ∧
    (exDBOffline2.sales.filter
      (fun s => s.businessId == 1 && s.offlineId == some "abc")).length = 2 ∧
    stockQty exDBOffline2 1 1 42 = -2 := by decide

/-- C4: `createSale` never fails for insufficient stock — with no storage
failure, every sale with a non-empty item list commits, and each product's
committed stock level equals the prior quantity (implicitly 0 when no row
existed) minus the total quantity sold for it, even when the result is
negative. -/
theorem C4_sale_commits_without_stock_check (p : CreateSaleParams) (db : DB)
    (hWF : WF db) (hne : p.items.isEmpty = false) :
    ∃ db', createSale p noFail db = .ok (db.nextId, db') ∧
      ∀ pid, stockQty db' p.businessId p.branchId pid =
        stockQty db p.businessId p.branchId pid - itemQtySum p.items pid := by
  obtain ⟨db', hok⟩ := createSale_noFail hne
  refine ⟨db', hok, fun pid => ?_⟩
  have hq := createSale_stockQty hWF hok p.businessId p.branchId pid
  rw [hq, if_pos ⟨rfl, rfl⟩]
  ring

/-- Witness for C4 at a concrete input. -/
theorem C4_witness :
    ∃ db', createSale exSaleParams noFail emptyDB = .ok (emptyDB.nextId, db') ∧
      ∀ pid, stockQty db' exSaleParams.businessId exSaleParams.branchId pid =
        stockQty emptyDB exSaleParams.businessId exSaleParams.branchId pid -
          itemQtySum exSaleParams.items pid :=
  C4_sale_commits_without_stock_check exSaleParams emptyDB WF_emptyDB (by decide)

/-- C7: `createSale` is atomic.  If the operation fails (for any storage
failure oracle and at whichever write the failure strikes), the state is the
input state: no sale row, no sale items, no movements, no cash entry, no
stock change.  If it succeeds, the sale row, all its line items, all its
`sale`-type movements, the one cash register entry, and all the stock
decrements are committed together. -/
theorem C7_createSale_atomic (p : CreateSaleParams) (fail : Nat → Bool) (db : DB)
    (hWF : WF db) :
    ((createSale p fail db).isOk = false → runCreateSale p fail db = db) ∧
    (∀ sid db', createSale p fail db = .ok (sid, db') →
      sid = db.nextId ∧
      db'.sales = db.sales ++
        [⟨db.nextId, p.businessId, p.branchId, p.userId, p.totalAmount, .completed,
          p.offlineId⟩] ∧
      db'.saleItems.map siCore =
        db.saleItems.map siCore ++ p.items.map (saleItemSpec db.nextId) ∧
      db'.stockMovements.map movCore =
        db.stockMovements.map movCore ++ p.items.map (saleMovSpec p) ∧
      db'.cashRegisterEntries.map ccCore = db.cashRegisterEntries.map ccCore ++
        [(p.businessId, p.branchId, db.nextId, p.paymentMethod, p.referenceCode,
          p.totalAmount, p.userId)] ∧
      ∀ b' br' p', stockQty db' b' br' p' = stockQty db b' br' p' +
        (if b' = p.businessId ∧ br' = p.branchId then -(itemQtySum p.items p') else 0)) := by
  constructor
  · intro herr
    unfold runCreateSale
    cases hres : createSale p fail db with
    | error e => rfl
    | ok pr => rw [hres] at herr; simp [Except.isOk, Except.toBool] at herr
  · intro sid db' h
    obtain ⟨hsid, -, -, -, -⟩ := createSale_ok_decompose h
    exact ⟨hsid, createSale_sales h, createSale_siCores h, createSale_movCores h,
      createSale_cashCores h, fun b' br' p' => createSale_stockQty hWF h b' br' p'⟩

/-- Witness for C7 at a concrete input (an oracle failing the third write). -/
theorem C7_witness :
    ((createSale exSaleParams failAt2 emptyDB).isOk = false →
      runCreateSale exSaleParams failAt2 emptyDB = emptyDB) ∧
    (∀ sid db', createSale exSaleParams failAt2 emptyDB = .ok (sid, db') →
      sid = emptyDB.nextId ∧
      db'.sales = emptyDB.sales ++
        [⟨emptyDB.nextId, exSaleParams.businessId, exSaleParams.branchId,
          exSaleParams.userId, exSaleParams.totalAmount, .completed,
          exSaleParams.offlineId⟩] ∧
      db'.saleItems.map siCore = emptyDB.saleItems.map siCore ++
        exSaleParams.items.map (saleItemSpec emptyDB.nextId) ∧
      db'.stockMovements.map movCore = emptyDB.stockMovements.map movCore ++
        exSaleParams.items.map (saleMovSpec exSaleParams) ∧
      db'.cashRegisterEntries.map ccCore = emptyDB.cashRegisterEntries.map ccCore ++
        [(exSaleParams.businessId, exSaleParams.branchId, emptyDB.nextId,
          exSaleParams.paymentMethod, exSaleParams.referenceCode,
          exSaleParams.totalAmount, exSaleParams.userId)] ∧
      ∀ b' br' p', stockQty db' b' br' p' = stockQty emptyDB b' br' p' +
        (if b' = exSaleParams.businessId ∧ br' = exSaleParams.branchId
          then -(itemQtySum exSaleParams.items p') else 0)) :=
  C7_createSale_atomic exSaleParams failAt2 emptyDB WF_emptyDB

/-- C10: `createSale` checks only that the item list is non-empty — no
per-item positivity check — so a sale whose single item has a zero or
negative quantity still commits, and the stock level changes by minus that
quantity: a negative quantity increases recorded stock. -/
theorem C10_no_item_validation (b br uid pid : Nat) (q price total : Int)
    (pm : PaymentMethod) (db : DB) (hWF : WF db) (hq : q ≤ 0) :
    ∃ db', createSale ⟨b, br, uid, [⟨pid, q, price⟩], total, pm, none, none⟩ noFail db =
        .ok (db.nextId, db') ∧
      stockQty db' b br pid = stockQty db b br pid - q ∧
      stockQty db b br pid ≤ stockQty db' b br pid := by
  obtain ⟨db', hok⟩ := @createSale_noFail
    ⟨b, br, uid, [⟨pid, q, price⟩], total, pm, none, none⟩ db (by simp)
  refine ⟨db', hok, ?_, ?_⟩
  · have hqty := createSale_stockQty hWF hok b br pid
    rw [hqty, if_pos ⟨rfl, rfl⟩]
    have hsum : itemQtySum [⟨pid, q, price⟩] pid = q := by
      simp [itemQtySum]
    rw [hsum]
    ring
  · have hqty := createSale_stockQty hWF hok b br pid
    rw [hqty, if_pos ⟨rfl, rfl⟩]
    have hsum : itemQtySum [⟨pid, q, price⟩] pid = q := by
      simp [itemQtySum]
    rw [hsum]
    omega

/-- Witness for C10: selling −5 units raises stock from 0 to 5. -/
theorem C10_witness :
    ∃ db', createSale ⟨1, 1, 7, [⟨42, -5, 10⟩], 0, .cash, none, none⟩ noFail emptyDB =
        .ok (emptyDB.nextId, db') ∧
      stockQty db' 1 1 42 = stockQty emptyDB 1 1 42 - (-5) ∧
      stockQty emptyDB 1 1 42 ≤ stockQty db' 1 1 42 :=
  C10_no_item_validation 1 1 7 42 (-5) 10 0 .cash emptyDB WF_emptyDB (by decide)

/-! ## Lemmas about the return validation layer -/

theorem saleItemFor_foldl_none {pid : Nat} :
    ∀ (rows : List SaleItemRow) (acc : Option (Int × Int)),
      rows.foldl (fun a r => if r.productId = pid then some (r.quantity, r.unitPrice)
        else a) acc = none →
      acc = none ∧ ∀ r ∈ rows, r.productId ≠ pid := by
  intro rows
  induction rows with
  | nil => intro acc h; exact ⟨h, by simp⟩
  | cons x xs ih =>
      intro acc h
      simp only [List.foldl_cons] at h
      obtain ⟨hacc, hall⟩ := ih _ h
      by_cases hx : x.productId = pid
      · rw [if_pos hx] at hacc
        cases hacc
      · rw [if_neg hx] at hacc
        refine ⟨hacc, ?_⟩
        intro r hr
        rcases List.mem_cons.mp hr with hr | hr
        · subst hr; exact hx
        · exact hall r hr

theorem saleItemFor_none {rows : List SaleItemRow} {pid : Nat}
    (h : saleItemFor rows pid = none) : ∀ r ∈ rows, r.productId ≠ pid :=
  (saleItemFor_foldl_none rows none h).2

theorem saleItemFor_foldl_some {pid : Nat} {base : Int × Int} :
    ∀ (rows : List SaleItemRow) (acc : Option (Int × Int)),
      rows.foldl (fun a r => if r.productId = pid then some (r.quantity, r.unitPrice)
        else a) acc = some base →
      (∃ r ∈ rows, r.productId = pid ∧ base = (r.quantity, r.unitPrice)) ∨
        acc = some base := by
  intro rows
  induction rows with
  | nil => intro acc h; exact .inr h
  | cons x xs ih =>
      intro acc h
      simp only [List.foldl_cons] at h
      rcases ih _ h with hmem | hacc
      · obtain ⟨r, hr, h1, h2⟩ := hmem
        exact .inl ⟨r, List.mem_cons_of_mem x hr, h1, h2⟩
      · by_cases hx : x.productId = pid
        · rw [if_pos hx] at hacc
          exact .inl ⟨x, List.mem_cons_self x xs, hx, (Option.some.inj hacc).symm⟩
        · rw [if_neg hx] at hacc
          exact .inr hacc

theorem saleItemFor_some {rows : List SaleItemRow} {pid : Nat} {base : Int × Int}
    (h : saleItemFor rows pid = some base) :
    ∃ r ∈ rows, r.productId = pid ∧ base = (r.quantity, r.unitPrice) := by
  rcases saleItemFor_foldl_some rows none h with hmem | hacc
  · exact hmem
  · cases hacc

theorem filter_pid_eq_singleton {rows : List SaleItemRow}
    (hnd : (rows.map (fun r => r.productId)).Nodup) {r : SaleItemRow} (hr : r ∈ rows)
    {pid : Nat} (hpid : r.productId = pid) :
    rows.filter (fun x => x.productId == pid) = [r] := by
  induction rows with
  | nil => cases hr
  | cons x xs ih =>
      simp only [List.map_cons, List.nodup_cons] at hnd
      obtain ⟨hx, hxs⟩ := hnd
      rcases List.mem_cons.mp hr with hr1 | hr1
      · subst hr1
        rw [List.filter_cons, if_pos (by simp [hpid])]
        have hnone : xs.filter (fun x => x.productId == pid) = [] := by
          apply List.filter_eq_nil_iff.mpr
          intro a ha
          simp only [beq_iff_eq]
          intro hap
          exact hx (List.mem_map.mpr ⟨a, ha, by rw [hap, hpid]⟩)
        rw [hnone]
      · have hxne : x.productId ≠ pid := by
          intro hcontra
          exact hx (List.mem_map.mpr ⟨r, hr1, by rw [hpid, hcontra]⟩)
        rw [List.filter_cons, if_neg (by simp [hxne])]
        exact ih hxs hr1

theorem vQtySum_eq_zero_of_not_mem {vs : List ValidatedReturnItem} {pid : Nat}
    (h : pid ∉ vs.map (fun v => v.productId)) : vQtySum vs pid = 0 := by
  unfold vQtySum
  have hnil : vs.filter (fun v => v.productId == pid) = [] := by
    apply List.filter_eq_nil_iff.mpr
    intro v hv
    simp only [beq_iff_eq]
    intro hvp
    exact h (List.mem_map.mpr ⟨v, hv, hvp⟩)
  rw [hnil]
  rfl

theorem returnValidate_cons_ok {saleRows : List SaleItemRow} {already : Nat → Int}
    {i : CreateReturnItemInput} {rest : List CreateReturnItemInput}
    {vs : List ValidatedReturnItem}
    (h : returnValidate saleRows already (i :: rest) = .ok vs) :
    ∃ base vs', saleItemFor saleRows i.productId = some base ∧
      ¬(i.quantity ≤ 0) ∧ ¬(base.1 - already i.productId ≤ 0) ∧
      ¬(base.1 - already i.productId < i.quantity) ∧
      returnValidate saleRows already rest = .ok vs' ∧
      vs = ⟨i.productId, i.quantity, base.2, base.2 * i.quantity⟩ :: vs' := by
  unfold returnValidate at h
  cases hbase : saleItemFor saleRows i.productId with
  | none => rw [hbase] at h; cases h
  | some base =>
      rw [hbase] at h
      by_cases h1 : i.quantity ≤ 0
      · simp only [h1, if_true, ite_true] at h
        cases h
      · simp only [h1, if_false, ite_false] at h
        by_cases h2 : base.1 - already i.productId ≤ 0
        · simp only [h2, if_true, ite_true] at h
          cases h
        · simp only [h2, if_false, ite_false] at h
          by_cases h3 : base.1 - already i.productId < i.quantity
          · simp only [h3, if_true, ite_true] at h
            cases h
          · simp only [h3, if_false, ite_false] at h
            cases hrest : returnValidate saleRows already rest with
            | error e => rw [hrest] at h; cases h
            | ok vs' =>
                rw [hrest] at h
                cases h
                exact ⟨base, vs', rfl, h1, h2, h3, rfl, rfl⟩

theorem returnValidate_ok_checks {saleRows : List SaleItemRow} {already : Nat → Int} :
    ∀ {items : List CreateReturnItemInput} {vs : List ValidatedReturnItem},
      returnValidate saleRows already items = .ok vs →
      ∀ i ∈ items, ∃ base, saleItemFor saleRows i.productId = some base ∧
        0 < i.quantity ∧ 0 < base.1 - already i.productId ∧
        i.quantity ≤ base.1 - already i.productId := by
  intro items
  induction items with
  | nil => intro vs h i hi; cases hi
  | cons x rest ih =>
      intro vs h i hi
      obtain ⟨base, vs', hbase, h1, h2, h3, hrest, hvs⟩ := returnValidate_cons_ok h
      rcases List.mem_cons.mp hi with hi1 | hi1
      · subst hi1
        exact ⟨base, hbase, by omega, by omega, by omega⟩
      · exact ih hrest i hi1

theorem returnValidate_pids {saleRows : List SaleItemRow} {already : Nat → Int} :
    ∀ {items : List CreateReturnItemInput} {vs : List ValidatedReturnItem},
      returnValidate saleRows already items = .ok vs →
      vs.map (fun v => v.productId) = items.map (fun i => i.productId) := by
  intro items
  induction items with
  | nil =>
      intro vs h
      unfold returnValidate at h
      cases h
      rfl
  | cons x rest ih =>
      intro vs h
      obtain ⟨base, vs', hbase, h1, h2, h3, hrest, hvs⟩ := returnValidate_cons_ok h
      subst hvs
      simp only [List.map_cons]
      rw [ih hrest]

theorem returnValidate_vQtySum {saleRows : List SaleItemRow} {already : Nat → Int} :
    ∀ {items : List CreateReturnItemInput} {vs : List ValidatedReturnItem},
      returnValidate saleRows already items = .ok vs →
      (items.map (fun i => i.productId)).Nodup →
      ∀ pid, vQtySum vs pid = 0 ∨
        (∃ base, saleItemFor saleRows pid = some base ∧
          0 < vQtySum vs pid ∧ vQtySum vs pid ≤ base.1 - already pid) := by
  intro items
  induction items with
  | nil =>
      intro vs h hnd pid
      unfold returnValidate at h
      cases h
      exact .inl rfl
  | cons x rest ih =>
      intro vs h hnd pid
      obtain ⟨base, vs', hbase, h1, h2, h3, hrest, hvs⟩ := returnValidate_cons_ok h
      subst hvs
      simp only [List.map_cons, List.nodup_cons] at hnd
      obtain ⟨hx, hrestnd⟩ := hnd
      have hcons : vQtySum (⟨x.productId, x.quantity, base.2, base.2 * x.quantity⟩ :: vs')
          pid = (if x.productId = pid then x.quantity else 0) + vQtySum vs' pid := by
        unfold vQtySum
        rw [List.filter_cons]
        by_cases hp : x.productId = pid
        · rw [if_pos (by simp [hp])]
          simp [hp]
        · rw [if_neg (by simp [hp])]
          simp [hp]
      rw [hcons]
      by_cases hp : x.productId = pid
      · subst hp
        have hzero : vQtySum vs' x.productId = 0 := by
          apply vQtySum_eq_zero_of_not_mem
          rw [returnValidate_pids hrest]
          exact hx
        rw [hzero, if_pos rfl]
        refine .inr ⟨base, hbase, by omega, by omega⟩
      · rw [if_neg hp, zero_add]
        exact ih hrest hrestnd pid

theorem vQtySum_cons (v : ValidatedReturnItem) (vs : List ValidatedReturnItem)
    (p' : Nat) :
    vQtySum (v :: vs) p' = (if p' = v.productId then v.quantity else 0) + vQtySum vs p' := by
  simp only [vQtySum, List.filter_cons]
  by_cases h : p' = v.productId
  · have hb : (v.productId == p') = true := by simp [h]
    simp [hb, h]
  · have hb : (v.productId == p') = false := by
      simp only [beq_eq_false_iff_ne, ne_eq]
      exact fun e => h e.symm
    simp [hb, h]

/-! The return transaction loop: one step writes the `return_items` row,
applies the positive stock delta, and appends the `return`-type movement. -/

theorem returnStep_WF {b br uid sid : Nat} {reason : Option String} {rid : Nat}
    {v : ValidatedReturnItem} {db : DB} (hWF : WF db) (hrid : rid < db.nextId) :
    WF (insMovement b br v.productId uid .ret v.quantity (.saleReturn sid reason)
      (applyDelta b br v.productId v.quantity (insReturnItem rid v db))) :=
  WF_insMovement (WF_applyDelta (WF_insReturnItem hWF hrid v) _ _ _ _) _ _ _ _ _ _ _

theorem returnStep_mono {b br uid sid : Nat} {reason : Option String} {rid : Nat}
    {v : ValidatedReturnItem} {db : DB} :
    db.nextId ≤ (insMovement b br v.productId uid .ret v.quantity
      (.saleReturn sid reason)
      (applyDelta b br v.productId v.quantity (insReturnItem rid v db))).nextId := by
  have h2 := applyDelta_nextId_le b br v.productId v.quantity (insReturnItem rid v db)
  have h1 : (insReturnItem rid v db).nextId = db.nextId + 1 := rfl
  simp only [insMovement]
  omega

theorem returnTxLoop_stockQty {b br uid sid : Nat} {reason : Option String} {rid : Nat} :
    ∀ (vs : List ValidatedReturnItem) (db : DB), WF db → rid < db.nextId →
      ∀ b' br' p', stockQty (returnTxLoop b br uid sid reason rid vs db) b' br' p' =
        stockQty db b' br' p' + (if b' = b ∧ br' = br then vQtySum vs p' else 0) := by
  intro vs
  induction vs with
  | nil =>
      intro db hWF hrid b' br' p'
      simp only [returnTxLoop]
      have h0 : vQtySum ([] : List ValidatedReturnItem) p' = 0 := rfl
      rw [h0]
      simp
  | cons v rest ih =>
      intro db hWF hrid b' br' p'
      simp only [returnTxLoop]
      have hrec := ih (insMovement b br v.productId uid .ret v.quantity
          (.saleReturn sid reason) (applyDelta b br v.productId v.quantity
            (insReturnItem rid v db))) (returnStep_WF hWF hrid)
        (lt_of_lt_of_le hrid returnStep_mono) b' br' p'
      rw [hrec]
      have hnd : ((insReturnItem rid v db).stockLevels.map (fun r => r.id)).Nodup :=
        hWF.2.1
      have hstep : stockQty (insMovement b br v.productId uid .ret v.quantity
          (.saleReturn sid reason) (applyDelta b br v.productId v.quantity
            (insReturnItem rid v db))) b' br' p' =
          stockQty db b' br' p' +
            (if b' = b ∧ br' = br ∧ p' = v.productId then v.quantity else 0) := by
        have h1 : stockQty (insMovement b br v.productId uid .ret v.quantity
            (.saleReturn sid reason) (applyDelta b br v.productId v.quantity
              (insReturnItem rid v db))) b' br' p' =
            stockQty (applyDelta b br v.productId v.quantity
              (insReturnItem rid v db)) b' br' p' := rfl
        rw [h1, stockQty_applyDelta hnd]
        rfl
      rw [hstep, vQtySum_cons]
      by_cases hb : b' = b ∧ br' = br
      · by_cases hp : p' = v.productId
        · rw [if_pos ⟨hb.1, hb.2, hp⟩, if_pos hb, if_pos hb, if_pos hp]
          ring
        · rw [if_neg (fun hc => hp hc.2.2), if_pos hb, if_pos hb, if_neg hp]
          ring
      · rw [if_neg (fun hc => hb ⟨hc.1, hc.2.1⟩), if_neg hb, if_neg hb]
        ring

theorem returnTxLoop_conserve {b br uid sid : Nat} {reason : Option String} {rid : Nat} :
    ∀ (vs : List ValidatedReturnItem) (db : DB), WF db → rid < db.nextId →
      ∀ b' br' p',
        stockQty (returnTxLoop b br uid sid reason rid vs db) b' br' p' -
          movementSum (returnTxLoop b br uid sid reason rid vs db) b' br' p' =
        stockQty db b' br' p' - movementSum db b' br' p' := by
  intro vs
  induction vs with
  | nil =>
      intro db hWF hrid b' br' p'
      simp only [returnTxLoop]
  | cons v rest ih =>
      intro db hWF hrid b' br' p'
      simp only [returnTxLoop]
      have hrec := ih (insMovement b br v.productId uid .ret v.quantity
          (.saleReturn sid reason) (applyDelta b br v.productId v.quantity
            (insReturnItem rid v db))) (returnStep_WF hWF hrid)
        (lt_of_lt_of_le hrid returnStep_mono) b' br' p'
      rw [hrec]
      have hnd : ((insReturnItem rid v db).stockLevels.map (fun r => r.id)).Nodup :=
        hWF.2.1
      have hq : stockQty (insMovement b br v.productId uid .ret v.quantity
          (.saleReturn sid reason) (applyDelta b br v.productId v.quantity
            (insReturnItem rid v db))) b' br' p' =
          stockQty db b' br' p' +
            (if b' = b ∧ br' = br ∧ p' = v.productId then v.quantity else 0) := by
        have h1 : stockQty (insMovement b br v.productId uid .ret v.quantity
            (.saleReturn sid reason) (applyDelta b br v.productId v.quantity
              (insReturnItem rid v db))) b' br' p' =
            stockQty (applyDelta b br v.productId v.quantity
              (insReturnItem rid v db)) b' br' p' := rfl
        rw [h1, stockQty_applyDelta hnd]
        rfl
      have hm : movementSum (insMovement b br v.productId uid .ret v.quantity
          (.saleReturn sid reason) (applyDelta b br v.productId v.quantity
            (insReturnItem rid v db))) b' br' p' =
          movementSum db b' br' p' +
            (if b' = b ∧ br' = br ∧ p' = v.productId then v.quantity else 0) := by
        rw [movementSum_insMovement]
        have h2 : movementSum (applyDelta b br v.productId v.quantity
            (insReturnItem rid v db)) b' br' p' = movementSum db b' br' p' := by
          simp only [movementSum, applyDelta_stockMovements]
          rfl
        rw [h2]
        rfl
      rw [hq, hm]
      ring

theorem returnTxLoop_riCores {b br uid sid : Nat} {reason : Option String} {rid : Nat} :
    ∀ (vs : List ValidatedReturnItem) (db : DB),
      (returnTxLoop b br uid sid reason rid vs db).returnItems.map riCore =
        db.returnItems.map riCore ++ vs.map (returnItemSpec rid) := by
  intro vs
  induction vs with
  | nil => intro db; simp [returnTxLoop]
  | cons v rest ih =>
      intro db
      simp only [returnTxLoop]
      rw [ih]
      have hstep : (insMovement b br v.productId uid .ret v.quantity
          (.saleReturn sid reason) (applyDelta b br v.productId v.quantity
            (insReturnItem rid v db))).returnItems.map riCore =
          db.returnItems.map riCore ++ [returnItemSpec rid v] := by
        have h1 : (insMovement b br v.productId uid .ret v.quantity
            (.saleReturn sid reason) (applyDelta b br v.productId v.quantity
              (insReturnItem rid v db))).returnItems =
            (insReturnItem rid v db).returnItems := by
          simp [insMovement, applyDelta_returnItems]
        rw [h1]
        simp only [insReturnItem, List.map_append]
        rfl
      rw [hstep]
      simp

theorem returnTxLoop_frames {b br uid sid : Nat} {reason : Option String} {rid : Nat} :
    ∀ (vs : List ValidatedReturnItem) (db : DB),
      (returnTxLoop b br uid sid reason rid vs db).sales = db.sales ∧
      (returnTxLoop b br uid sid reason rid vs db).saleItems = db.saleItems ∧
      (returnTxLoop b br uid sid reason rid vs db).cashRegisterEntries =
        db.cashRegisterEntries ∧
      (returnTxLoop b br uid sid reason rid vs db).returns = db.returns ∧
      (returnTxLoop b br uid sid reason rid vs db).stockTransfers = db.stockTransfers ∧
      (returnTxLoop b br uid sid reason rid vs db).stockTransferItems =
        db.stockTransferItems ∧
      (returnTxLoop b br uid sid reason rid vs db).branches = db.branches ∧
      (returnTxLoop b br uid sid reason rid vs db).products = db.products := by
  intro vs
  induction vs with
  | nil => intro db; exact ⟨rfl, rfl, rfl, rfl, rfl, rfl, rfl, rfl⟩
  | cons v rest ih =>
      intro db
      simp only [returnTxLoop]
      obtain ⟨a1, a2, a3, a4, a5, a6, a7, a8⟩ := ih (insMovement b br v.productId uid
        .ret v.quantity (.saleReturn sid reason) (applyDelta b br v.productId
          v.quantity (insReturnItem rid v db)))
      refine ⟨a1.trans ?_, a2.trans ?_, a3.trans ?_, a4.trans ?_, a5.trans ?_,
        a6.trans ?_, a7.trans ?_, a8.trans ?_⟩ <;>
        simp [insMovement, insReturnItem, applyDelta_sales, applyDelta_saleItems,
          applyDelta_cash, applyDelta_returns, applyDelta_transfers,
          applyDelta_transferItems, applyDelta_branches, applyDelta_products]

theorem returnTxLoop_WF {b br uid sid : Nat} {reason : Option String} {rid : Nat} :
    ∀ (vs : List ValidatedReturnItem) (db : DB), WF db → rid < db.nextId →
      WF (returnTxLoop b br uid sid reason rid vs db) ∧
        db.nextId ≤ (returnTxLoop b br uid sid reason rid vs db).nextId := by
  intro vs
  induction vs with
  | nil => intro db hWF hrid; exact ⟨hWF, Nat.le_refl _⟩
  | cons v rest ih =>
      intro db hWF hrid
      simp only [returnTxLoop]
      obtain ⟨hWF2, hmono2⟩ := ih (insMovement b br v.productId uid .ret v.quantity
          (.saleReturn sid reason) (applyDelta b br v.productId v.quantity
            (insReturnItem rid v db))) (returnStep_WF hWF hrid)
        (lt_of_lt_of_le hrid returnStep_mono)
      exact ⟨hWF2, le_trans returnStep_mono hmono2⟩

theorem createReturn_ok_decompose {p : CreateReturnParams} {db : DB} {rid : Nat}
    {db' : DB} (h : createReturn p db = .ok (rid, db')) :
    ∃ saleRow vs,
      db.sales.find? (fun s => s.id == p.saleId && s.businessId == p.businessId) =
        some saleRow ∧
      returnValidate (db.saleItems.filter (fun si => si.saleId == p.saleId))
        (fun pid => alreadyReturnedFor db p.saleId p.businessId pid) p.items = .ok vs ∧
      rid = db.nextId ∧
      db' = returnTxLoop p.businessId saleRow.branchId p.userId p.saleId p.reason
        db.nextId vs
        (insReturn p.businessId saleRow.branchId p.saleId p.userId
          ((vs.map (fun v => v.lineTotal)).sum) p.reason p.refundMethod
          p.referenceCode db) := by
  unfold createReturn at h
  by_cases hempty : p.items.isEmpty
  · rw [if_pos hempty] at h
    cases h
  · rw [if_neg hempty] at h
    cases hfind : db.sales.find?
        (fun s => s.id == p.saleId && s.businessId == p.businessId) with
    | none => rw [hfind] at h; cases h
    | some saleRow =>
        rw [hfind] at h
        by_cases hbr : p.branchId.elim false (fun b2 => saleRow.branchId != b2) = true
        · simp only [hbr, if_true, ite_true] at h
          cases h
        · simp only [hbr, if_false, ite_false, Bool.false_eq_true] at h
          by_cases hsr : (db.saleItems.filter (fun si => si.saleId == p.saleId)).isEmpty
          · simp only [hsr, if_true, ite_true] at h
            cases h
          · simp only [hsr, if_false, ite_false, Bool.false_eq_true] at h
            cases hval : returnValidate
                (db.saleItems.filter (fun si => si.saleId == p.saleId))
                (fun pid => alreadyReturnedFor db p.saleId p.businessId pid) p.items with
            | error e => rw [hval] at h; cases h
            | ok vs =>
                rw [hval] at h
                simp only [Except.ok.injEq, Prod.mk.injEq] at h
                obtain ⟨h1, h2⟩ := h
                exact ⟨saleRow, vs, rfl, rfl, h1.symm, h2.symm⟩

theorem arf_append_item (returnsList : List ReturnRow)
    (itemsList : List ReturnItemRow) (row : ReturnItemRow) (sid' b' pid : Nat) :
    ((( itemsList ++ [row]).filter
        (fun ri => ri.productId == pid && returnJoined returnsList sid' b' ri)).map
      (fun ri => ri.quantity)).sum =
    (((itemsList).filter
        (fun ri => ri.productId == pid && returnJoined returnsList sid' b' ri)).map
      (fun ri => ri.quantity)).sum +
    (if (row.productId == pid && returnJoined returnsList sid' b' row) = true
      then row.quantity else 0) := by
  rw [List.filter_append]
  rw [List.map_append, List.sum_append]
  congr 1
  rw [List.filter_cons]
  split
  · simp
  · simp

theorem returnJoined_of_fresh {returnsList : List ReturnRow} {R : ReturnRow}
    {sid' b' : Nat} {ri : ReturnItemRow} (hne : R.id ≠ ri.returnId) :
    returnJoined (returnsList ++ [R]) sid' b' ri = returnJoined returnsList sid' b' ri := by
  unfold returnJoined
  rw [List.any_append]
  have hR : (R.id == ri.returnId && R.saleId == sid' && R.businessId == b') = false := by
    simp [hne]
  simp [hR]

theorem returnTxLoop_returns_any {b br uid sid : Nat} {reason : Option String}
    {rid : Nat} (sid' b' pid : Nat) :
    ∀ (vs : List ValidatedReturnItem) (db : DB),
      alreadyReturnedFor (returnTxLoop b br uid sid reason rid vs db) sid' b' pid =
        alreadyReturnedFor db sid' b' pid +
          (if (db.returns.any (fun r => r.id == rid && r.saleId == sid' &&
              r.businessId == b')) = true then vQtySum vs pid else 0) := by
  intro vs
  induction vs with
  | nil =>
      intro db
      simp only [returnTxLoop]
      have h0 : vQtySum ([] : List ValidatedReturnItem) pid = 0 := rfl
      rw [h0]
      simp
  | cons v rest ih =>
      intro db
      simp only [returnTxLoop]
      rw [ih (insMovement b br v.productId uid .ret v.quantity
          (.saleReturn sid reason) (applyDelta b br v.productId v.quantity
            (insReturnItem rid v db)))]
      have hret : (insMovement b br v.productId uid .ret v.quantity
          (.saleReturn sid reason) (applyDelta b br v.productId v.quantity
            (insReturnItem rid v db))).returns = db.returns := by
        simp [insMovement, applyDelta_returns, insReturnItem]
      have hstep : alreadyReturnedFor (insMovement b br v.productId uid .ret
          v.quantity (.saleReturn sid reason) (applyDelta b br v.productId v.quantity
            (insReturnItem rid v db))) sid' b' pid =
          alreadyReturnedFor db sid' b' pid +
            (if (v.productId == pid && db.returns.any (fun r => r.id == rid &&
                r.saleId == sid' && r.businessId == b')) = true
              then v.quantity else 0) := by
        unfold alreadyReturnedFor
        have hitems : (insMovement b br v.productId uid .ret v.quantity
            (.saleReturn sid reason) (applyDelta b br v.productId v.quantity
              (insReturnItem rid v db))).returnItems =
            db.returnItems ++
              [⟨db.nextId, rid, v.productId, v.quantity, v.unitPrice, v.lineTotal⟩] := by
          simp [insMovement, applyDelta_returnItems, insReturnItem]
        rw [hitems, hret]
        exact arf_append_item db.returns db.returnItems _ sid' b' pid
      rw [hstep, hret, vQtySum_cons]
      by_cases hJ : (db.returns.any (fun r => r.id == rid && r.saleId == sid' &&
          r.businessId == b')) = true
      · by_cases hp : v.productId = pid
        · rw [if_pos (by simp [hp, hJ]), if_pos hJ, if_pos hJ, if_pos hp.symm]
          ring
        · rw [if_neg (by simp [hp]), if_pos hJ, if_pos hJ,
            if_neg (fun e => hp e.symm)]
          ring
      · rw [if_neg (by simp [hJ]), if_neg hJ, if_neg hJ]
        ring

theorem arf_insReturn {db : DB} (hWF : WF db) (bid brid sid2 uid2 : Nat) (total : Int)
    (reason : Option String) (refund : Option PaymentMethod) (ref : Option String)
    (sid' b' pid : Nat) :
    alreadyReturnedFor (insReturn bid brid sid2 uid2 total reason refund ref db)
      sid' b' pid = alreadyReturnedFor db sid' b' pid := by
  unfold alreadyReturnedFor
  have hitems : (insReturn bid brid sid2 uid2 total reason refund ref db).returnItems =
      db.returnItems := rfl
  have hrets : (insReturn bid brid sid2 uid2 total reason refund ref db).returns =
      db.returns ++ [⟨db.nextId, bid, brid, sid2, uid2, total, jsTrimOrNull reason,
        refund, jsTrimOrNull ref⟩] := rfl
  rw [hitems, hrets]
  have hcong : ∀ ri ∈ db.returnItems,
      (ri.productId == pid && returnJoined (db.returns ++ [⟨db.nextId, bid, brid, sid2,
        uid2, total, jsTrimOrNull reason, refund, jsTrimOrNull ref⟩]) sid' b' ri) =
      (ri.productId == pid && returnJoined db.returns sid' b' ri) := by
    intro ri hri
    have hne : (⟨db.nextId, bid, brid, sid2, uid2, total, jsTrimOrNull reason, refund,
        jsTrimOrNull ref⟩ : ReturnRow).id ≠ ri.returnId := by
      have := hWF.2.2.2.2.2.1 ri hri
      simp only []
      omega
    rw [returnJoined_of_fresh hne]
  rw [List.filter_congr hcong]

theorem any_insReturn_fresh {db : DB} (hWF : WF db) (bid brid sid2 uid2 : Nat)
    (total : Int) (reason : Option String) (refund : Option PaymentMethod)
    (ref : Option String) (sid' b' : Nat) :
    ((insReturn bid brid sid2 uid2 total reason refund ref db).returns.any
      (fun r => r.id == db.nextId && r.saleId == sid' && r.businessId == b')) =
    (sid2 == sid' && bid == b') := by
  have hrets : (insReturn bid brid sid2 uid2 total reason refund ref db).returns =
      db.returns ++ [⟨db.nextId, bid, brid, sid2, uid2, total, jsTrimOrNull reason,
        refund, jsTrimOrNull ref⟩] := rfl
  rw [hrets, List.any_append]
  have hold : db.returns.any
      (fun r => r.id == db.nextId && r.saleId == sid' && r.businessId == b') = false := by
    rw [List.any_eq_false]
    intro r hr
    have := hWF.2.2.2.1 r hr
    simp only [Bool.and_eq_true, beq_iff_eq, not_and]
    intro he
    omega
  rw [hold]
  simp

theorem createReturn_effects {p : CreateReturnParams} {db : DB} {rid : Nat} {db' : DB}
    (hWF : WF db) (h : createReturn p db = .ok (rid, db')) :
    ∃ saleRow vs,
      db.sales.find? (fun s => s.id == p.saleId && s.businessId == p.businessId) =
        some saleRow ∧
      returnValidate (db.saleItems.filter (fun si => si.saleId == p.saleId))
        (fun pid => alreadyReturnedFor db p.saleId p.businessId pid) p.items = .ok vs ∧
      WF db' ∧
      db'.sales = db.sales ∧ db'.saleItems = db.saleItems ∧
      db'.cashRegisterEntries = db.cashRegisterEntries ∧
      db'.stockTransfers = db.stockTransfers ∧
      db'.stockTransferItems = db.stockTransferItems ∧
      db'.branches = db.branches ∧ db'.products = db.products ∧
      (∀ sid' b' pid, alreadyReturnedFor db' sid' b' pid =
        alreadyReturnedFor db sid' b' pid +
          (if (p.saleId == sid' && p.businessId == b') = true
            then vQtySum vs pid else 0)) ∧
      (∀ b' br' p', stockQty db' b' br' p' = stockQty db b' br' p' +
        (if b' = p.businessId ∧ br' = saleRow.branchId then vQtySum vs p' else 0)) ∧
      (∀ b' br' p', stockQty db' b' br' p' - movementSum db' b' br' p' =
        stockQty db b' br' p' - movementSum db b' br' p') := by
  obtain ⟨saleRow, vs, hfind, hval, hrid, hdb'⟩ := createReturn_ok_decompose h
  subst hdb'
  have hWF1 : WF (insReturn p.businessId saleRow.branchId p.saleId p.userId
      ((vs.map (fun v => v.lineTotal)).sum) p.reason p.refundMethod
      p.referenceCode db) := WF_insReturn hWF _ _ _ _ _ _ _ _
  have hrid1 : db.nextId < (insReturn p.businessId saleRow.branchId p.saleId p.userId
      ((vs.map (fun v => v.lineTotal)).sum) p.reason p.refundMethod
      p.referenceCode db).nextId := Nat.lt_succ_self _
  obtain ⟨hf1, hf2, hf3, hf4, hf5, hf6, hf7, hf8⟩ := @returnTxLoop_frames
    p.businessId saleRow.branchId p.userId p.saleId p.reason db.nextId vs
    (insReturn p.businessId saleRow.branchId p.saleId p.userId
      ((vs.map (fun v => v.lineTotal)).sum) p.reason p.refundMethod p.referenceCode db)
  obtain ⟨hWF', -⟩ := returnTxLoop_WF vs _ hWF1 hrid1
  refine ⟨saleRow, vs, hfind, hval, hWF', ?_, ?_, ?_, ?_, ?_, ?_, ?_, ?_, ?_, ?_⟩
  · rw [hf1]; rfl
  · rw [hf2]; rfl
  · rw [hf3]; rfl
  · rw [hf5]; rfl
  · rw [hf6]; rfl
  · rw [hf7]; rfl
  · rw [hf8]; rfl
  · intro sid' b' pid
    rw [returnTxLoop_returns_any sid' b' pid vs _]
    rw [arf_insReturn hWF _ _ _ _ _ _ _ _ sid' b' pid]
    rw [any_insReturn_fresh hWF _ _ _ _ _ _ _ _ sid' b']
  · intro b' br' p'
    rw [returnTxLoop_stockQty vs _ hWF1 hrid1 b' br' p']
    rfl
  · intro b' br' p'
    rw [returnTxLoop_conserve vs _ hWF1 hrid1 b' br' p']
    rfl

/-- C1 (as stated, refuted): a return request listing the same productId in
two items passes validation — the already-returned map is not updated inside
the loop — so returning 3 + 3 units of a product sold with quantity 5
succeeds, and the cumulative returned quantity (6) exceeds the sold
quantity (5). -/
theorem C1_counterexample :
    (createReturn exDupReturnParams exDB1).isOk = true ∧
    soldQtySum exDB2 1 42 < alreadyReturnedFor exDB2 1 1 42 ∧
    ¬ ReturnBound exDB2 1 1 := by
  refine ⟨by decide, by decide, fun h => ?_⟩
  have h42 := h 42
  have h1 : soldQtySum exDB2 1 42 = 5 := by decide
  have h2 : alreadyReturnedFor exDB2 1 1 42 = 6 := by decide
  omega

/-- C1 (amended): for return requests listing each productId at most once
(and sales listing each product once), the bound holds: if the cumulative
returned quantity per product did not exceed the sale's quantity before the
call, it does not after — whether the call succeeds or is rejected — other
sales' returned totals and all sold totals are unchanged, and any request
containing an item whose quantity exceeds the remaining amount (original
quantity minus previously returned) is rejected (with a 400
InvalidArgument) and leaves the state unchanged. -/
theorem C1_amended_return_bound (p : CreateReturnParams) (db : DB) (hWF : WF db)
    (hnd : (p.items.map (fun i => i.productId)).Nodup)
    (hsnd : ((db.saleItems.filter (fun si => si.saleId == p.saleId)).map
      (fun r => r.productId)).Nodup)
    (hbound : ReturnBound db p.saleId p.businessId) :
    ReturnBound (runCreateReturn p db) p.saleId p.businessId ∧
    (∀ sid' b' pid, ¬(p.saleId = sid' ∧ p.businessId = b') →
      alreadyReturnedFor (runCreateReturn p db) sid' b' pid =
        alreadyReturnedFor db sid' b' pid) ∧
    (∀ sid pid, soldQtySum (runCreateReturn p db) sid pid = soldQtySum db sid pid) ∧
    ((∃ i ∈ p.items, ∃ base,
        saleItemFor (db.saleItems.filter (fun si => si.saleId == p.saleId))
          i.productId = some base ∧
        base.1 - alreadyReturnedFor db p.saleId p.businessId i.productId < i.quantity) →
      (createReturn p db).isOk = false ∧ runCreateReturn p db = db) := by
  cases hres : createReturn p db with
  | error e =>
      have hrun : runCreateReturn p db = db := by
        unfold runCreateReturn
        rw [hres]
      rw [hrun]
      exact ⟨hbound, fun _ _ _ _ => rfl, fun _ _ => rfl,
        fun _ => ⟨rfl, rfl⟩⟩
  | ok pr =>
      obtain ⟨rid, db2⟩ := pr
      have hrun : runCreateReturn p db = db2 := by
        unfold runCreateReturn
        rw [hres]
      rw [hrun]
      obtain ⟨saleRow, vs, hfind, hval, hWF', hsales, hsi, hcash, htr, hti, hbrs, hpr,
        harf, hstock, hcons⟩ := createReturn_effects hWF hres
      have hsold : ∀ sid pid, soldQtySum db2 sid pid = soldQtySum db sid pid := by
        intro sid pid
        unfold soldQtySum
        rw [hsi]
      refine ⟨?_, ?_, hsold, ?_⟩
      · intro pid
        have h1 := harf p.saleId p.businessId pid
        have hcond : (p.saleId == p.saleId && p.businessId == p.businessId) = true := by
          simp
        rw [hcond] at h1
        simp only [if_true, ite_true] at h1
        rw [h1, hsold]
        rcases returnValidate_vQtySum hval hnd pid with hzero | ⟨base, hbase, hpos, hle⟩
        · rw [hzero]
          have := hbound pid
          omega
        · obtain ⟨r, hr, hpid, hbaseEq⟩ := saleItemFor_some hbase
          have hsingle := filter_pid_eq_singleton hsnd hr hpid
          have hsoldEq : soldQtySum db p.saleId pid = base.1 := by
            unfold soldQtySum
            have hcomm : db.saleItems.filter
                (fun si => si.saleId == p.saleId && si.productId == pid) =
                db.saleItems.filter
                  (fun si => si.productId == pid && si.saleId == p.saleId) := by
              apply List.filter_congr
              intro a _
              exact Bool.and_comm _ _
            rw [hcomm, ← List.filter_filter, hsingle, hbaseEq]
            simp
          rw [hsoldEq]
          omega
      · intro sid' b' pid hne
        have h1 := harf sid' b' pid
        have hcond : (p.saleId == sid' && p.businessId == b') = false := by
          simp only [Bool.and_eq_false_iff, beq_eq_false_iff_ne, ne_eq]
          by_cases h1 : p.saleId = sid'
          · right
            intro h2
            exact hne ⟨h1, h2⟩
          · left
            exact h1
        rw [hcond] at h1
        simp only [Bool.false_eq_true, if_false, ite_false, add_zero] at h1
        exact h1
      · intro hexc
        exfalso
        obtain ⟨i, hi, base, hbase, hlt⟩ := hexc
        obtain ⟨base', hbase', -, -, hle⟩ := returnValidate_ok_checks hval i hi
        rw [hbase] at hbase'
        have hbb : base = base' := Option.some.inj hbase'
        subst hbb
        omega

theorem WF_exDB1 : WF exDB1 := by
  unfold WF
  decide

theorem returnBound_exDB1 : ReturnBound exDB1 1 1 := by
  intro pid
  have h0 : alreadyReturnedFor exDB1 1 1 pid = 0 := rfl
  rw [h0]
  have hitems : exDB1.saleItems = [⟨2, 1, 42, 5, 10, 50⟩] := by decide
  unfold soldQtySum
  rw [hitems]
  by_cases h : pid = 42
  · subst h
    decide
  · have hb : ((42 : Nat) == pid) = false := by
      simp only [beq_eq_false_iff_ne, ne_eq]
      exact fun e => h e.symm
    simp [hb]

/-- Witness for the amended C1 at a concrete input. -/
theorem C1_witness :
    ReturnBound (runCreateReturn exSingleReturnParams exDB1) 1 1 ∧
    (∀ sid' b' pid, ¬((1 : Nat) = sid' ∧ (1 : Nat) = b') →
      alreadyReturnedFor (runCreateReturn exSingleReturnParams exDB1) sid' b' pid =
        alreadyReturnedFor exDB1 sid' b' pid) ∧
    (∀ sid pid, soldQtySum (runCreateReturn exSingleReturnParams exDB1) sid pid =
      soldQtySum exDB1 sid pid) ∧
    ((∃ i ∈ exSingleReturnParams.items, ∃ base,
        saleItemFor (exDB1.saleItems.filter (fun si => si.saleId == 1))
          i.productId = some base ∧
        base.1 - alreadyReturnedFor exDB1 1 1 i.productId < i.quantity) →
      (createReturn exSingleReturnParams exDB1).isOk = false ∧
        runCreateReturn exSingleReturnParams exDB1 = exDB1) :=
  C1_amended_return_bound exSingleReturnParams exDB1 WF_exDB1 (by decide) (by decide)
    returnBound_exDB1

/-! ## The transfer engine -/

theorem transferStep_ok {b fromBr toBr uid tid : Nat}
    {item : CreateStockTransferItemInput} {db db1 : DB}
    (hq : 0 < item.quantity)
    (h : transferStep b fromBr toBr uid tid item db = .ok db1) :
    ∃ l, findLevel b fromBr item.productId db.stockLevels = some l ∧
      ¬(l.quantity < item.quantity) ∧
      db1 = insMovement b toBr item.productId uid .adjustment item.quantity
          (.transferIn fromBr tid)
        (insMovement b fromBr item.productId uid .adjustment item.quantity
          (.transferOut toBr tid)
        (insTransferItem tid item.productId item.quantity
        (applyDelta b toBr item.productId item.quantity
          { db with stockLevels :=
              setLevelQty l.id (l.quantity - item.quantity) db.stockLevels }))) := by
  unfold transferStep at h
  cases hfl : findLevel b fromBr item.productId db.stockLevels with
  | none =>
      rw [hfl] at h
      simp only [Option.map_none', Option.getD_none] at h
      rw [if_pos hq] at h
      cases h
  | some l =>
      rw [hfl] at h
      simp only [Option.map_some', Option.getD_some] at h
      by_cases hlt : l.quantity < item.quantity
      · rw [if_pos hlt] at h
        cases h
      · rw [if_neg hlt] at h
        cases h
        exact ⟨l, rfl, hlt, rfl⟩

theorem transferStep_WF {b fromBr toBr uid tid : Nat}
    {item : CreateStockTransferItemInput} {db db1 : DB} (hWF : WF db)
    (hq : 0 < item.quantity)
    (h : transferStep b fromBr toBr uid tid item db = .ok db1) : WF db1 := by
  obtain ⟨l, hfl, hlt, hdb1⟩ := transferStep_ok hq h
  rw [hdb1]
  exact WF_insMovement (WF_insMovement (WF_insTransferItem
    (WF_applyDelta (WF_setLevels hWF _ _) _ _ _ _) _ _ _) _ _ _ _ _ _ _) _ _ _ _ _ _ _

theorem transferStep_stockQty {b fromBr toBr uid tid : Nat}
    {item : CreateStockTransferItemInput} {db db1 : DB} (hWF : WF db)
    (hq : 0 < item.quantity)
    (h : transferStep b fromBr toBr uid tid item db = .ok db1) (b' br' p' : Nat) :
    stockQty db1 b' br' p' = stockQty db b' br' p' +
      (if b' = b ∧ br' = toBr ∧ p' = item.productId then item.quantity else 0) -
      (if b' = b ∧ br' = fromBr ∧ p' = item.productId then item.quantity else 0) := by
  obtain ⟨l, hfl, hlt, hdb1⟩ := transferStep_ok hq h
  rw [hdb1]
  have hkey : levelKey b fromBr item.productId l = true := List.find?_some hfl
  have hset : ∀ bq brq pq, stockQty
      { db with stockLevels :=
          setLevelQty l.id (l.quantity - item.quantity) db.stockLevels } bq brq pq =
      stockQty db bq brq pq +
        (if bq = b ∧ brq = fromBr ∧ pq = item.productId
          then -item.quantity else 0) := by
    intro bq brq pq
    simp only [stockQty]
    rw [qtySum_setLevelQty hWF.2.1 hfl]
    congr 1
    obtain ⟨e1, e2, e3⟩ := levelKey_iff.mp hkey
    by_cases hc : bq = b ∧ brq = fromBr ∧ pq = item.productId
    · rw [if_pos (levelKey_iff.mpr ⟨by rw [e1, hc.1], by rw [e2, hc.2.1],
        by rw [e3, hc.2.2]⟩), if_pos hc]
      ring
    · rw [if_neg, if_neg hc]
      intro hk
      obtain ⟨f1, f2, f3⟩ := levelKey_iff.mp hk
      exact hc ⟨by rw [← f1, e1], by rw [← f2, e2], by rw [← f3, e3]⟩
  have hnd2 : ((setLevelQty l.id (l.quantity - item.quantity)
      db.stockLevels).map (fun r => r.id)).Nodup := by
    rw [setLevelQty_map_id]
    exact hWF.2.1
  have happ := @stockQty_applyDelta
    { db with stockLevels := setLevelQty l.id (l.quantity - item.quantity) db.stockLevels }
    hnd2 b toBr item.productId item.quantity b' br' p'
  have hrest : stockQty (insMovement b toBr item.productId uid .adjustment
      item.quantity (.transferIn fromBr tid)
      (insMovement b fromBr item.productId uid .adjustment item.quantity
        (.transferOut toBr tid)
      (insTransferItem tid item.productId item.quantity
      (applyDelta b toBr item.productId item.quantity
        { db with stockLevels :=
            setLevelQty l.id (l.quantity - item.quantity) db.stockLevels }))))
      b' br' p' =
      stockQty (applyDelta b toBr item.productId item.quantity
        { db with stockLevels :=
            setLevelQty l.id (l.quantity - item.quantity) db.stockLevels })
      b' br' p' := rfl
  rw [hrest, happ, hset]
  split_ifs <;> ring

theorem transferStep_conserve {b fromBr toBr uid tid : Nat}
    {item : CreateStockTransferItemInput} {db db1 : DB} (hWF : WF db)
    (hq : 0 < item.quantity)
    (h : transferStep b fromBr toBr uid tid item db = .ok db1) (b' br' p' : Nat) :
    stockQty db1 b' br' p' - movementSum db1 b' br' p' =
      stockQty db b' br' p' - movementSum db b' br' p' := by
  obtain ⟨l, hfl, hlt, hdb1⟩ := transferStep_ok hq h
  have hqty := transferStep_stockQty hWF hq h b' br' p'
  have hmv : movementSum db1 b' br' p' = movementSum db b' br' p' +
      (if b' = b ∧ br' = toBr ∧ p' = item.productId then item.quantity else 0) -
      (if b' = b ∧ br' = fromBr ∧ p' = item.productId then item.quantity else 0) := by
    rw [hdb1]
    rw [movementSum_insMovement]
    rw [movementSum_insMovement]
    have hbase : movementSum (insTransferItem tid item.productId item.quantity
        (applyDelta b toBr item.productId item.quantity
          { db with stockLevels :=
              setLevelQty l.id (l.quantity - item.quantity) db.stockLevels }))
        b' br' p' = movementSum db b' br' p' := by
      simp only [movementSum, insTransferItem, applyDelta_stockMovements]
    rw [hbase]
    simp only [rowDelta]
    split_ifs <;> ring
  rw [hqty, hmv]
  try ring

theorem transferStep_frames {b fromBr toBr uid tid : Nat}
    {item : CreateStockTransferItemInput} {db db1 : DB} (hq : 0 < item.quantity)
    (h : transferStep b fromBr toBr uid tid item db = .ok db1) :
    db1.sales = db.sales ∧ db1.saleItems = db.saleItems ∧
    db1.cashRegisterEntries = db.cashRegisterEntries ∧
    db1.returns = db.returns ∧ db1.returnItems = db.returnItems ∧
    db1.stockTransfers = db.stockTransfers ∧
    db1.branches = db.branches ∧ db1.products = db.products ∧
    db1.stockTransferItems.map tiCore =
      db.stockTransferItems.map tiCore ++ [(tid, item.productId, item.quantity)] ∧
    db.nextId ≤ db1.nextId := by
  obtain ⟨l, hfl, hlt, hdb1⟩ := transferStep_ok hq h
  rw [hdb1]
  refine ⟨?_, ?_, ?_, ?_, ?_, ?_, ?_, ?_, ?_, ?_⟩
  · simp [insMovement, insTransferItem, applyDelta_sales]
  · simp [insMovement, insTransferItem, applyDelta_saleItems]
  · simp [insMovement, insTransferItem, applyDelta_cash]
  · simp [insMovement, insTransferItem, applyDelta_returns]
  · simp [insMovement, insTransferItem, applyDelta_returnItems]
  · simp [insMovement, insTransferItem, applyDelta_transfers]
  · simp [insMovement, insTransferItem, applyDelta_branches]
  · simp [insMovement, insTransferItem, applyDelta_products]
  · have h1 : (insMovement b toBr item.productId uid .adjustment item.quantity
        (.transferIn fromBr tid)
        (insMovement b fromBr item.productId uid .adjustment item.quantity
          (.transferOut toBr tid)
        (insTransferItem tid item.productId item.quantity
        (applyDelta b toBr item.productId item.quantity
          { db with stockLevels :=
              setLevelQty l.id (l.quantity - item.quantity) db.stockLevels })))).stockTransferItems =
        (insTransferItem tid item.productId item.quantity
        (applyDelta b toBr item.productId item.quantity
          { db with stockLevels :=
              setLevelQty l.id (l.quantity - item.quantity) db.stockLevels })).stockTransferItems := rfl
    rw [h1]
    simp only [insTransferItem, List.map_append, applyDelta_transferItems]
    rfl
  · have h2 := applyDelta_nextId_le b toBr item.productId item.quantity
      { db with stockLevels := setLevelQty l.id (l.quantity - item.quantity) db.stockLevels }
    simp only [insMovement, insTransferItem] at h2 ⊢
    omega

theorem filter_levelKey_eq_singleton {b br p : Nat} :
    ∀ {levels : List StockLevelRow},
      ((levels.map (fun r => (r.businessId, r.branchId, r.productId))).Nodup) →
      ∀ {l : StockLevelRow}, findLevel b br p levels = some l →
      levels.filter (levelKey b br p) = [l] := by
  intro levels
  induction levels with
  | nil => intro _ l hfind; simp [findLevel] at hfind
  | cons x xs ih =>
      intro hknd l hfind
      simp only [List.map_cons, List.nodup_cons] at hknd
      obtain ⟨hx, hxs⟩ := hknd
      by_cases hkey : levelKey b br p x = true
      · have hlx : l = x := by
          unfold findLevel at hfind
          rw [List.find?_cons_of_pos _ hkey] at hfind
          exact (Option.some.inj hfind).symm
        subst hlx
        rw [List.filter_cons, if_pos hkey]
        have hnil : xs.filter (levelKey b br p) = [] := by
          apply List.filter_eq_nil_iff.mpr
          intro y hy hykey
          obtain ⟨e1, e2, e3⟩ := levelKey_iff.mp hkey
          obtain ⟨f1, f2, f3⟩ := levelKey_iff.mp hykey
          apply hx
          apply List.mem_map.mpr
          exact ⟨y, hy, by rw [f1, f2, f3, ← e1, ← e2, ← e3]⟩
        rw [hnil]
      · have hfind' : findLevel b br p xs = some l := by
          unfold findLevel at hfind ⊢
          rwa [List.find?_cons_of_neg _ hkey] at hfind
        rw [List.filter_cons, if_neg hkey]
        exact ih hxs hfind'

theorem stockQty_eq_findLevel {db : DB}
    (hknd : (db.stockLevels.map (fun r => (r.businessId, r.branchId, r.productId))).Nodup)
    (b br p : Nat) :
    stockQty db b br p =
      ((findLevel b br p db.stockLevels).map (fun l => l.quantity)).getD 0 := by
  cases hfind : findLevel b br p db.stockLevels with
  | none =>
      simp only [Option.map_none', Option.getD_none]
      exact qtySum_eq_zero_of_none hfind
  | some l =>
      simp only [Option.map_some', Option.getD_some, stockQty, qtySum]
      rw [filter_levelKey_eq_singleton hknd hfind]
      simp

theorem transferValidate_none {db : DB} {businessId : Nat} :
    ∀ {items : List CreateStockTransferItemInput},
      transferValidate db businessId items = none → ∀ i ∈ items, 0 < i.quantity := by
  intro items
  induction items with
  | nil => intro _ i hi; cases hi
  | cons x rest ih =>
      intro h i hi
      unfold transferValidate at h
      split at h
      · cases h
      · split at h
        · cases h
        · split at h
          · cases h
          · rcases List.mem_cons.mp hi with hi1 | hi1
            · subst hi1
              omega
            · exact ih h i hi1

theorem tQtySum_cons (i : CreateStockTransferItemInput)
    (rest : List CreateStockTransferItemInput) (p' : Nat) :
    tQtySum (i :: rest) p' =
      (if p' = i.productId then i.quantity else 0) + tQtySum rest p' := by
  simp only [tQtySum, List.filter_cons]
  by_cases h : p' = i.productId
  · have hb : (i.productId == p') = true := by simp [h]
    simp [hb, h]
  · have hb : (i.productId == p') = false := by
      simp only [beq_eq_false_iff_ne, ne_eq]
      exact fun e => h e.symm
    simp [hb, h]

theorem transferStep_insufficient {b fromBr toBr uid tid : Nat}
    {item : CreateStockTransferItemInput} {db : DB}
    (hknd : (db.stockLevels.map (fun r => (r.businessId, r.branchId, r.productId))).Nodup)
    (hlt : stockQty db b fromBr item.productId < item.quantity) :
    transferStep b fromBr toBr uid tid item db =
      .error ⟨400, "Insufficient stock for product " ++ toString item.productId ++
        " in branch " ++ toString fromBr⟩ := by
  unfold transferStep
  show (if ((findLevel b fromBr item.productId db.stockLevels).map
      (fun l => l.quantity)).getD 0 < item.quantity then _ else _) = _
  rw [if_pos (by rw [← stockQty_eq_findLevel hknd]; exact hlt)]

theorem transferStep_ok_of_sufficient {b fromBr toBr uid tid : Nat}
    {item : CreateStockTransferItemInput} {db : DB}
    (hknd : (db.stockLevels.map (fun r => (r.businessId, r.branchId, r.productId))).Nodup)
    (hq : 0 < item.quantity)
    (hge : ¬ stockQty db b fromBr item.productId < item.quantity) :
    ∃ db1, transferStep b fromBr toBr uid tid item db = .ok db1 := by
  unfold transferStep
  have h0 : ¬ ((findLevel b fromBr item.productId db.stockLevels).map
      (fun l => l.quantity)).getD 0 < item.quantity := by
    rw [← stockQty_eq_findLevel hknd]
    exact hge
  cases hfl : findLevel b fromBr item.productId db.stockLevels with
  | none =>
      exfalso
      rw [stockQty_eq_findLevel hknd, hfl] at hge
      simp only [Option.map_none', Option.getD_none] at hge
      exact hge hq
  | some l =>
      have h0' : ¬ (Option.map (fun l2 => l2.quantity) (some l)).getD 0 <
          item.quantity := by
        rw [← hfl]
        exact h0
      refine ⟨insMovement b toBr item.productId uid .adjustment item.quantity
          (.transferIn fromBr tid)
        (insMovement b fromBr item.productId uid .adjustment item.quantity
          (.transferOut toBr tid)
        (insTransferItem tid item.productId item.quantity
        (applyDelta b toBr item.productId item.quantity
          { db with stockLevels :=
              setLevelQty l.id (l.quantity - item.quantity) db.stockLevels }))), ?_⟩
      show (if (Option.map (fun l2 => l2.quantity) (some l)).getD 0 < item.quantity
        then _ else _) = _
      rw [if_neg h0']

theorem transferLoop_WF {b fromBr toBr uid tid : Nat} :
    ∀ {items : List CreateStockTransferItemInput} {db db' : DB}, WF db →
      (∀ i ∈ items, 0 < i.quantity) →
      transferLoop b fromBr toBr uid tid items db = .ok db' →
      WF db' ∧ db.nextId ≤ db'.nextId := by
  intro items
  induction items with
  | nil =>
      intro db db' hWF _ h
      cases h
      exact ⟨hWF, Nat.le_refl _⟩
  | cons i rest ih =>
      intro db db' hWF hq h
      unfold transferLoop at h
      cases hstep : transferStep b fromBr toBr uid tid i db with
      | error e => rw [hstep] at h; cases h
      | ok db1 =>
          rw [hstep] at h
          have hqi : 0 < i.quantity := hq i (List.mem_cons_self i rest)
          have hWF1 := transferStep_WF hWF hqi hstep
          obtain ⟨hWF', hmono⟩ := ih hWF1 (fun j hj => hq j (List.mem_cons_of_mem i hj)) h
          obtain ⟨l, hfl, hlt, hdb1⟩ := transferStep_ok hqi hstep
          have hm1 : db.nextId ≤ db1.nextId := by
            rw [hdb1]
            have h2 := applyDelta_nextId_le b toBr i.productId i.quantity
              { db with stockLevels :=
                  setLevelQty l.id (l.quantity - i.quantity) db.stockLevels }
            simp only [insMovement, insTransferItem] at h2 ⊢
            omega
          exact ⟨hWF', le_trans hm1 hmono⟩

theorem transferLoop_stockQty {b fromBr toBr uid tid : Nat} :
    ∀ {items : List CreateStockTransferItemInput} {db db' : DB}, WF db →
      (∀ i ∈ items, 0 < i.quantity) →
      transferLoop b fromBr toBr uid tid items db = .ok db' →
      ∀ b' br' p', stockQty db' b' br' p' = stockQty db b' br' p' +
        (if b' = b ∧ br' = toBr then tQtySum items p' else 0) -
        (if b' = b ∧ br' = fromBr then tQtySum items p' else 0) := by
  intro items
  induction items with
  | nil =>
      intro db db' hWF _ h b' br' p'
      cases h
      have h0 : tQtySum ([] : List CreateStockTransferItemInput) p' = 0 := rfl
      rw [h0]
      simp
  | cons i rest ih =>
      intro db db' hWF hq h b' br' p'
      unfold transferLoop at h
      cases hstep : transferStep b fromBr toBr uid tid i db with
      | error e => rw [hstep] at h; cases h
      | ok db1 =>
          rw [hstep] at h
          have hqi : 0 < i.quantity := hq i (List.mem_cons_self i rest)
          have hWF1 := transferStep_WF hWF hqi hstep
          have hrec := ih hWF1 (fun j hj => hq j (List.mem_cons_of_mem i hj)) h b' br' p'
          have hone := transferStep_stockQty hWF hqi hstep b' br' p'
          rw [hrec, hone, tQtySum_cons]
          by_cases hto : b' = b ∧ br' = toBr <;> by_cases hfrom : b' = b ∧ br' = fromBr
          · by_cases hp : p' = i.productId
            · rw [if_pos ⟨hto.1, hto.2, hp⟩, if_pos ⟨hfrom.1, hfrom.2, hp⟩,
                if_pos hto, if_pos hfrom, if_pos hto, if_pos hfrom, if_pos hp]
              ring
            · rw [if_neg (fun hc => hp hc.2.2), if_neg (fun hc => hp hc.2.2),
                if_pos hto, if_pos hfrom, if_pos hto, if_pos hfrom, if_neg hp]
              ring
          · by_cases hp : p' = i.productId
            · rw [if_pos ⟨hto.1, hto.2, hp⟩, if_neg (fun hc => hfrom ⟨hc.1, hc.2.1⟩),
                if_pos hto, if_neg hfrom, if_pos hto, if_neg hfrom, if_pos hp]
              ring
            · rw [if_neg (fun hc => hp hc.2.2), if_neg (fun hc => hfrom ⟨hc.1, hc.2.1⟩),
                if_pos hto, if_neg hfrom, if_pos hto, if_neg hfrom, if_neg hp]
              ring
          · by_cases hp : p' = i.productId
            · rw [if_neg (fun hc => hto ⟨hc.1, hc.2.1⟩), if_pos ⟨hfrom.1, hfrom.2, hp⟩,
                if_neg hto, if_pos hfrom, if_neg hto, if_pos hfrom, if_pos hp]
              ring
            · rw [if_neg (fun hc => hto ⟨hc.1, hc.2.1⟩), if_neg (fun hc => hp hc.2.2),
                if_neg hto, if_pos hfrom, if_neg hto, if_pos hfrom, if_neg hp]
              ring
          · rw [if_neg (fun hc => hto ⟨hc.1, hc.2.1⟩),
              if_neg (fun hc => hfrom ⟨hc.1, hc.2.1⟩),
              if_neg hto, if_neg hfrom, if_neg hto, if_neg hfrom]
            ring

theorem transferLoop_conserve {b fromBr toBr uid tid : Nat} :
    ∀ {items : List CreateStockTransferItemInput} {db db' : DB}, WF db →
      (∀ i ∈ items, 0 < i.quantity) →
      transferLoop b fromBr toBr uid tid items db = .ok db' →
      ∀ b' br' p', stockQty db' b' br' p' - movementSum db' b' br' p' =
        stockQty db b' br' p' - movementSum db b' br' p' := by
  intro items
  induction items with
  | nil =>
      intro db db' hWF _ h b' br' p'
      cases h
      rfl
  | cons i rest ih =>
      intro db db' hWF hq h b' br' p'
      unfold transferLoop at h
      cases hstep : transferStep b fromBr toBr uid tid i db with
      | error e => rw [hstep] at h; cases h
      | ok db1 =>
          rw [hstep] at h
          have hqi : 0 < i.quantity := hq i (List.mem_cons_self i rest)
          have hWF1 := transferStep_WF hWF hqi hstep
          have hrec := ih hWF1 (fun j hj => hq j (List.mem_cons_of_mem i hj)) h b' br' p'
          rw [hrec]
          exact transferStep_conserve hWF hqi hstep b' br' p'

theorem transferLoop_frames {b fromBr toBr uid tid : Nat} :
    ∀ {items : List CreateStockTransferItemInput} {db db' : DB},
      (∀ i ∈ items, 0 < i.quantity) →
      transferLoop b fromBr toBr uid tid items db = .ok db' →
      db'.sales = db.sales ∧ db'.saleItems = db.saleItems ∧
      db'.cashRegisterEntries = db.cashRegisterEntries ∧
      db'.returns = db.returns ∧ db'.returnItems = db.returnItems ∧
      db'.stockTransfers = db.stockTransfers ∧
      db'.branches = db.branches ∧ db'.products = db.products ∧
      db'.stockTransferItems.map tiCore = db.stockTransferItems.map tiCore ++
        items.map (fun i => (tid, i.productId, i.quantity)) := by
  intro items
  induction items with
  | nil =>
      intro db db' _ h
      cases h
      exact ⟨rfl, rfl, rfl, rfl, rfl, rfl, rfl, rfl, by simp⟩
  | cons i rest ih =>
      intro db db' hq h
      unfold transferLoop at h
      cases hstep : transferStep b fromBr toBr uid tid i db with
      | error e => rw [hstep] at h; cases h
      | ok db1 =>
          rw [hstep] at h
          have hqi : 0 < i.quantity := hq i (List.mem_cons_self i rest)
          obtain ⟨a1, a2, a3, a4, a5, a6, a7, a8, a9, -⟩ := transferStep_frames hqi hstep
          obtain ⟨c1, c2, c3, c4, c5, c6, c7, c8, c9⟩ :=
            ih (fun j hj => hq j (List.mem_cons_of_mem i hj)) h
          refine ⟨c1.trans a1, c2.trans a2, c3.trans a3, c4.trans a4, c5.trans a5,
            c6.trans a6, c7.trans a7, c8.trans a8, ?_⟩
          rw [c9, a9]
          simp

theorem transferLoop_insufficient {b fromBr toBr uid tid : Nat}
    (hne : toBr ≠ fromBr) :
    ∀ (items : List CreateStockTransferItemInput) (db : DB), WF db →
      (∀ i ∈ items, 0 < i.quantity) →
      (((transferLoop b fromBr toBr uid tid items db).isOk = false) ↔
        specInsufficient (fun pid => stockQty db b fromBr pid) items = true) ∧
      (∀ e, transferLoop b fromBr toBr uid tid items db = .error e →
        ∃ pid : Nat, e = ⟨400, "Insufficient stock for product " ++ toString pid ++
          " in branch " ++ toString fromBr⟩) := by
  intro items
  induction items with
  | nil =>
      intro db hWF hq
      constructor
      · constructor
        · intro h
          simp [transferLoop, Except.isOk, Except.toBool] at h
        · intro h
          simp [specInsufficient] at h
      · intro e h
        cases h
  | cons i rest ih =>
      intro db hWF hq
      have hqi : 0 < i.quantity := hq i (List.mem_cons_self i rest)
      have hknd : (db.stockLevels.map
          (fun r => (r.businessId, r.branchId, r.productId))).Nodup := hWF.2.2.1
      by_cases hlt : stockQty db b fromBr i.productId < i.quantity
      · have hstep := @transferStep_insufficient b fromBr toBr uid tid i db hknd hlt
        have hloop : transferLoop b fromBr toBr uid tid (i :: rest) db =
            .error ⟨400, "Insufficient stock for product " ++ toString i.productId ++
              " in branch " ++ toString fromBr⟩ := by
          unfold transferLoop
          rw [hstep]
        constructor
        · constructor
          · intro _
            unfold specInsufficient
            rw [Bool.or_eq_true, decide_eq_true_eq]
            exact .inl hlt
          · intro _
            rw [hloop]
            rfl
        · intro e he
          rw [hloop] at he
          exact ⟨i.productId, (Except.error.inj he).symm⟩
      · obtain ⟨db1, hstep⟩ := transferStep_ok_of_sufficient hknd hqi hlt
        have hloop : transferLoop b fromBr toBr uid tid (i :: rest) db =
            transferLoop b fromBr toBr uid tid rest db1 := by
          show (match transferStep b fromBr toBr uid tid i db with
            | .error e => (Except.error e : Except Err DB)
            | .ok dbx => transferLoop b fromBr toBr uid tid rest dbx) =
            transferLoop b fromBr toBr uid tid rest db1
          rw [hstep]
        have hWF1 := transferStep_WF hWF hqi hstep
        have hfe : (fun pid => stockQty db1 b fromBr pid) =
            specRemaining (fun pid => stockQty db b fromBr pid) i.productId
              i.quantity := by
          funext pid
          unfold specRemaining
          rw [transferStep_stockQty hWF hqi hstep b fromBr pid]
          have hc1 : ¬(b = b ∧ fromBr = toBr ∧ pid = i.productId) :=
            fun hc => hne (hc.2.1.symm)
          rw [if_neg hc1]
          by_cases hp : pid = i.productId
          · rw [if_pos ⟨rfl, rfl, hp⟩, if_pos hp]
            ring
          · rw [if_neg (fun hc => hp hc.2.2), if_neg hp]
            ring
        have hdec : decide (stockQty db b fromBr i.productId < i.quantity) = false := by
          simp [hlt]
        have hspec : specInsufficient (fun pid => stockQty db b fromBr pid)
            (i :: rest) = specInsufficient
              (fun pid => stockQty db1 b fromBr pid) rest := by
          show (decide (stockQty db b fromBr i.productId < i.quantity) ||
            specInsufficient (specRemaining (fun pid => stockQty db b fromBr pid)
              i.productId i.quantity) rest) = _
          rw [hdec, Bool.false_or, ← hfe]
        obtain ⟨ihIff, ihErr⟩ := ih db1 hWF1
          (fun j hj => hq j (List.mem_cons_of_mem i hj))
        constructor
        · rw [hloop, hspec]
          exact ihIff
        · intro e he
          rw [hloop] at he
          exact ihErr e he

theorem createStockTransfer_ok_decompose {p : CreateStockTransferParams} {db : DB}
    {tid : Nat} {db' : DB} (h : createStockTransfer p db = .ok (tid, db')) :
    p.items.isEmpty = false ∧ (p.fromBranchId == p.toBranchId) = false ∧
    (findBranch db p.fromBranchId p.businessId).isSome = true ∧
    (findBranch db p.toBranchId p.businessId).isSome = true ∧
    transferValidate db p.businessId p.items = none ∧
    tid = db.nextId ∧
    transferLoop p.businessId p.fromBranchId p.toBranchId p.userId db.nextId p.items
      (insTransfer p db) = .ok db' := by
  unfold createStockTransfer at h
  by_cases h1 : p.items.isEmpty
  · rw [if_pos h1] at h
    cases h
  · rw [if_neg h1] at h
    by_cases h2 : (p.fromBranchId == p.toBranchId) = true
    · rw [if_pos h2] at h
      cases h
    · rw [if_neg h2] at h
      cases hf : findBranch db p.fromBranchId p.businessId with
      | none => rw [hf] at h; cases h
      | some fromB =>
          rw [hf] at h
          cases ht : findBranch db p.toBranchId p.businessId with
          | none => rw [ht] at h; cases h
          | some toB =>
              rw [ht] at h
              cases hval : transferValidate db p.businessId p.items with
              | some e => rw [hval] at h; cases h
              | none =>
                  rw [hval] at h
                  cases hloop : transferLoop p.businessId p.fromBranchId p.toBranchId
                      p.userId db.nextId p.items (insTransfer p db) with
                  | error e => rw [hloop] at h; cases h
                  | ok db2 =>
                      rw [hloop] at h
                      simp only [Except.ok.injEq, Prod.mk.injEq] at h
                      obtain ⟨htid, hdb⟩ := h
                      subst htid
                      subst hdb
                      exact ⟨by simp [h1], by simp [h2], rfl, rfl, rfl, rfl, rfl⟩

/-- **C5.** Transfer balance: for every successful `createStockTransfer`,
each product's stock level at the source branch decreases by exactly the
total requested quantity for that product, the stock level at the
destination branch increases by exactly that quantity (starting from an
implicit 0 — the row is created — when absent), and no stock level of any
other (business, branch, product) key changes; on any failure the state is
unchanged, so neither delta is applied. -/
theorem C5_transfer_balance (p : CreateStockTransferParams) (db : DB) (hWF : WF db) :
    (∀ e, createStockTransfer p db = .error e → runCreateStockTransfer p db = db) ∧
    (∀ tid db', createStockTransfer p db = .ok (tid, db') →
      runCreateStockTransfer p db = db' ∧
      ∀ b' br' pid, stockQty db' b' br' pid = stockQty db b' br' pid +
        (if b' = p.businessId ∧ br' = p.toBranchId then tQtySum p.items pid else 0) -
        (if b' = p.businessId ∧ br' = p.fromBranchId then tQtySum p.items pid else 0)) := by
  constructor
  · intro e he
    unfold runCreateStockTransfer
    rw [he]
  · intro tid db' h
    obtain ⟨-, -, -, -, hval, -, hloop⟩ := createStockTransfer_ok_decompose h
    have hWF1 : WF (insTransfer p db) := WF_insTransfer hWF p
    have hq := transferValidate_none hval
    constructor
    · unfold runCreateStockTransfer
      rw [h]
    · intro b' br' pid
      exact transferLoop_stockQty hWF1 hq hloop b' br' pid

/-- Witness for C5: transferring 3 units of product 42 from branch 1 to
branch 2 of business 1 over a stock of 10 leaves 7 at the source, 3 at the
destination (row created), and business 2's stock untouched. -/
theorem C5_transfer_balance_witness :
    WF exStockDB ∧
    stockQty (runCreateStockTransfer exTransferParams exStockDB) 1 1 42 = 7 ∧
    stockQty (runCreateStockTransfer exTransferParams exStockDB) 1 2 42 = 3 ∧
    stockQty (runCreateStockTransfer exTransferParams exStockDB) 2 9 43 = 8 := by
  have hok : createStockTransfer exTransferParams exStockDB =
      .ok (20, runCreateStockTransfer exTransferParams exStockDB) := by rfl
  have h := (C5_transfer_balance exTransferParams exStockDB WF_exStockDB).2
    20 (runCreateStockTransfer exTransferParams exStockDB) hok
  exact ⟨WF_exStockDB, (h.2 1 1 42).trans (by decide), (h.2 1 2 42).trans (by decide),
    (h.2 2 9 43).trans (by decide)⟩

/-- **C6.** Once the pre-transaction checks pass (non-empty items, distinct
existing branches, valid products and positive quantities),
`createStockTransfer` fails exactly when some requested item's quantity
exceeds the current quantity at the source branch (0 when no stock-level row
exists) at the point that item is processed — earlier items of the same
request having already reduced the source availability — and every such
failure is the InsufficientStock error for some product, aborting the whole
transfer with the state unchanged. -/
theorem C6_insufficient_stock (p : CreateStockTransferParams) (db : DB) (hWF : WF db)
    (hne : p.items.isEmpty = false)
    (hbr : (p.fromBranchId == p.toBranchId) = false)
    (hfb : (findBranch db p.fromBranchId p.businessId).isSome = true)
    (htb : (findBranch db p.toBranchId p.businessId).isSome = true)
    (hval : transferValidate db p.businessId p.items = none) :
    ((createStockTransfer p db).isOk = false ↔
      specInsufficient (fun pid => stockQty db p.businessId p.fromBranchId pid)
        p.items = true) ∧
    (∀ e, createStockTransfer p db = .error e →
      (∃ pid : Nat, e = ⟨400, "Insufficient stock for product " ++ toString pid ++
        " in branch " ++ toString p.fromBranchId⟩) ∧
      runCreateStockTransfer p db = db) := by
  have hne2 : p.toBranchId ≠ p.fromBranchId := by
    intro hc
    rw [hc] at hbr
    simp at hbr
  obtain ⟨fromB, hfB⟩ := Option.isSome_iff_exists.mp hfb
  obtain ⟨toB, htB⟩ := Option.isSome_iff_exists.mp htb
  have hCeq : createStockTransfer p db =
      match transferLoop p.businessId p.fromBranchId p.toBranchId p.userId db.nextId
          p.items (insTransfer p db) with
      | .error e => .error e
      | .ok db2 => .ok (db.nextId, db2) := by
    unfold createStockTransfer
    rw [if_neg (by simp [hne]), if_neg (by simp [hbr]), hfB, htB, hval]
  obtain ⟨hiff, herr⟩ := transferLoop_insufficient hne2 p.items (insTransfer p db)
    (WF_insTransfer hWF p) (transferValidate_none hval)
  constructor
  · rw [hCeq]
    have hisok : (match transferLoop p.businessId p.fromBranchId p.toBranchId p.userId
          db.nextId p.items (insTransfer p db) with
        | .error e => (Except.error e : Except Err (Nat × DB))
        | .ok db2 => .ok (db.nextId, db2)).isOk =
        (transferLoop p.businessId p.fromBranchId p.toBranchId p.userId
          db.nextId p.items (insTransfer p db)).isOk := by
      cases transferLoop p.businessId p.fromBranchId p.toBranchId p.userId
          db.nextId p.items (insTransfer p db) <;> rfl
    rw [hisok]
    exact hiff
  · intro e he
    have he0 := he
    rw [hCeq] at he
    cases hl : transferLoop p.businessId p.fromBranchId p.toBranchId p.userId
        db.nextId p.items (insTransfer p db) with
    | error e2 =>
        rw [hl] at he
        have hee : e = e2 := (Except.error.inj he).symm
        subst hee
        refine ⟨herr e hl, ?_⟩
        unfold runCreateStockTransfer
        rw [he0]
    | ok db2 =>
        rw [hl] at he
        cases he

/-- Witness for C6: requesting 12 units of product 42 from branch 1, which
holds only 10, is spec-insufficient, makes `createStockTransfer` fail, and
leaves the database unchanged. -/
theorem C6_insufficient_stock_witness :
    specInsufficient (fun pid => stockQty exStockDB 1 1 pid)
        exBigTransferParams.items = true ∧
    (createStockTransfer exBigTransferParams exStockDB).isOk = false ∧
    runCreateStockTransfer exBigTransferParams exStockDB = exStockDB := by
  have h := C6_insufficient_stock exBigTransferParams exStockDB WF_exStockDB
    (by decide) (by decide) (by decide) (by decide) (by rfl)
  have hspec : specInsufficient (fun pid => stockQty exStockDB 1 1 pid)
      exBigTransferParams.items = true := by decide
  refine ⟨hspec, h.1.mpr hspec, ?_⟩
  exact (h.2 ⟨400, "Insufficient stock for product 42 in branch 1"⟩ (by rfl)).2

theorem WF_exC3Init : WF exC3Init := by
  unfold WF
  decide

theorem execCmd_conserve (c : Cmd) (db : DB) (hWF : WF db) :
    WF (execCmd db c) ∧ ∀ b br p,
      stockQty (execCmd db c) b br p - movementSum (execCmd db c) b br p =
        stockQty db b br p - movementSum db b br p := by
  cases c with
  | sale p fail =>
      show WF (runCreateSale p fail db) ∧ ∀ b br pp,
        stockQty (runCreateSale p fail db) b br pp -
          movementSum (runCreateSale p fail db) b br pp =
          stockQty db b br pp - movementSum db b br pp
      unfold runCreateSale
      cases h : createSale p fail db with
      | error e => exact ⟨hWF, fun _ _ _ => rfl⟩
      | ok r =>
          obtain ⟨sid, db1⟩ := r
          exact ⟨createSale_WF hWF h, fun b br pp => createSale_conserve hWF h b br pp⟩
  | ret p =>
      show WF (runCreateReturn p db) ∧ ∀ b br pp,
        stockQty (runCreateReturn p db) b br pp -
          movementSum (runCreateReturn p db) b br pp =
          stockQty db b br pp - movementSum db b br pp
      unfold runCreateReturn
      cases h : createReturn p db with
      | error e => exact ⟨hWF, fun _ _ _ => rfl⟩
      | ok r =>
          obtain ⟨rid, db1⟩ := r
          obtain ⟨saleRow, vs, -, -, hWF', -, -, -, -, -, -, -, -, -, hcons⟩ :=
            createReturn_effects hWF h
          exact ⟨hWF', fun b br pp => hcons b br pp⟩
  | transfer p =>
      show WF (runCreateStockTransfer p db) ∧ ∀ b br pp,
        stockQty (runCreateStockTransfer p db) b br pp -
          movementSum (runCreateStockTransfer p db) b br pp =
          stockQty db b br pp - movementSum db b br pp
      unfold runCreateStockTransfer
      cases h : createStockTransfer p db with
      | error e => exact ⟨hWF, fun _ _ _ => rfl⟩
      | ok r =>
          obtain ⟨tid, db1⟩ := r
          obtain ⟨-, -, -, -, hval, -, hloop⟩ := createStockTransfer_ok_decompose h
          have hWF1 := WF_insTransfer hWF p
          have hq := transferValidate_none hval
          exact ⟨(transferLoop_WF hWF1 hq hloop).1,
            fun b br pp => transferLoop_conserve hWF1 hq hloop b br pp⟩

theorem execSeq_WF_conserve : ∀ (cs : List Cmd) (db : DB), WF db →
    WF (execSeq db cs) ∧ ∀ b br p,
      stockQty (execSeq db cs) b br p - movementSum (execSeq db cs) b br p =
        stockQty db b br p - movementSum db b br p := by
  intro cs
  induction cs with
  | nil => intro db hWF; exact ⟨hWF, fun _ _ _ => rfl⟩
  | cons c rest ih =>
      intro db hWF
      obtain ⟨hWFc, hconsc⟩ := execCmd_conserve c db hWF
      obtain ⟨hWFr, hconsr⟩ := ih (execCmd db c) hWFc
      exact ⟨hWFr, fun b br p => (hconsr b br p).trans (hconsc b br p)⟩

/-- C3 (as stated, refuted): after a (validation-free) sale of −5 units of
product 42 at branch 1 followed by a transfer of 3 units from branch 1 to
branch 2, no signing of movement rows by their recorded `type` and
`quantity` fields alone can balance both branches: the two transfer rows
share type `adjustment` and the same positive quantity 3, yet branch 1
needs them counted −3 and branch 2 needs +3 — the direction lives only in
the note.  The stated claim's per-(type, quantity) signed sum therefore
cannot equal the stock level at every key of this reachable state. -/
theorem C3_counterexample : ¬ TypeQtySignedConservation exC3DB := by
  rintro ⟨delta, hsale, hret, hall⟩
  have hq1 : stockQty exC3DB 1 1 42 = 2 := by decide
  have hq2 : stockQty exC3DB 1 2 42 = 3 := by decide
  have hfil1 : exC3DB.stockMovements.filter (movKey 1 1 42) =
      [⟨103, 1, 1, 42, 7, .sale, -5, .posSale⟩,
       ⟨108, 1, 1, 42, 7, .adjustment, 3, .transferOut 2 105⟩] := by decide
  have hfil2 : exC3DB.stockMovements.filter (movKey 1 2 42) =
      [⟨109, 1, 2, 42, 7, .adjustment, 3, .transferIn 1 105⟩] := by decide
  have hc1 : claimSignedSum delta exC3DB 1 1 42 =
      delta .sale (-5) + delta .adjustment 3 := by
    unfold claimSignedSum
    rw [hfil1]
    simp
  have hc2 : claimSignedSum delta exC3DB 1 2 42 = delta .adjustment 3 := by
    unfold claimSignedSum
    rw [hfil2]
    simp
  have h1 := hall 1 1 42
  have h2 := hall 1 2 42
  rw [hq1, hc1, hsale] at h1
  rw [hq2, hc2] at h2
  omega

/-- **C3 (amended).** For every (businessId, branchId, productId) key and
every sequence of createSale, createReturn and createStockTransfer calls
(failed calls rolling back) from any well-formed state satisfying the
invariant — in particular the empty store — the final stock level equals
the signed sum of the movement rows for that key, where sale rows count
negative, return rows positive, and a transfer's two `adjustment` rows are
signed by their note (transfer-out negative at the source, transfer-in
positive at the destination): the recorded `type` and `quantity` fields
alone do not determine a transfer row's sign, since both rows carry type
`adjustment` and the same positive quantity. -/
theorem C3_noteSigned_conservation (cs : List Cmd) (db : DB) (hWF : WF db)
    (hC : Conservation db) : Conservation (execSeq db cs) := by
  obtain ⟨-, hcons⟩ := execSeq_WF_conserve cs db hWF
  intro b br p
  have h1 := hcons b br p
  have h0 := hC b br p
  omega

/-- Witness for the amended C3: the counterexample state itself — a sale of
−5 then a transfer of 3 from an empty ledger — satisfies note-signed
conservation. -/
theorem C3_witness :
    Conservation (execSeq exC3Init
      [.sale exNegSaleParams noFail, .transfer exTransferParams]) :=
  C3_noteSigned_conservation [.sale exNegSaleParams noFail, .transfer exTransferParams]
    exC3Init WF_exC3Init (fun _ _ _ => rfl)

/-- **C9.** `updateStockTransferStatus` only mutates the matched transfer's
status field: when a transfer with the given id exists in the business the
call succeeds for any requested status and any current status (no
transition guard), returns the row with the new status, rewrites only the
`status` of matching `stock_transfers` rows (every non-status field of
every transfer row is preserved, as are non-matching rows entirely), and
writes no stock movement, no stock-level change, and no change to any
other table or to the id counter; when no such transfer exists it fails
404 and changes nothing. -/
theorem C9_status_update_frame (id businessId : Nat) (status : TransferStatus)
    (db : DB) :
    (db.stockTransfers.find? (fun t => t.id == id && t.businessId == businessId) =
        none →
      updateStockTransferStatus id businessId status db =
        .error ⟨404, "Stock transfer not found"⟩ ∧
      runUpdateStockTransferStatus id businessId status db = db) ∧
    (∀ t, db.stockTransfers.find?
        (fun t => t.id == id && t.businessId == businessId) = some t →
      ∃ db', updateStockTransferStatus id businessId status db =
          .ok ({ t with status := status }, db') ∧
        runUpdateStockTransferStatus id businessId status db = db' ∧
        db'.stockTransfers = db.stockTransfers.map
          (fun r => if r.id == id && r.businessId == businessId
            then { r with status := status } else r) ∧
        db'.stockTransfers.map tCore = db.stockTransfers.map tCore ∧
        db'.stockMovements = db.stockMovements ∧
        db'.stockLevels = db.stockLevels ∧
        db'.sales = db.sales ∧ db'.saleItems = db.saleItems ∧
        db'.cashRegisterEntries = db.cashRegisterEntries ∧
        db'.returns = db.returns ∧ db'.returnItems = db.returnItems ∧
        db'.stockTransferItems = db.stockTransferItems ∧
        db'.branches = db.branches ∧ db'.products = db.products ∧
        db'.nextId = db.nextId) := by
  constructor
  · intro hfind
    constructor
    · unfold updateStockTransferStatus
      rw [hfind]
    · unfold runUpdateStockTransferStatus updateStockTransferStatus
      rw [hfind]
  · intro t hfind
    refine ⟨{ db with
        stockTransfers := db.stockTransfers.map
          (fun r => if r.id == id && r.businessId == businessId
            then { r with status := status } else r) }, ?_, ?_, rfl, ?_, rfl, rfl,
      rfl, rfl, rfl, rfl, rfl, rfl, rfl, rfl, rfl⟩
    · unfold updateStockTransferStatus
      rw [hfind]
    · unfold runUpdateStockTransferStatus updateStockTransferStatus
      rw [hfind]
    · show (db.stockTransfers.map
        (fun r => if r.id == id && r.businessId == businessId
          then { r with status := status } else r)).map tCore =
        db.stockTransfers.map tCore
      rw [List.map_map]
      apply List.map_congr_left
      intro r _
      show tCore (if r.id == id && r.businessId == businessId
        then { r with status := status } else r) = tCore r
      by_cases hc : (r.id == id && r.businessId == businessId) = true
      · rw [if_pos hc]
        rfl
      · rw [if_neg hc]

/-- Witness for C9: in `exTransferDB`, updating unknown transfer 99 fails
404 with no change, while jumping pending transfer 15 straight to
`received` succeeds, returning the row with only its status replaced and
leaving every other table identical. -/
theorem C9_witness :
    (updateStockTransferStatus 99 1 .received exTransferDB =
        .error ⟨404, "Stock transfer not found"⟩ ∧
      runUpdateStockTransferStatus 99 1 .received exTransferDB = exTransferDB) ∧
    (∃ db', updateStockTransferStatus 15 1 .received exTransferDB =
        .ok ({ exTransferRow with status := .received }, db') ∧
      runUpdateStockTransferStatus 15 1 .received exTransferDB = db' ∧
      db'.stockTransfers = exTransferDB.stockTransfers.map
        (fun r => if r.id == 15 && r.businessId == 1
          then { r with status := .received } else r) ∧
      db'.stockTransfers.map tCore = exTransferDB.stockTransfers.map tCore ∧
      db'.stockMovements = exTransferDB.stockMovements ∧
      db'.stockLevels = exTransferDB.stockLevels ∧
      db'.sales = exTransferDB.sales ∧ db'.saleItems = exTransferDB.saleItems ∧
      db'.cashRegisterEntries = exTransferDB.cashRegisterEntries ∧
      db'.returns = exTransferDB.returns ∧ db'.returnItems = exTransferDB.returnItems ∧
      db'.stockTransferItems = exTransferDB.stockTransferItems ∧
      db'.branches = exTransferDB.branches ∧ db'.products = exTransferDB.products ∧
      db'.nextId = exTransferDB.nextId) :=
  ⟨(C9_status_update_frame 99 1 .received exTransferDB).1 (by rfl),
   (C9_status_update_frame 15 1 .received exTransferDB).2 exTransferRow (by rfl)⟩

theorem filter_setLevelQty_ne {levels : List StockLevelRow}
    (hnd : (levels.map (fun r => r.id)).Nodup) {l : StockLevelRow}
    (hmem : l ∈ levels) (q : Int) {bX : Nat} (hbX : (l.businessId == bX) = false) :
    (setLevelQty l.id q levels).filter (fun r => r.businessId == bX) =
      levels.filter (fun r => r.businessId == bX) := by
  have hinj : ∀ r ∈ levels, r.id = l.id → r = l := by
    intro r hr he
    exact List.inj_on_of_nodup_map hnd hr hmem he
  unfold setLevelQty
  rw [List.filter_map]
  have h1 : levels.filter ((fun r => r.businessId == bX) ∘
      (fun r => if r.id = l.id then { r with quantity := q } else r)) =
      levels.filter (fun r => r.businessId == bX) := by
    apply List.filter_congr
    intro r _
    show ((if r.id = l.id then { r with quantity := q } else r).businessId == bX) = _
    by_cases hid : r.id = l.id
    · rw [if_pos hid]
    · rw [if_neg hid]
  rw [h1]
  have h2 : ∀ r ∈ levels.filter (fun r => r.businessId == bX),
      (if r.id = l.id then { r with quantity := q } else r) = r := by
    intro r hr
    obtain ⟨hrl, hrp⟩ := List.mem_filter.mp hr
    have hne : r.id ≠ l.id := by
      intro he
      rw [hinj r hrl he] at hrp
      rw [hbX] at hrp
      cases hrp
    rw [if_neg hne]
  calc (levels.filter (fun r => r.businessId == bX)).map
        (fun r => if r.id = l.id then { r with quantity := q } else r)
      = (levels.filter (fun r => r.businessId == bX)).map id := List.map_congr_left h2
    _ = _ := List.map_id _

theorem filter_applyDelta_ne {db : DB}
    (hnd : (db.stockLevels.map (fun r => r.id)).Nodup)
    (b br p : Nat) (δ : Int) {bX : Nat} (hbX : (b == bX) = false) :
    (applyDelta b br p δ db).stockLevels.filter (fun r => r.businessId == bX) =
      db.stockLevels.filter (fun r => r.businessId == bX) := by
  unfold applyDelta
  cases hfl : findLevel b br p db.stockLevels with
  | none =>
      show ((db.stockLevels ++ [(⟨db.nextId, b, br, p, δ⟩ : StockLevelRow)]).filter
        (fun r => r.businessId == bX)) = _
      rw [List.filter_append]
      have hnew : ([(⟨db.nextId, b, br, p, δ⟩ : StockLevelRow)].filter
          (fun r => r.businessId == bX)) = [] := by
        simp only [List.filter_cons, List.filter_nil]
        rw [show ((⟨db.nextId, b, br, p, δ⟩ : StockLevelRow).businessId == bX) = false
          from hbX]
        rfl
      rw [hnew, List.append_nil]
  | some l =>
      have hmem : l ∈ db.stockLevels := List.mem_of_find?_eq_some hfl
      have hkey : levelKey b br p l = true := List.find?_some hfl
      have hlb : l.businessId = b := (levelKey_iff.mp hkey).1
      show (setLevelQty l.id (l.quantity + δ) db.stockLevels).filter
        (fun r => r.businessId == bX) = _
      exact filter_setLevelQty_ne hnd hmem (l.quantity + δ) (by rw [hlb]; exact hbX)

theorem bizView_insMovement (b br p uid : Nat) (t : MovementType) (q : Int)
    (n : Note) (db : DB) {bX : Nat} (hbX : (b == bX) = false) :
    bizView bX (insMovement b br p uid t q n db) = bizView bX db := by
  unfold bizView
  simp only [Prod.mk.injEq]
  refine ⟨rfl, rfl, rfl, rfl, ?_, rfl⟩
  show (db.stockMovements ++ [(⟨db.nextId, b, br, p, uid, t, q, n⟩ : MovementRow)]).filter
    (fun r => r.businessId == bX) = _
  rw [List.filter_append]
  have hnew : ([(⟨db.nextId, b, br, p, uid, t, q, n⟩ : MovementRow)].filter
      (fun r => r.businessId == bX)) = [] := by
    simp only [List.filter_cons, List.filter_nil]
    rw [show ((⟨db.nextId, b, br, p, uid, t, q, n⟩ : MovementRow).businessId == bX) =
      false from hbX]
    rfl
  rw [hnew, List.append_nil]

theorem bizView_applyDelta {db : DB}
    (hnd : (db.stockLevels.map (fun r => r.id)).Nodup)
    (b br p : Nat) (δ : Int) {bX : Nat} (hbX : (b == bX) = false) :
    bizView bX (applyDelta b br p δ db) = bizView bX db := by
  unfold bizView
  simp only [Prod.mk.injEq]
  exact ⟨by rw [applyDelta_sales], by rw [applyDelta_returns],
    by rw [applyDelta_transfers], filter_applyDelta_ne hnd b br p δ hbX,
    by rw [applyDelta_stockMovements], by rw [applyDelta_cash]⟩

theorem bizView_insSale (p : CreateSaleParams) (db : DB) {bX : Nat}
    (hbX : (p.businessId == bX) = false) :
    bizView bX (insSale p db) = bizView bX db := by
  unfold bizView
  simp only [Prod.mk.injEq]
  refine ⟨?_, rfl, rfl, rfl, rfl, rfl⟩
  show (db.sales ++ [(⟨db.nextId, p.businessId, p.branchId, p.userId, p.totalAmount,
    .completed, p.offlineId⟩ : SaleRow)]).filter (fun r => r.businessId == bX) = _
  rw [List.filter_append]
  have hnew : ([(⟨db.nextId, p.businessId, p.branchId, p.userId, p.totalAmount,
      .completed, p.offlineId⟩ : SaleRow)].filter (fun r => r.businessId == bX)) = [] := by
    simp only [List.filter_cons, List.filter_nil]
    rw [show ((⟨db.nextId, p.businessId, p.branchId, p.userId, p.totalAmount,
      .completed, p.offlineId⟩ : SaleRow).businessId == bX) = false from hbX]
    rfl
  rw [hnew, List.append_nil]

theorem bizView_insCash (p : CreateSaleParams) (sid : Nat) (db : DB) {bX : Nat}
    (hbX : (p.businessId == bX) = false) :
    bizView bX (insCash p sid db) = bizView bX db := by
  unfold bizView
  simp only [Prod.mk.injEq]
  refine ⟨rfl, rfl, rfl, rfl, rfl, ?_⟩
  show (db.cashRegisterEntries ++ [(⟨db.nextId, p.businessId, p.branchId, sid,
    p.paymentMethod, p.referenceCode, p.totalAmount, p.userId⟩ :
      CashRegisterEntryRow)]).filter (fun r => r.businessId == bX) = _
  rw [List.filter_append]
  have hnew : ([(⟨db.nextId, p.businessId, p.branchId, sid, p.paymentMethod,
      p.referenceCode, p.totalAmount, p.userId⟩ : CashRegisterEntryRow)].filter
      (fun r => r.businessId == bX)) = [] := by
    simp only [List.filter_cons, List.filter_nil]
    rw [show ((⟨db.nextId, p.businessId, p.branchId, sid, p.paymentMethod,
      p.referenceCode, p.totalAmount, p.userId⟩ :
        CashRegisterEntryRow).businessId == bX) = false from hbX]
    rfl
  rw [hnew, List.append_nil]

theorem bizView_insReturn (businessId branchId saleId userId : Nat)
    (totalAmount : Int) (reason : Option String) (refundMethod : Option PaymentMethod)
    (referenceCode : Option String) (db : DB) {bX : Nat}
    (hbX : (businessId == bX) = false) :
    bizView bX (insReturn businessId branchId saleId userId totalAmount reason
      refundMethod referenceCode db) = bizView bX db := by
  unfold bizView
  simp only [Prod.mk.injEq]
  refine ⟨rfl, ?_, rfl, rfl, rfl, rfl⟩
  show (db.returns ++ [(⟨db.nextId, businessId, branchId, saleId, userId, totalAmount,
    jsTrimOrNull reason, refundMethod, jsTrimOrNull referenceCode⟩ : ReturnRow)]).filter
      (fun r => r.businessId == bX) = _
  rw [List.filter_append]
  have hnew : ([(⟨db.nextId, businessId, branchId, saleId, userId, totalAmount,
      jsTrimOrNull reason, refundMethod, jsTrimOrNull referenceCode⟩ :
        ReturnRow)].filter (fun r => r.businessId == bX)) = [] := by
    simp only [List.filter_cons, List.filter_nil]
    rw [show ((⟨db.nextId, businessId, branchId, saleId, userId, totalAmount,
      jsTrimOrNull reason, refundMethod, jsTrimOrNull referenceCode⟩ :
        ReturnRow).businessId == bX) = false from hbX]
    rfl
  rw [hnew, List.append_nil]

theorem bizView_insTransfer (p : CreateStockTransferParams) (db : DB) {bX : Nat}
    (hbX : (p.businessId == bX) = false) :
    bizView bX (insTransfer p db) = bizView bX db := by
  unfold bizView
  simp only [Prod.mk.injEq]
  refine ⟨rfl, rfl, ?_, rfl, rfl, rfl⟩
  show (db.stockTransfers ++ [(⟨db.nextId, p.businessId, p.fromBranchId, p.toBranchId,
    p.userId, .pending⟩ : StockTransferRow)]).filter (fun r => r.businessId == bX) = _
  rw [List.filter_append]
  have hnew : ([(⟨db.nextId, p.businessId, p.fromBranchId, p.toBranchId, p.userId,
      .pending⟩ : StockTransferRow)].filter (fun r => r.businessId == bX)) = [] := by
    simp only [List.filter_cons, List.filter_nil]
    rw [show ((⟨db.nextId, p.businessId, p.fromBranchId, p.toBranchId, p.userId,
      .pending⟩ : StockTransferRow).businessId == bX) = false from hbX]
    rfl
  rw [hnew, List.append_nil]

theorem saleStep_biz {p : CreateSaleParams} {fail : Nat → Bool} {sid : Nat}
    {item : CreateSaleItemInput} {s s' : TxSt} (hWF : WF s.db)
    (h : saleStep p fail sid item s = .ok s') {bX : Nat}
    (hbX : (p.businessId == bX) = false) :
    bizView bX s'.db = bizView bX s.db := by
  obtain ⟨hdb, -⟩ := saleStep_ok h
  rw [hdb]
  have hnd1 : ((insSaleItem sid item s.db).stockLevels.map (fun r => r.id)).Nodup :=
    hWF.2.1
  rw [bizView_insMovement _ _ _ _ _ _ _ _ hbX,
    bizView_applyDelta hnd1 _ _ _ _ hbX]
  rfl

theorem saleLoop_biz {p : CreateSaleParams} {fail : Nat → Bool} {sid : Nat} :
    ∀ {items : List CreateSaleItemInput} {s s' : TxSt}, WF s.db → sid < s.db.nextId →
      saleLoop p fail sid items s = .ok s' → ∀ {bX : Nat},
      (p.businessId == bX) = false → bizView bX s'.db = bizView bX s.db := by
  intro items
  induction items with
  | nil =>
      intro s s' _ _ h bX hbX
      simp only [saleLoop, Except.ok.injEq] at h
      rw [← h]
  | cons i rest ih =>
      intro s s' hWF hsid h bX hbX
      obtain ⟨s1, hstep, hrest⟩ := bind_ok_inv h
      have hWF1 : WF s1.db := saleStep_WF hWF hsid hstep
      have hsid1 : sid < s1.db.nextId := lt_of_lt_of_le hsid (saleStep_mono hstep)
      rw [ih hWF1 hsid1 hrest hbX]
      exact saleStep_biz hWF hstep hbX

theorem createSale_biz {p : CreateSaleParams} {fail : Nat → Bool} {db : DB}
    (hWF : WF db) {bX : Nat} (hbX : (p.businessId == bX) = false) :
    bizView bX (runCreateSale p fail db) = bizView bX db := by
  unfold runCreateSale
  cases h : createSale p fail db with
  | error e => rfl
  | ok r =>
      obtain ⟨sid, db'⟩ := r
      obtain ⟨-, -, s2, hloop, hdb'⟩ := createSale_ok_decompose h
      show bizView bX db' = bizView bX db
      rw [hdb']
      have hWF1 : WF (insSale p db) := WF_insSale hWF p
      have hsid1 : db.nextId < (insSale p db).nextId := Nat.lt_succ_self _
      rw [bizView_insCash _ _ _ hbX]
      rw [@saleLoop_biz p fail db.nextId p.items ⟨insSale p db, 1⟩ s2 hWF1 hsid1 hloop bX hbX]
      exact bizView_insSale p db hbX

theorem returnTxLoop_biz {b br uid sid : Nat} {reason : Option String} {rid : Nat} :
    ∀ (vs : List ValidatedReturnItem) (db : DB), WF db → rid < db.nextId →
      ∀ {bX : Nat}, (b == bX) = false →
      bizView bX (returnTxLoop b br uid sid reason rid vs db) = bizView bX db := by
  intro vs
  induction vs with
  | nil =>
      intro db _ _ bX _
      rfl
  | cons v rest ih =>
      intro db hWF hrid bX hbX
      show bizView bX (returnTxLoop b br uid sid reason rid rest
        (insMovement b br v.productId uid .ret v.quantity (.saleReturn sid reason)
          (applyDelta b br v.productId v.quantity (insReturnItem rid v db)))) = _
      rw [ih _ (returnStep_WF hWF hrid)
        (lt_of_lt_of_le hrid returnStep_mono) hbX]
      have hnd1 : ((insReturnItem rid v db).stockLevels.map (fun r => r.id)).Nodup :=
        hWF.2.1
      rw [bizView_insMovement _ _ _ _ _ _ _ _ hbX,
        bizView_applyDelta hnd1 _ _ _ _ hbX]
      rfl

theorem createReturn_biz {p : CreateReturnParams} {db : DB} (hWF : WF db)
    {bX : Nat} (hbX : (p.businessId == bX) = false) :
    bizView bX (runCreateReturn p db) = bizView bX db := by
  unfold runCreateReturn
  cases h : createReturn p db with
  | error e => rfl
  | ok r =>
      obtain ⟨rid, db'⟩ := r
      obtain ⟨saleRow, vs, -, -, -, hdb'⟩ := createReturn_ok_decompose h
      show bizView bX db' = bizView bX db
      rw [hdb']
      have hWF1 : WF (insReturn p.businessId saleRow.branchId p.saleId p.userId
          ((vs.map (fun v => v.lineTotal)).sum) p.reason p.refundMethod
          p.referenceCode db) := WF_insReturn hWF _ _ _ _ _ _ _ _
      have hrid1 : db.nextId < (insReturn p.businessId saleRow.branchId p.saleId
          p.userId ((vs.map (fun v => v.lineTotal)).sum) p.reason p.refundMethod
          p.referenceCode db).nextId := Nat.lt_succ_self _
      rw [returnTxLoop_biz vs _ hWF1 hrid1 hbX]
      exact bizView_insReturn _ _ _ _ _ _ _ _ db hbX

theorem transferStep_biz {b fromBr toBr uid tid : Nat}
    {item : CreateStockTransferItemInput} {db db1 : DB} (hWF : WF db)
    (hq : 0 < item.quantity)
    (h : transferStep b fromBr toBr uid tid item db = .ok db1) {bX : Nat}
    (hbX : (b == bX) = false) :
    bizView bX db1 = bizView bX db := by
  obtain ⟨l, hfl, hlt, hdb1⟩ := transferStep_ok hq h
  rw [hdb1]
  have hmem : l ∈ db.stockLevels := List.mem_of_find?_eq_some hfl
  have hlb : l.businessId = b :=
    (levelKey_iff.mp (List.find?_some hfl)).1
  rw [bizView_insMovement _ _ _ _ _ _ _ _ hbX,
    bizView_insMovement _ _ _ _ _ _ _ _ hbX]
  have hmid : bizView bX (insTransferItem tid item.productId item.quantity
      (applyDelta b toBr item.productId item.quantity
        { db with stockLevels :=
            setLevelQty l.id (l.quantity - item.quantity) db.stockLevels })) =
      bizView bX (applyDelta b toBr item.productId item.quantity
        { db with stockLevels :=
            setLevelQty l.id (l.quantity - item.quantity) db.stockLevels }) := rfl
  rw [hmid]
  have hnd0 : ((setLevelQty l.id (l.quantity - item.quantity)
      db.stockLevels).map (fun r => r.id)).Nodup := by
    rw [setLevelQty_map_id]
    exact hWF.2.1
  have hstep3 := @bizView_applyDelta { db with stockLevels := setLevelQty l.id (l.quantity - item.quantity) db.stockLevels } hnd0 b toBr item.productId item.quantity bX hbX
  rw [hstep3]
  unfold bizView
  simp only [Prod.mk.injEq, and_true, true_and]
  show (setLevelQty l.id (l.quantity - item.quantity) db.stockLevels).filter
    (fun r => r.businessId == bX) =
    db.stockLevels.filter (fun r => r.businessId == bX)
  exact filter_setLevelQty_ne hWF.2.1 hmem _ (by rw [hlb]; exact hbX)

theorem transferLoop_biz {b fromBr toBr uid tid : Nat} :
    ∀ {items : List CreateStockTransferItemInput} {db db' : DB}, WF db →
      (∀ i ∈ items, 0 < i.quantity) →
      transferLoop b fromBr toBr uid tid items db = .ok db' → ∀ {bX : Nat},
      (b == bX) = false → bizView bX db' = bizView bX db := by
  intro items
  induction items with
  | nil =>
      intro db db' _ _ h bX hbX
      cases h
      rfl
  | cons i rest ih =>
      intro db db' hWF hq h bX hbX
      unfold transferLoop at h
      cases hstep : transferStep b fromBr toBr uid tid i db with
      | error e => rw [hstep] at h; cases h
      | ok db1 =>
          rw [hstep] at h
          have hqi : 0 < i.quantity := hq i (List.mem_cons_self i rest)
          rw [ih (transferStep_WF hWF hqi hstep)
            (fun j hj => hq j (List.mem_cons_of_mem i hj)) h hbX]
          exact transferStep_biz hWF hqi hstep hbX

theorem createStockTransfer_biz {p : CreateStockTransferParams} {db : DB}
    (hWF : WF db) {bX : Nat} (hbX : (p.businessId == bX) = false) :
    bizView bX (runCreateStockTransfer p db) = bizView bX db := by
  unfold runCreateStockTransfer
  cases h : createStockTransfer p db with
  | error e => rfl
  | ok r =>
      obtain ⟨tid, db'⟩ := r
      obtain ⟨-, -, -, -, hval, -, hloop⟩ := createStockTransfer_ok_decompose h
      show bizView bX db' = bizView bX db
      rw [transferLoop_biz (WF_insTransfer hWF p) (transferValidate_none hval)
        hloop hbX]
      exact bizView_insTransfer p db hbX

theorem updateStockTransferStatus_biz (id businessId : Nat) (st : TransferStatus)
    (db : DB) {bX : Nat} (hbX : (businessId == bX) = false) :
    bizView bX (runUpdateStockTransferStatus id businessId st db) = bizView bX db := by
  unfold runUpdateStockTransferStatus updateStockTransferStatus
  cases hfind : db.stockTransfers.find?
      (fun t => t.id == id && t.businessId == businessId) with
  | none => rfl
  | some t =>
      unfold bizView
      simp only [Prod.mk.injEq, and_true, true_and]
      show (db.stockTransfers.map
          (fun r => if r.id == id && r.businessId == businessId
            then { r with status := st } else r)).filter (fun r => r.businessId == bX) =
        db.stockTransfers.filter (fun r => r.businessId == bX)
      rw [List.filter_map]
      have h1 : db.stockTransfers.filter ((fun r => r.businessId == bX) ∘
          (fun r => if r.id == id && r.businessId == businessId
            then { r with status := st } else r)) =
          db.stockTransfers.filter (fun r => r.businessId == bX) := by
        apply List.filter_congr
        intro r _
        show ((if r.id == id && r.businessId == businessId
          then { r with status := st } else r).businessId == bX) = _
        by_cases hc : (r.id == id && r.businessId == businessId) = true
        · rw [if_pos hc]
        · rw [if_neg hc]
      rw [h1]
      have h2 : ∀ r ∈ db.stockTransfers.filter (fun r => r.businessId == bX),
          (if r.id == id && r.businessId == businessId
            then { r with status := st } else r) = r := by
        intro r hr
        obtain ⟨-, hrp⟩ := List.mem_filter.mp hr
        have hc : (r.id == id && r.businessId == businessId) = false := by
          have hrb : r.businessId = bX := eq_of_beq hrp
          have hnb : businessId ≠ bX := by
            intro he
            rw [he] at hbX
            simp at hbX
          rw [hrb]
          simp only [Bool.and_eq_false_iff]
          right
          simp only [beq_eq_false_iff_ne, ne_eq]
          exact fun e => hnb e.symm
        rw [if_neg (by rw [hc]; exact Bool.false_ne_true)]
      calc (db.stockTransfers.filter (fun r => r.businessId == bX)).map
            (fun r => if r.id == id && r.businessId == businessId
              then { r with status := st } else r)
          = (db.stockTransfers.filter (fun r => r.businessId == bX)).map
              (fun r => r) := List.map_congr_left h2
        _ = _ := List.map_id' _

/-- **C8.** Business isolation: a `createSale`, `createReturn`,
`createStockTransfer` or `updateStockTransferStatus` call made for one
business never reads or writes another business's rows — every other
business's sales, returns, stock transfers, stock levels, stock movements
and cash-register entries are exactly unchanged, whether the call succeeds
or fails; moreover `createReturn` on a saleId whose sale belongs to a
different business fails 404, and `getStockTransferById` / `getReturnById`
for an id held by a different business return `none`, regardless of that
business's data. -/
theorem C8_business_isolation (bX : Nat) :
    (∀ (p : CreateSaleParams) (fail : Nat → Bool) (db : DB), WF db →
      (p.businessId == bX) = false →
      bizView bX (runCreateSale p fail db) = bizView bX db) ∧
    (∀ (p : CreateReturnParams) (db : DB), WF db → (p.businessId == bX) = false →
      bizView bX (runCreateReturn p db) = bizView bX db) ∧
    (∀ (p : CreateStockTransferParams) (db : DB), WF db →
      (p.businessId == bX) = false →
      bizView bX (runCreateStockTransfer p db) = bizView bX db) ∧
    (∀ (tid businessId : Nat) (st : TransferStatus) (db : DB),
      (businessId == bX) = false →
      bizView bX (runUpdateStockTransferStatus tid businessId st db) =
        bizView bX db) ∧
    (∀ (p : CreateReturnParams) (db : DB), p.items.isEmpty = false →
      (∀ s ∈ db.sales, s.id = p.saleId → s.businessId ≠ p.businessId) →
      createReturn p db = .error ⟨404, "Sale not found for this business"⟩) ∧
    (∀ (tid businessId : Nat) (db : DB),
      (∀ t ∈ db.stockTransfers, t.id = tid → t.businessId ≠ businessId) →
      getStockTransferById tid businessId db = none) ∧
    (∀ (rid businessId : Nat) (db : DB),
      (∀ r ∈ db.returns, r.id = rid → r.businessId ≠ businessId) →
      getReturnById rid businessId db = none) := by
  refine ⟨fun p fail db hWF hbX => createSale_biz hWF hbX,
    fun p db hWF hbX => createReturn_biz hWF hbX,
    fun p db hWF hbX => createStockTransfer_biz hWF hbX,
    fun tid businessId st db hbX =>
      updateStockTransferStatus_biz tid businessId st db hbX, ?_, ?_, ?_⟩
  · intro p db hne hforeign
    have hfind : db.sales.find?
        (fun s => s.id == p.saleId && s.businessId == p.businessId) = none := by
      rw [List.find?_eq_none]
      intro s hs hc
      rw [Bool.and_eq_true] at hc
      exact hforeign s hs (eq_of_beq hc.1) (eq_of_beq hc.2)
    unfold createReturn
    rw [if_neg (by simp [hne]), hfind]
  · intro tid businessId db hforeign
    have hfind : db.stockTransfers.find?
        (fun t => t.id == tid && t.businessId == businessId) = none := by
      rw [List.find?_eq_none]
      intro t ht hc
      rw [Bool.and_eq_true] at hc
      exact hforeign t ht (eq_of_beq hc.1) (eq_of_beq hc.2)
    unfold getStockTransferById
    rw [hfind]
    rfl
  · intro rid businessId db hforeign
    have hfind : db.returns.find?
        (fun r => r.id == rid && r.businessId == businessId) = none := by
      rw [List.find?_eq_none]
      intro r hr hc
      rw [Bool.and_eq_true] at hc
      exact hforeign r hr (eq_of_beq hc.1) (eq_of_beq hc.2)
    unfold getReturnById
    rw [hfind]
    rfl

/-- Witness for C8: against the two-business fixtures, business 1's sale,
transfer, duplicate-product return and status update leave business 2's
view untouched; a return by business 1 against business 2's sale 10 is
404; and business 2's transfer 15 / business 2's return 17 are invisible
to reads under the other business id. -/
theorem C8_witness :
    bizView 2 (runCreateSale exSaleParams noFail exStockDB) = bizView 2 exStockDB ∧
    bizView 2 (runCreateReturn exDupReturnParams exDB1) = bizView 2 exDB1 ∧
    bizView 2 (runCreateStockTransfer exTransferParams exStockDB) =
      bizView 2 exStockDB ∧
    bizView 2 (runUpdateStockTransferStatus 15 1 .received exTransferDB) =
      bizView 2 exTransferDB ∧
    createReturn ⟨1, none, 7, 10, [⟨43, 1⟩], none, none, none⟩ exReturnDB =
      .error ⟨404, "Sale not found for this business"⟩ ∧
    getStockTransferById 15 2 exTransferDB = none ∧
    getReturnById 17 1 exReturnDB = none := by
  obtain ⟨hs, hr, ht, hu, hcr, hgt, hgr⟩ := C8_business_isolation 2
  exact ⟨hs exSaleParams noFail exStockDB WF_exStockDB (by decide),
    hr exDupReturnParams exDB1 WF_exDB1 (by decide),
    ht exTransferParams exStockDB WF_exStockDB (by decide),
    hu 15 1 .received exTransferDB (by decide),
    hcr ⟨1, none, 7, 10, [⟨43, 1⟩], none, none, none⟩ exReturnDB (by decide)
      (by decide),
    hgt 15 2 exTransferDB (by decide),
    hgr 17 1 exReturnDB (by decide)⟩
